import Mathlib

/-!
Verification of the Tic-Tac-Toe game model and minimax search agent
(`TicTacToe` and `MinimaxAgent` classes of `gui_game.py`).

The embedding is a shallow, purely functional translation:

* `Game` mirrors the `TicTacToe` object: a 3x3 board stored as a list of
  lists of cells (a cell is `Option Player`, `none` standing for `' '`),
  plus the `current_player` field.
* Mutating methods (`make_move`) return the updated object; query methods
  are pure functions.
* Python's `-math.inf` / `math.inf` sentinels and the integer utilities
  flowing through the search are modelled by `EV` (extended values).
* The recursions `_max`/`_min` and `_ab_max`/`_ab_min` are embedded with
  an explicit fuel argument (structural recursion); fuel `10` is enough
  for every well-formed 3x3 board, since each recursive call fills one of
  at most 9 empty cells.  The `nodes_expanded` counter is threaded as an
  accumulating component of each result.

Comparisons and list indexing are written as first-order `Bool`-valued
functions (rather than through `Decidable` instances) so that concrete
searches can be evaluated by kernel reduction; each such helper is a
direct transcription of the corresponding Python expression.
-/

-- ──────────────────────────────────────────────────────────────────────
-- Basic computational helpers
-- ──────────────────────────────────────────────────────────────────────

-- `a <= b` on Python ints
def intLe : Int → Int → Bool
  | .ofNat a, .ofNat b => a.ble b
  | .ofNat _, .negSucc _ => false
  | .negSucc _, .ofNat _ => true
  | .negSucc a, .negSucc b => b.ble a

-- `a < b` on Python ints
def intLt : Int → Int → Bool
  | .ofNat a, .ofNat b => a.blt b
  | .ofNat _, .negSucc _ => false
  | .negSucc _, .ofNat _ => true
  | .negSucc a, .negSucc b => b.blt a

-- ──────────────────────────────────────────────────────────────────────
-- Game representation (class TicTacToe)
-- ──────────────────────────────────────────────────────────────────────

inductive Player where
  | X : Player
  | O : Player
deriving DecidableEq, Repr

-- equality test between two player symbols
def Player.beq : Player → Player → Bool
  | .X, .X => true
  | .O, .O => true
  | _, _ => false

-- `'O' if player == 'X' else 'X'`
def Player.other : Player → Player
  | .X => .O
  | .O => .X

-- a board cell: `none` is `' '`, `some p` is the symbol of `p`
abbrev Cell := Option Player

-- `cell == ' '`
def cellEmpty : Cell → Bool
  | none => true
  | some _ => false

-- equality test between two cells (Python `==` on the 1-character strings)
def cellEq : Cell → Cell → Bool
  | none, none => true
  | some p, some q => p.beq q
  | _, _ => false

-- result of `check_winner`: `'X'`/`'O'` become `win p`, `'Draw'` becomes `draw`
inductive Outcome where
  | win (p : Player) : Outcome
  | draw : Outcome
deriving DecidableEq, Repr

structure Game where
  board : List (List Cell)
  current_player : Player
deriving DecidableEq, Repr

-- `__init__`: empty 3x3 board, X moves first
def initGame : Game :=
  ⟨[[none, none, none], [none, none, none], [none, none, none]], .X⟩

-- list indexing `l[n]` for a list of cells (indices used are always in range;
-- the `none` default is never consulted on a well-formed board)
def nthCell : List Cell → Nat → Cell
  | [], _ => none
  | c :: _, 0 => c
  | _ :: rest, n + 1 => nthCell rest n

-- list indexing `b[n]` for the list of rows
def nthRow : List (List Cell) → Nat → List Cell
  | [], _ => []
  | r :: _, 0 => r
  | _ :: rest, n + 1 => nthRow rest n

-- `self.board[row][col]` (guarded accesses only ever use indices 0..2)
def cellAt (b : List (List Cell)) (row col : Int) : Cell :=
  nthCell (nthRow b row.toNat) col.toNat

-- `self.board[row][col] = v`
def boardSet (b : List (List Cell)) (row col : Int) (v : Cell) : List (List Cell) :=
  b.set row.toNat ((nthRow b row.toNat).set col.toNat v)

-- the row-major traversal `for r in range(3) for c in range(3)`
def allCells : List (Int × Int) :=
  [(0, 0), (0, 1), (0, 2), (1, 0), (1, 1), (1, 2), (2, 0), (2, 1), (2, 2)]

-- `get_legal_actions`
def Game.get_legal_actions (g : Game) : List (Int × Int) :=
  allCells.filter (fun a => cellEmpty (cellAt g.board a.1 a.2))

-- `is_valid_move`
def Game.is_valid_move (g : Game) (row col : Int) : Bool :=
  intLe 0 row && intLe row 2 && intLe 0 col && intLe col 2
    && cellEmpty (cellAt g.board row col)

-- `make_move`: the returned `Bool` is the Python return value, the returned
-- `Game` is the state of `self` after the call
def Game.make_move (g : Game) (row col : Int) : Bool × Game :=
  if g.is_valid_move row col then
    (true, ⟨boardSet g.board row col (some g.current_player), g.current_player.other⟩)
  else
    (false, g)

-- `clone` (deep copy: value semantics)
def Game.clone (g : Game) : Game := g

-- `row[0] == row[1] == row[2] != ' '` followed by `return row[0]`
def lineWin (c0 c1 c2 : Cell) : Option Player :=
  if cellEq c0 c1 && cellEq c1 c2 then c0 else none

-- the `for row in b` loop of `check_winner`
def rowsWinner : List (List Cell) → Option Player
  | [] => none
  | row :: rest =>
    match lineWin (nthCell row 0) (nthCell row 1) (nthCell row 2) with
    | some p => some p
    | none => rowsWinner rest

-- the `for c in range(3)` loop of `check_winner`, unrolled
def colsWinner (b : List (List Cell)) : Option Player :=
  match lineWin (cellAt b 0 0) (cellAt b 1 0) (cellAt b 2 0) with
  | some p => some p
  | none =>
    match lineWin (cellAt b 0 1) (cellAt b 1 1) (cellAt b 2 1) with
    | some p => some p
    | none => lineWin (cellAt b 0 2) (cellAt b 1 2) (cellAt b 2 2)

-- the two diagonal checks of `check_winner`
def diagsWinner (b : List (List Cell)) : Option Player :=
  match lineWin (cellAt b 0 0) (cellAt b 1 1) (cellAt b 2 2) with
  | some p => some p
  | none => lineWin (cellAt b 0 2) (cellAt b 1 1) (cellAt b 2 0)

-- `check_winner`
def Game.check_winner (g : Game) : Option Outcome :=
  match rowsWinner g.board with
  | some p => some (.win p)
  | none =>
    match colsWinner g.board with
    | some p => some (.win p)
    | none =>
      match diagsWinner g.board with
      | some p => some (.win p)
      | none => if g.get_legal_actions.isEmpty then some .draw else none

-- `is_terminal`
def Game.is_terminal (g : Game) : Bool :=
  g.check_winner.isSome || g.get_legal_actions.isEmpty

-- `utility`
def Game.utility (g : Game) (player : Player) : Int :=
  match g.check_winner with
  | some (.win q) => if q.beq player then 10 else -10
  | some .draw => 0
  | none => 0

-- well-formedness maintained by the Python class: the board is a 3x3 grid
def WF (g : Game) : Prop :=
  g.board.length = 3 ∧ ∀ row ∈ g.board, row.length = 3

-- states reachable from the initial state through valid `make_move` calls
inductive Reachable : Game → Prop where
  | init : Reachable initGame
  | step (g : Game) (row col : Int) :
      Reachable g → g.is_valid_move row col = true →
      Reachable (g.make_move row col).2

-- ──────────────────────────────────────────────────────────────────────
-- Extended search values: integers plus the -inf / +inf sentinels
-- ──────────────────────────────────────────────────────────────────────

inductive EV where
  | ninf : EV
  | fin (z : Int) : EV
  | pinf : EV
deriving DecidableEq, Repr

namespace EV

-- `a <= b` on Python floats (restricted to the values that occur)
def le : EV → EV → Bool
  | ninf, _ => true
  | _, pinf => true
  | fin a, fin b => intLe a b
  | _, _ => false

-- `a < b`
def lt : EV → EV → Bool
  | _, ninf => false
  | ninf, _ => true
  | pinf, _ => false
  | _, pinf => true
  | fin a, fin b => intLt a b

-- Python `max(a, b)` (returns `a` on ties)
def emax (a b : EV) : EV := if le b a then a else b

-- Python `min(a, b)` (returns `a` on ties)
def emin (a b : EV) : EV := if le a b then a else b

-- numeric negation (used to relate the MIN recursion to the MAX recursion)
def neg : EV → EV
  | ninf => pinf
  | pinf => ninf
  | fin z => fin (-z)

end EV

abbrev Move := Int × Int

-- a search result: (value, chosen move, nodes expanded by the call)
abbrev SR := EV × Option Move × Nat

-- ──────────────────────────────────────────────────────────────────────
-- Plain minimax (`MinimaxAgent._max` / `MinimaxAgent._min`)
-- ──────────────────────────────────────────────────────────────────────

-- the `for action in game.get_legal_actions()` loop of `_max`;
-- `next` is the recursive call into `_min` at one less fuel
def maxLoopF (next : Game → SR) (g : Game) :
    List Move → EV → Option Move → Nat → SR
  | [], best, bm, cnt => (best, bm, cnt)
  | a :: rest, best, bm, cnt =>
    let child := (Game.make_move g.clone a.1 a.2).2
    let r := next child
    if EV.lt best r.1 then maxLoopF next g rest r.1 (some a) (cnt + r.2.2)
    else maxLoopF next g rest best bm (cnt + r.2.2)

-- the loop of `_min`
def minLoopF (next : Game → SR) (g : Game) :
    List Move → EV → Option Move → Nat → SR
  | [], best, bm, cnt => (best, bm, cnt)
  | a :: rest, best, bm, cnt =>
    let child := (Game.make_move g.clone a.1 a.2).2
    let r := next child
    if EV.lt r.1 best then minLoopF next g rest r.1 (some a) (cnt + r.2.2)
    else minLoopF next g rest best bm (cnt + r.2.2)

-- `_max` and `_min` as a fuel-indexed pair (structural recursion on fuel,
-- so that the kernel can evaluate the search)
def minimaxPair (p : Player) : Nat → (Game → SR) × (Game → SR)
  | 0 => (fun _ => (.fin 0, none, 0), fun _ => (.fin 0, none, 0))
  | fuel + 1 =>
    let prev := minimaxPair p fuel
    (fun g =>
      if g.is_terminal then (.fin (g.utility p), none, 1)
      else maxLoopF prev.2 g g.get_legal_actions .ninf none 1,
     fun g =>
      if g.is_terminal then (.fin (g.utility p), none, 1)
      else minLoopF prev.1 g g.get_legal_actions .pinf none 1)

-- `_max` (value, move, nodes expanded)
def agentMax (p : Player) (fuel : Nat) (g : Game) : SR := (minimaxPair p fuel).1 g

-- `_min`
def agentMin (p : Player) (fuel : Nat) (g : Game) : SR := (minimaxPair p fuel).2 g

theorem agentMax_zero (p : Player) (g : Game) : agentMax p 0 g = (.fin 0, none, 0) := rfl

theorem agentMin_zero (p : Player) (g : Game) : agentMin p 0 g = (.fin 0, none, 0) := rfl

theorem agentMax_succ (p : Player) (f : Nat) (g : Game) :
    agentMax p (f + 1) g =
      if g.is_terminal then (.fin (g.utility p), none, 1)
      else maxLoopF (agentMin p f) g g.get_legal_actions .ninf none 1 := rfl

theorem agentMin_succ (p : Player) (f : Nat) (g : Game) :
    agentMin p (f + 1) g =
      if g.is_terminal then (.fin (g.utility p), none, 1)
      else minLoopF (agentMax p f) g g.get_legal_actions .pinf none 1 := rfl

-- ──────────────────────────────────────────────────────────────────────
-- Alpha-beta variant (`MinimaxAgent._ab_max` / `MinimaxAgent._ab_min`)
-- ──────────────────────────────────────────────────────────────────────

-- the loop of `_ab_max`: update best, beta cut-off, raise alpha
def abMaxLoopF (next : Game → EV → EV → SR) (g : Game) :
    List Move → EV → Option Move → EV → EV → Nat → SR
  | [], best, bm, _, _, cnt => (best, bm, cnt)
  | a :: rest, best, bm, alpha, beta, cnt =>
    let child := (Game.make_move g.clone a.1 a.2).2
    let r := next child alpha beta
    let best' := if EV.lt best r.1 then r.1 else best
    let bm' := if EV.lt best r.1 then some a else bm
    if EV.le beta best' then (best', bm', cnt + r.2.2)
    else abMaxLoopF next g rest best' bm' (EV.emax alpha best') beta (cnt + r.2.2)

-- the loop of `_ab_min`: update best, alpha cut-off, lower beta
def abMinLoopF (next : Game → EV → EV → SR) (g : Game) :
    List Move → EV → Option Move → EV → EV → Nat → SR
  | [], best, bm, _, _, cnt => (best, bm, cnt)
  | a :: rest, best, bm, alpha, beta, cnt =>
    let child := (Game.make_move g.clone a.1 a.2).2
    let r := next child alpha beta
    let best' := if EV.lt r.1 best then r.1 else best
    let bm' := if EV.lt r.1 best then some a else bm
    if EV.le best' alpha then (best', bm', cnt + r.2.2)
    else abMinLoopF next g rest best' bm' alpha (EV.emin beta best') (cnt + r.2.2)

def abPair (p : Player) : Nat → (Game → EV → EV → SR) × (Game → EV → EV → SR)
  | 0 => (fun _ _ _ => (.fin 0, none, 0), fun _ _ _ => (.fin 0, none, 0))
  | fuel + 1 =>
    let prev := abPair p fuel
    (fun g alpha beta =>
      if g.is_terminal then (.fin (g.utility p), none, 1)
      else abMaxLoopF prev.2 g g.get_legal_actions .ninf none alpha beta 1,
     fun g alpha beta =>
      if g.is_terminal then (.fin (g.utility p), none, 1)
      else abMinLoopF prev.1 g g.get_legal_actions .pinf none alpha beta 1)

-- `_ab_max`
def abMax (p : Player) (fuel : Nat) (g : Game) (alpha beta : EV) : SR :=
  (abPair p fuel).1 g alpha beta

-- `_ab_min`
def abMin (p : Player) (fuel : Nat) (g : Game) (alpha beta : EV) : SR :=
  (abPair p fuel).2 g alpha beta

theorem abMax_zero (p : Player) (g : Game) (alpha beta : EV) :
    abMax p 0 g alpha beta = (.fin 0, none, 0) := rfl

theorem abMin_zero (p : Player) (g : Game) (alpha beta : EV) :
    abMin p 0 g alpha beta = (.fin 0, none, 0) := rfl

theorem abMax_succ (p : Player) (f : Nat) (g : Game) (alpha beta : EV) :
    abMax p (f + 1) g alpha beta =
      if g.is_terminal then (.fin (g.utility p), none, 1)
      else abMaxLoopF (abMin p f) g g.get_legal_actions .ninf none alpha beta 1 := rfl

theorem abMin_succ (p : Player) (f : Nat) (g : Game) (alpha beta : EV) :
    abMin p (f + 1) g alpha beta =
      if g.is_terminal then (.fin (g.utility p), none, 1)
      else abMinLoopF (abMax p f) g g.get_legal_actions .pinf none alpha beta 1 := rfl

-- ──────────────────────────────────────────────────────────────────────
-- `MinimaxAgent.get_best_move` (with `nodes_expanded` after the call)
-- ──────────────────────────────────────────────────────────────────────

-- fuel 10 covers any well-formed position: at most 9 empty cells, and each
-- recursive call fills one
def searchFuel : Nat := 10

-- returns the chosen move and the value of `nodes_expanded` after the call
def get_best_move (p : Player) (useAB : Bool) (g : Game) : Option Move × Nat :=
  if useAB then
    let r := abMax p searchFuel g .ninf .pinf
    (r.2.1, r.2.2)
  else
    let r := agentMax p searchFuel g
    (r.2.1, r.2.2)

-- ──────────────────────────────────────────────────────────────────────
-- Order lemmas for the extended values
-- ──────────────────────────────────────────────────────────────────────

theorem intLe_eq (a b : Int) : intLe a b = decide (a ≤ b) := by
  cases a with
  | ofNat m =>
    cases b with
    | ofNat n =>
      show m.ble n = decide _
      rw [Bool.eq_iff_iff]
      simp [Nat.ble_eq, Int.ofNat_le]
    | negSucc n =>
      show false = decide _
      rw [eq_comm, decide_eq_false_iff_not, Int.negSucc_eq, Int.ofNat_eq_natCast]
      omega
  | negSucc m =>
    cases b with
    | ofNat n =>
      show true = decide _
      rw [eq_comm, decide_eq_true_eq, Int.negSucc_eq, Int.ofNat_eq_natCast]
      omega
    | negSucc n =>
      show n.ble m = decide _
      rw [Bool.eq_iff_iff]
      simp only [Nat.ble_eq, decide_eq_true_eq, Int.negSucc_eq]
      omega

theorem intLt_eq (a b : Int) : intLt a b = decide (a < b) := by
  cases a with
  | ofNat m =>
    cases b with
    | ofNat n =>
      show m.blt n = decide _
      rw [Bool.eq_iff_iff]
      simp [Nat.blt_eq, Int.ofNat_lt]
    | negSucc n =>
      show false = decide _
      rw [eq_comm, decide_eq_false_iff_not, Int.negSucc_eq, Int.ofNat_eq_natCast]
      omega
  | negSucc m =>
    cases b with
    | ofNat n =>
      show true = decide _
      rw [eq_comm, decide_eq_true_eq, Int.negSucc_eq, Int.ofNat_eq_natCast]
      omega
    | negSucc n =>
      show n.blt m = decide _
      rw [Bool.eq_iff_iff]
      simp only [Nat.blt_eq, decide_eq_true_eq, Int.negSucc_eq]
      omega

namespace EV

theorem ninf_le (a : EV) : le .ninf a = true := by cases a <;> rfl

theorem le_pinf (a : EV) : le a .pinf = true := by cases a <;> rfl

theorem not_pinf_le_ninf : le .pinf .ninf = false := rfl

theorem le_refl (a : EV) : le a a = true := by
  cases a <;> simp [le, intLe_eq]

theorem le_trans {a b c : EV} (h1 : le a b = true) (h2 : le b c = true) :
    le a c = true := by
  cases a <;> cases b <;> cases c <;>
    simp_all [le, intLe_eq] <;> omega

theorem le_total (a b : EV) : le a b = true ∨ le b a = true := by
  cases a <;> cases b <;> simp [le, intLe_eq] <;> omega

theorem le_antisymm {a b : EV} (h1 : le a b = true) (h2 : le b a = true) : a = b := by
  cases a <;> cases b <;> simp_all [le, intLe_eq] <;> omega

theorem lt_eq_not_le (a b : EV) : lt a b = !(le b a) := by
  cases a <;> cases b <;> simp only [lt, le, intLt_eq, intLe_eq] <;>
    first
    | rfl
    | (rw [← decide_not, decide_eq_decide]
       omega)

theorem lt_irrefl (a : EV) : lt a a = false := by
  simp [lt_eq_not_le, le_refl]

theorem not_lt_of_le {a b : EV} (h : le a b = true) : lt b a = false := by
  simp [lt_eq_not_le, h]

theorem le_of_not_lt {a b : EV} (h : lt b a = false) : le a b = true := by
  simpa [lt_eq_not_le] using h

theorem le_of_lt {a b : EV} (h : lt a b = true) : le a b = true := by
  rw [lt_eq_not_le] at h
  rcases le_total a b with h' | h'
  · exact h'
  · simp [h'] at h

theorem lt_of_le_of_lt {a b c : EV} (h1 : le a b = true) (h2 : lt b c = true) :
    lt a c = true := by
  rw [lt_eq_not_le] at h2 ⊢
  rcases le_total c a with h' | h'
  · have := le_trans h' h1
    simp [this] at h2
  · cases hac : le c a
    · simp
    · have := le_antisymm h' hac
      subst this
      simp [h1] at h2

theorem lt_of_lt_of_le {a b c : EV} (h1 : lt a b = true) (h2 : le b c = true) :
    lt a c = true := by
  rw [lt_eq_not_le] at h1 ⊢
  rcases le_total c a with h' | h'
  · have := le_trans h2 h'
    simp [this] at h1
  · cases hac : le c a
    · simp
    · have := le_antisymm h' hac
      subst this
      simp [h2] at h1

theorem lt_trans {a b c : EV} (h1 : lt a b = true) (h2 : lt b c = true) :
    lt a c = true := lt_of_le_of_lt (le_of_lt h1) h2

theorem lt_ninf (a : EV) : lt a .ninf = false := by cases a <;> rfl

theorem ninf_lt_fin (z : Int) : lt .ninf (.fin z) = true := rfl

theorem fin_lt_pinf (z : Int) : lt (.fin z) .pinf = true := rfl

theorem emax_eq_left {a b : EV} (h : le b a = true) : emax a b = a := by
  simp [emax, h]

theorem emax_eq_right {a b : EV} (h : le a b = true) : emax a b = b := by
  unfold emax
  cases hba : le b a
  · rfl
  · simp [le_antisymm hba h]

theorem le_emax_left (a b : EV) : le a (emax a b) = true := by
  rcases le_total a b with h | h
  · rw [emax_eq_right h]; exact h
  · rw [emax_eq_left h]; exact le_refl a

theorem le_emax_right (a b : EV) : le b (emax a b) = true := by
  rcases le_total b a with h | h
  · rw [emax_eq_left h]; exact h
  · rw [emax_eq_right h]; exact le_refl b

theorem emax_le {a b c : EV} (h1 : le a c = true) (h2 : le b c = true) :
    le (emax a b) c = true := by
  unfold emax
  cases le b a <;> simp [h1, h2]

theorem emin_eq_left {a b : EV} (h : le a b = true) : emin a b = a := by
  simp [emin, h]

theorem emin_eq_right {a b : EV} (h : le b a = true) : emin a b = b := by
  unfold emin
  cases hab : le a b
  · rfl
  · simp [le_antisymm hab h]

theorem emin_le_left (a b : EV) : le (emin a b) a = true := by
  rcases le_total a b with h | h
  · rw [emin_eq_left h]; exact le_refl a
  · rw [emin_eq_right h]; exact h

theorem emin_le_right (a b : EV) : le (emin a b) b = true := by
  rcases le_total a b with h | h
  · rw [emin_eq_left h]; exact h
  · rw [emin_eq_right h]; exact le_refl b

theorem le_emin {a b c : EV} (h1 : le c a = true) (h2 : le c b = true) :
    le c (emin a b) = true := by
  unfold emin
  cases le a b <;> simp [h1, h2]

theorem lt_pinf_of_ne {a : EV} (h : a ≠ .pinf) : lt a .pinf = true := by
  cases a <;> simp_all [lt]

theorem ninf_lt_of_ne {a : EV} (h : a ≠ .ninf) : lt .ninf a = true := by
  cases a <;> simp_all [lt]

theorem neg_neg (a : EV) : a.neg.neg = a := by cases a <;> simp [neg]

theorem neg_fin (z : Int) : (EV.fin z).neg = .fin (-z) := rfl

theorem lt_neg_iff (a b : EV) : lt a.neg b.neg = lt b a := by
  cases a <;> cases b <;> simp [neg, lt, intLt_eq]

theorem le_neg_iff (a b : EV) : le a.neg b.neg = le b a := by
  cases a <;> cases b <;> simp [neg, le, intLe_eq]

end EV

-- ──────────────────────────────────────────────────────────────────────
-- Game model lemmas
-- ──────────────────────────────────────────────────────────────────────

-- the per-branch child state explored by every search loop
def childG (g : Game) (a : Move) : Game := (Game.make_move g.clone a.1 a.2).2

theorem list_len3 {α : Type} {l : List α} (h : l.length = 3) :
    ∃ a b c, l = [a, b, c] := by
  rcases l with _ | ⟨a, _ | ⟨b, _ | ⟨c, _ | _⟩⟩⟩ <;> simp_all

theorem WF.cells {g : Game} (h : WF g) :
    ∃ c00 c01 c02 c10 c11 c12 c20 c21 c22,
      g.board = [[c00, c01, c02], [c10, c11, c12], [c20, c21, c22]] := by
  obtain ⟨hlen, hrow⟩ := h
  obtain ⟨r0, r1, r2, hb⟩ := list_len3 hlen
  obtain ⟨a0, a1, a2, h0⟩ := list_len3 (hrow r0 (by simp [hb]))
  obtain ⟨b0, b1, b2, h1⟩ := list_len3 (hrow r1 (by simp [hb]))
  obtain ⟨d0, d1, d2, h2⟩ := list_len3 (hrow r2 (by simp [hb]))
  exact ⟨a0, a1, a2, b0, b1, b2, d0, d1, d2, by rw [hb, h0, h1, h2]⟩

theorem wf_initGame : WF initGame := by
  constructor <;> simp [initGame]

theorem mem_allCells_bounds {a : Move} (h : a ∈ allCells) :
    0 ≤ a.1 ∧ a.1 ≤ 2 ∧ 0 ≤ a.2 ∧ a.2 ≤ 2 := by
  simp [allCells] at h
  rcases h with rfl|rfl|rfl|rfl|rfl|rfl|rfl|rfl|rfl <;> decide

theorem allCells_nodup : allCells.Nodup := by decide

theorem mem_legal_iff_valid {g : Game} {a : Move} :
    a ∈ g.get_legal_actions ↔ g.is_valid_move a.1 a.2 = true := by
  constructor
  · intro h
    obtain ⟨hmem, hpred⟩ := List.mem_filter.mp h
    have hb := mem_allCells_bounds hmem
    simp only [Game.is_valid_move, Bool.and_eq_true, hpred]
    simp only [intLe_eq, decide_eq_true_eq, and_true]
    omega
  · intro h
    simp only [Game.is_valid_move, Bool.and_eq_true, intLe_eq, decide_eq_true_eq] at h
    obtain ⟨⟨⟨⟨h1, h2⟩, h3⟩, h4⟩, h5⟩ := h
    refine List.mem_filter.mpr ⟨?_, h5⟩
    have ha1 : a.1 = 0 ∨ a.1 = 1 ∨ a.1 = 2 := by omega
    have ha2 : a.2 = 0 ∨ a.2 = 1 ∨ a.2 = 2 := by omega
    rcases a with ⟨x, y⟩
    simp only at ha1 ha2
    rcases ha1 with rfl|rfl|rfl <;> rcases ha2 with rfl|rfl|rfl <;> simp [allCells]

theorem int_range3 {r : Int} (h0 : 0 ≤ r) (h2 : r ≤ 2) : r = 0 ∨ r = 1 ∨ r = 2 := by
  omega

theorem cellAt_boardSet_self {g : Game} (hw : WF g) {r c : Int}
    (h0 : 0 ≤ r) (h2 : r ≤ 2) (k0 : 0 ≤ c) (k2 : c ≤ 2) (v : Cell) :
    cellAt (boardSet g.board r c v) r c = v := by
  obtain ⟨c00, c01, c02, c10, c11, c12, c20, c21, c22, hb⟩ := hw.cells
  rcases int_range3 h0 h2 with rfl|rfl|rfl <;>
    rcases int_range3 k0 k2 with rfl|rfl|rfl <;>
      simp [hb, boardSet, cellAt, nthRow, nthCell]

theorem cellAt_boardSet_other {g : Game} (hw : WF g) {r c r' c' : Int}
    (h0 : 0 ≤ r) (h2 : r ≤ 2) (k0 : 0 ≤ c) (k2 : c ≤ 2)
    (h0' : 0 ≤ r') (h2' : r' ≤ 2) (k0' : 0 ≤ c') (k2' : c' ≤ 2)
    (hne : ¬(r' = r ∧ c' = c)) (v : Cell) :
    cellAt (boardSet g.board r c v) r' c' = cellAt g.board r' c' := by
  obtain ⟨c00, c01, c02, c10, c11, c12, c20, c21, c22, hb⟩ := hw.cells
  rcases int_range3 h0 h2 with rfl|rfl|rfl <;>
    rcases int_range3 k0 k2 with rfl|rfl|rfl <;>
      rcases int_range3 h0' h2' with rfl|rfl|rfl <;>
        rcases int_range3 k0' k2' with rfl|rfl|rfl <;>
          first
          | (exfalso; exact hne ⟨rfl, rfl⟩)
          | simp [hb, boardSet, cellAt, nthRow, nthCell]

theorem wf_boardSet {g : Game} (hw : WF g) {r c : Int}
    (h0 : 0 ≤ r) (h2 : r ≤ 2) (v : Cell) :
    WF ⟨boardSet g.board r c v, g.current_player.other⟩ := by
  obtain ⟨c00, c01, c02, c10, c11, c12, c20, c21, c22, hb⟩ := hw.cells
  rcases int_range3 h0 h2 with rfl|rfl|rfl <;>
    (constructor <;> simp [hb, boardSet, nthRow])

theorem valid_bounds {g : Game} {r c : Int} (h : g.is_valid_move r c = true) :
    (0 ≤ r ∧ r ≤ 2 ∧ 0 ≤ c ∧ c ≤ 2) ∧ cellEmpty (cellAt g.board r c) = true := by
  simp only [Game.is_valid_move, Bool.and_eq_true, intLe_eq, decide_eq_true_eq] at h
  obtain ⟨⟨⟨⟨h1, h2⟩, h3⟩, h4⟩, h5⟩ := h
  exact ⟨⟨h1, h2, h3, h4⟩, h5⟩

theorem make_move_valid {g : Game} {r c : Int} (h : g.is_valid_move r c = true) :
    g.make_move r c =
      (true, ⟨boardSet g.board r c (some g.current_player), g.current_player.other⟩) := by
  simp [Game.make_move, h]

theorem make_move_invalid {g : Game} {r c : Int} (h : g.is_valid_move r c = false) :
    g.make_move r c = (false, g) := by
  simp [Game.make_move, h]

theorem wf_make_move {g : Game} (hw : WF g) (r c : Int) :
    WF (g.make_move r c).2 := by
  cases hv : g.is_valid_move r c
  · rw [make_move_invalid hv]; exact hw
  · rw [make_move_valid hv]
    obtain ⟨⟨h1, h2, _, _⟩, _⟩ := valid_bounds hv
    exact wf_boardSet hw h1 h2 _

theorem reachable_wf {g : Game} (h : Reachable g) : WF g := by
  induction h with
  | init => exact wf_initGame
  | step g r c _ _ ih => exact wf_make_move ih r c

-- dropping exactly one satisfied element of a duplicate-free list lowers
-- the filter count by one
theorem length_filter_sub_one {α : Type} [DecidableEq α] :
    ∀ (l : List α) (P Q : α → Bool) (a : α), a ∈ l → l.Nodup →
      P a = true → Q a = false → (∀ x ∈ l, x ≠ a → Q x = P x) →
      (l.filter Q).length + 1 = (l.filter P).length := by
  intro l
  induction l with
  | nil => intro P Q a ha; simp at ha
  | cons hd tl ih =>
    intro P Q a ha hnd hPa hQa hPQ
    rcases List.mem_cons.mp ha with rfl | hmem
    · have htl : ∀ x ∈ tl, Q x = P x := by
        intro x hx
        have : x ≠ a := by
          intro hxa
          subst hxa
          exact (List.nodup_cons.mp hnd).1 hx
        exact hPQ x (List.mem_cons_of_mem _ hx) this
      rw [List.filter_cons, List.filter_cons, hPa, hQa]
      simp only [if_true, if_false]
      rw [List.filter_congr htl]
      simp
    · have hne : hd ≠ a := by
        intro hda
        subst hda
        exact (List.nodup_cons.mp hnd).1 hmem
      have hQP : Q hd = P hd := hPQ hd (List.mem_cons_self hd tl) hne
      rw [List.filter_cons, List.filter_cons, hQP]
      have hih := ih P Q a hmem (List.nodup_cons.mp hnd).2 hPa hQa
        (fun x hx hxa => hPQ x (List.mem_cons_of_mem _ hx) hxa)
      cases hPhd : P hd
      · simp only [hPhd, Bool.false_eq_true, if_false]
        exact hih
      · simp only [hPhd, if_true, List.length_cons]
        omega

theorem childG_eq {g : Game} {a : Move} (h : a ∈ g.get_legal_actions) :
    childG g a =
      ⟨boardSet g.board a.1 a.2 (some g.current_player), g.current_player.other⟩ := by
  rw [childG, Game.clone, make_move_valid (mem_legal_iff_valid.mp h)]

theorem wf_childG {g : Game} {a : Move} (hw : WF g) :
    WF (childG g a) := by
  rw [childG]
  exact wf_make_move hw a.1 a.2

theorem childG_player {g : Game} {a : Move} (h : a ∈ g.get_legal_actions) :
    (childG g a).current_player = g.current_player.other := by
  rw [childG_eq h]

theorem childG_cell {g : Game} {a : Move} (hw : WF g) (h : a ∈ g.get_legal_actions) :
    cellAt (childG g a).board a.1 a.2 = some g.current_player := by
  rw [childG_eq h]
  obtain ⟨hb1, hb2, hb3, hb4⟩ := mem_allCells_bounds (List.mem_filter.mp h).1
  exact cellAt_boardSet_self hw hb1 hb2 hb3 hb4 _

theorem legal_childG {g : Game} {a : Move} (hw : WF g) (h : a ∈ g.get_legal_actions) :
    (childG g a).get_legal_actions.length + 1 = g.get_legal_actions.length := by
  have hmem : a ∈ allCells := (List.mem_filter.mp h).1
  obtain ⟨hb1, hb2, hb3, hb4⟩ := mem_allCells_bounds hmem
  rw [childG_eq h]
  unfold Game.get_legal_actions
  apply length_filter_sub_one allCells _ _ a hmem allCells_nodup
  · exact (List.mem_filter.mp h).2
  · show cellEmpty (cellAt (boardSet g.board a.1 a.2 (some g.current_player)) a.1 a.2) = false
    rw [cellAt_boardSet_self hw hb1 hb2 hb3 hb4]
    rfl
  · intro x hx hxa
    obtain ⟨hx1, hx2, hx3, hx4⟩ := mem_allCells_bounds hx
    show cellEmpty (cellAt (boardSet g.board a.1 a.2 (some g.current_player)) x.1 x.2) = _
    rw [cellAt_boardSet_other hw hb1 hb2 hb3 hb4 hx1 hx2 hx3 hx4]
    intro hc
    exact hxa (Prod.ext hc.1 hc.2)

theorem legal_le_9 (g : Game) : g.get_legal_actions.length ≤ 9 := by
  have := List.length_filter_le
    (fun a => cellEmpty (cellAt g.board a.1 a.2)) allCells
  simpa [Game.get_legal_actions] using this

theorem legal_childG_lt {g : Game} {a : Move} (hw : WF g) (h : a ∈ g.get_legal_actions) :
    (childG g a).get_legal_actions.length < g.get_legal_actions.length := by
  have := legal_childG hw h
  omega

theorem nonterminal_legal_ne {g : Game} (h : g.is_terminal = false) :
    g.get_legal_actions ≠ [] := by
  simp only [Game.is_terminal, Bool.or_eq_false_iff] at h
  intro hnil
  rw [hnil] at h
  simp [List.isEmpty] at h


-- ──────────────────────────────────────────────────────────────────────
-- Characterization of the plain minimax loops
-- ──────────────────────────────────────────────────────────────────────

theorem maxLoopF_nil (next : Game → SR) (g : Game) (best : EV) (bm : Option Move)
    (cnt : Nat) : maxLoopF next g [] best bm cnt = (best, bm, cnt) := rfl

theorem maxLoopF_cons (next : Game → SR) (g : Game) (a : Move) (rest : List Move)
    (best : EV) (bm : Option Move) (cnt : Nat) :
    maxLoopF next g (a :: rest) best bm cnt =
      if EV.lt best (next (childG g a)).1 then
        maxLoopF next g rest (next (childG g a)).1 (some a) (cnt + (next (childG g a)).2.2)
      else maxLoopF next g rest best bm (cnt + (next (childG g a)).2.2) := rfl

theorem minLoopF_nil (next : Game → SR) (g : Game) (best : EV) (bm : Option Move)
    (cnt : Nat) : minLoopF next g [] best bm cnt = (best, bm, cnt) := rfl

theorem minLoopF_cons (next : Game → SR) (g : Game) (a : Move) (rest : List Move)
    (best : EV) (bm : Option Move) (cnt : Nat) :
    minLoopF next g (a :: rest) best bm cnt =
      if EV.lt (next (childG g a)).1 best then
        minLoopF next g rest (next (childG g a)).1 (some a) (cnt + (next (childG g a)).2.2)
      else minLoopF next g rest best bm (cnt + (next (childG g a)).2.2) := rfl

theorem maxLoopF_le {next : Game → SR} {g : Game} :
    ∀ (acts : List Move) (best : EV) (bm : Option Move) (cnt : Nat),
      EV.le best (maxLoopF next g acts best bm cnt).1 = true := by
  intro acts
  induction acts with
  | nil => intro best bm cnt; exact EV.le_refl best
  | cons a rest ih =>
    intro best bm cnt
    rw [maxLoopF_cons]
    cases hlt : EV.lt best (next (childG g a)).1
    · simp only [Bool.false_eq_true, if_false]
      exact ih best bm _
    · simp only [if_true]
      exact EV.le_trans (EV.le_of_lt hlt) (ih _ _ _)

theorem maxLoopF_child_le {next : Game → SR} {g : Game} :
    ∀ (acts : List Move) (best : EV) (bm : Option Move) (cnt : Nat),
      ∀ a ∈ acts,
        EV.le (next (childG g a)).1 (maxLoopF next g acts best bm cnt).1 = true := by
  intro acts
  induction acts with
  | nil => intro best bm cnt a ha; simp at ha
  | cons hd rest ih =>
    intro best bm cnt a ha
    rw [maxLoopF_cons]
    rcases List.mem_cons.mp ha with rfl | hmem
    · cases hlt : EV.lt best (next (childG g a)).1
      · simp only [Bool.false_eq_true, if_false]
        exact EV.le_trans (EV.le_of_not_lt hlt) (maxLoopF_le rest best bm _)
      · simp only [if_true]
        exact maxLoopF_le rest _ _ _
    · cases hlt : EV.lt best (next (childG g hd)).1 <;>
        simp only [Bool.false_eq_true, if_false, if_true] <;>
        exact ih _ _ _ a hmem

theorem maxLoopF_attain {next : Game → SR} {g : Game} :
    ∀ (acts : List Move) (best : EV) (bm : Option Move) (cnt : Nat),
      ((maxLoopF next g acts best bm cnt).2.1 = bm ∧
        (maxLoopF next g acts best bm cnt).1 = best) ∨
      ∃ a ∈ acts, (maxLoopF next g acts best bm cnt).2.1 = some a ∧
        (maxLoopF next g acts best bm cnt).1 = (next (childG g a)).1 := by
  intro acts
  induction acts with
  | nil => intro best bm cnt; exact Or.inl ⟨rfl, rfl⟩
  | cons hd rest ih =>
    intro best bm cnt
    rw [maxLoopF_cons]
    cases hlt : EV.lt best (next (childG g hd)).1
    · simp only [Bool.false_eq_true, if_false]
      rcases ih best bm (cnt + (next (childG g hd)).2.2) with h | ⟨a, ha, h1, h2⟩
      · exact Or.inl h
      · exact Or.inr ⟨a, List.mem_cons_of_mem _ ha, h1, h2⟩
    · simp only [if_true]
      rcases ih (next (childG g hd)).1 (some hd) (cnt + (next (childG g hd)).2.2) with
        ⟨h1, h2⟩ | ⟨a, ha, h1, h2⟩
      · exact Or.inr ⟨hd, List.mem_cons_self hd rest, h1, h2⟩
      · exact Or.inr ⟨a, List.mem_cons_of_mem _ ha, h1, h2⟩

theorem maxLoopF_upper {next : Game → SR} {g : Game} {t : EV} :
    ∀ (acts : List Move) (best : EV) (bm : Option Move) (cnt : Nat),
      EV.le best t = true → (∀ a ∈ acts, EV.le (next (childG g a)).1 t = true) →
      EV.le (maxLoopF next g acts best bm cnt).1 t = true := by
  intro acts
  induction acts with
  | nil => intro best bm cnt hb _; exact hb
  | cons hd rest ih =>
    intro best bm cnt hb hc
    rw [maxLoopF_cons]
    cases hlt : EV.lt best (next (childG g hd)).1 <;>
      simp only [Bool.false_eq_true, if_false, if_true]
    · exact ih best bm _ hb (fun a ha => hc a (List.mem_cons_of_mem _ ha))
    · exact ih _ (some hd) _ (hc hd (List.mem_cons_self hd rest))
        (fun a ha => hc a (List.mem_cons_of_mem _ ha))

theorem maxLoopF_ne_ninf {next : Game → SR} {g : Game} :
    ∀ (acts : List Move) (best : EV) (bm : Option Move) (cnt : Nat),
      best ≠ .ninf → (maxLoopF next g acts best bm cnt).1 ≠ .ninf := by
  intro acts
  induction acts with
  | nil => intro best bm cnt hb; exact hb
  | cons hd rest ih =>
    intro best bm cnt hb
    rw [maxLoopF_cons]
    cases hlt : EV.lt best (next (childG g hd)).1 <;>
      simp only [Bool.false_eq_true, if_false, if_true]
    · exact ih best bm _ hb
    · apply ih
      intro heq
      rw [heq] at hlt
      rw [EV.lt_ninf] at hlt
      exact Bool.false_ne_true hlt

theorem maxLoopF_cnt {next : Game → SR} {g : Game} :
    ∀ (acts : List Move) (best : EV) (bm : Option Move) (cnt : Nat),
      (maxLoopF next g acts best bm cnt).2.2 =
        cnt + (acts.map fun a => (next (childG g a)).2.2).sum := by
  intro acts
  induction acts with
  | nil => intro best bm cnt; simp [maxLoopF_nil]
  | cons hd rest ih =>
    intro best bm cnt
    rw [maxLoopF_cons]
    cases hlt : EV.lt best (next (childG g hd)).1 <;>
      simp only [Bool.false_eq_true, if_false, if_true] <;>
      rw [ih] <;> simp <;> omega

theorem minLoopF_le {next : Game → SR} {g : Game} :
    ∀ (acts : List Move) (best : EV) (bm : Option Move) (cnt : Nat),
      EV.le (minLoopF next g acts best bm cnt).1 best = true := by
  intro acts
  induction acts with
  | nil => intro best bm cnt; exact EV.le_refl best
  | cons a rest ih =>
    intro best bm cnt
    rw [minLoopF_cons]
    cases hlt : EV.lt (next (childG g a)).1 best
    · simp only [Bool.false_eq_true, if_false]
      exact ih best bm _
    · simp only [if_true]
      exact EV.le_trans (ih _ _ _) (EV.le_of_lt hlt)

theorem minLoopF_child_le {next : Game → SR} {g : Game} :
    ∀ (acts : List Move) (best : EV) (bm : Option Move) (cnt : Nat),
      ∀ a ∈ acts,
        EV.le (minLoopF next g acts best bm cnt).1 (next (childG g a)).1 = true := by
  intro acts
  induction acts with
  | nil => intro best bm cnt a ha; simp at ha
  | cons hd rest ih =>
    intro best bm cnt a ha
    rw [minLoopF_cons]
    rcases List.mem_cons.mp ha with rfl | hmem
    · cases hlt : EV.lt (next (childG g a)).1 best
      · simp only [Bool.false_eq_true, if_false]
        exact EV.le_trans (minLoopF_le rest best bm _) (EV.le_of_not_lt hlt)
      · simp only [if_true]
        exact minLoopF_le rest _ _ _
    · cases hlt : EV.lt (next (childG g hd)).1 best <;>
        simp only [Bool.false_eq_true, if_false, if_true] <;>
        exact ih _ _ _ a hmem

theorem minLoopF_attain {next : Game → SR} {g : Game} :
    ∀ (acts : List Move) (best : EV) (bm : Option Move) (cnt : Nat),
      ((minLoopF next g acts best bm cnt).2.1 = bm ∧
        (minLoopF next g acts best bm cnt).1 = best) ∨
      ∃ a ∈ acts, (minLoopF next g acts best bm cnt).2.1 = some a ∧
        (minLoopF next g acts best bm cnt).1 = (next (childG g a)).1 := by
  intro acts
  induction acts with
  | nil => intro best bm cnt; exact Or.inl ⟨rfl, rfl⟩
  | cons hd rest ih =>
    intro best bm cnt
    rw [minLoopF_cons]
    cases hlt : EV.lt (next (childG g hd)).1 best
    · simp only [Bool.false_eq_true, if_false]
      rcases ih best bm (cnt + (next (childG g hd)).2.2) with h | ⟨a, ha, h1, h2⟩
      · exact Or.inl h
      · exact Or.inr ⟨a, List.mem_cons_of_mem _ ha, h1, h2⟩
    · simp only [if_true]
      rcases ih (next (childG g hd)).1 (some hd) (cnt + (next (childG g hd)).2.2) with
        ⟨h1, h2⟩ | ⟨a, ha, h1, h2⟩
      · exact Or.inr ⟨hd, List.mem_cons_self hd rest, h1, h2⟩
      · exact Or.inr ⟨a, List.mem_cons_of_mem _ ha, h1, h2⟩

theorem minLoopF_lower {next : Game → SR} {g : Game} {t : EV} :
    ∀ (acts : List Move) (best : EV) (bm : Option Move) (cnt : Nat),
      EV.le t best = true → (∀ a ∈ acts, EV.le t (next (childG g a)).1 = true) →
      EV.le t (minLoopF next g acts best bm cnt).1 = true := by
  intro acts
  induction acts with
  | nil => intro best bm cnt hb _; exact hb
  | cons hd rest ih =>
    intro best bm cnt hb hc
    rw [minLoopF_cons]
    cases hlt : EV.lt (next (childG g hd)).1 best <;>
      simp only [Bool.false_eq_true, if_false, if_true]
    · exact ih best bm _ hb (fun a ha => hc a (List.mem_cons_of_mem _ ha))
    · exact ih _ (some hd) _ (hc hd (List.mem_cons_self hd rest))
        (fun a ha => hc a (List.mem_cons_of_mem _ ha))

theorem minLoopF_ne_pinf {next : Game → SR} {g : Game} :
    ∀ (acts : List Move) (best : EV) (bm : Option Move) (cnt : Nat),
      best ≠ .pinf → (minLoopF next g acts best bm cnt).1 ≠ .pinf := by
  intro acts
  induction acts with
  | nil => intro best bm cnt hb; exact hb
  | cons hd rest ih =>
    intro best bm cnt hb
    rw [minLoopF_cons]
    cases hlt : EV.lt (next (childG g hd)).1 best <;>
      simp only [Bool.false_eq_true, if_false, if_true]
    · exact ih best bm _ hb
    · apply ih
      intro heq
      rw [heq] at hlt
      have : EV.le best .pinf = true := EV.le_pinf best
      rw [EV.lt_eq_not_le, this] at hlt
      simp at hlt

theorem minLoopF_cnt {next : Game → SR} {g : Game} :
    ∀ (acts : List Move) (best : EV) (bm : Option Move) (cnt : Nat),
      (minLoopF next g acts best bm cnt).2.2 =
        cnt + (acts.map fun a => (next (childG g a)).2.2).sum := by
  intro acts
  induction acts with
  | nil => intro best bm cnt; simp [minLoopF_nil]
  | cons hd rest ih =>
    intro best bm cnt
    rw [minLoopF_cons]
    cases hlt : EV.lt (next (childG g hd)).1 best <;>
      simp only [Bool.false_eq_true, if_false, if_true] <;>
      rw [ih] <;> simp <;> omega

-- ──────────────────────────────────────────────────────────────────────
-- Fuel-level properties of `_max` / `_min`
-- ──────────────────────────────────────────────────────────────────────

theorem utility_eq_win {g : Game} {q : Player} (h : g.check_winner = some (.win q))
    (p : Player) : g.utility p = if q.beq p then 10 else -10 := by
  unfold Game.utility
  rw [h]

theorem utility_eq_draw {g : Game} (h : g.check_winner = some .draw) (p : Player) :
    g.utility p = 0 := by
  unfold Game.utility
  rw [h]

theorem utility_eq_none {g : Game} (h : g.check_winner = none) (p : Player) :
    g.utility p = 0 := by
  unfold Game.utility
  rw [h]

theorem utility_bounds (g : Game) (p : Player) :
    -10 ≤ g.utility p ∧ g.utility p ≤ 10 := by
  cases hcw : g.check_winner with
  | none => rw [utility_eq_none hcw]; omega
  | some o =>
    cases o with
    | draw => rw [utility_eq_draw hcw]; omega
    | win q =>
      rw [utility_eq_win hcw]
      cases q.beq p <;> simp

theorem agentMax_terminal (p : Player) (f : Nat) {g : Game}
    (h : g.is_terminal = true) :
    agentMax p (f + 1) g = (.fin (g.utility p), none, 1) := by
  rw [agentMax_succ, if_pos h]

theorem agentMin_terminal (p : Player) (f : Nat) {g : Game}
    (h : g.is_terminal = true) :
    agentMin p (f + 1) g = (.fin (g.utility p), none, 1) := by
  rw [agentMin_succ, if_pos h]

theorem agentMax_nonterminal (p : Player) (f : Nat) {g : Game}
    (h : g.is_terminal = false) :
    agentMax p (f + 1) g =
      maxLoopF (agentMin p f) g g.get_legal_actions .ninf none 1 := by
  rw [agentMax_succ, if_neg (by simp [h])]

theorem agentMin_nonterminal (p : Player) (f : Nat) {g : Game}
    (h : g.is_terminal = false) :
    agentMin p (f + 1) g =
      minLoopF (agentMax p f) g g.get_legal_actions .pinf none 1 := by
  rw [agentMin_succ, if_neg (by simp [h])]

theorem maxLoopF_ne_ninf_start {next : Game → SR} {g : Game} {acts : List Move}
    (h : acts ≠ []) (hfin : ∀ a ∈ acts, (next (childG g a)).1 ≠ .ninf)
    (bm : Option Move) (cnt : Nat) :
    (maxLoopF next g acts .ninf bm cnt).1 ≠ .ninf := by
  cases acts with
  | nil => exact absurd rfl h
  | cons a rest =>
    rw [maxLoopF_cons]
    have hne := hfin a (List.mem_cons_self a rest)
    rw [EV.ninf_lt_of_ne hne, if_pos rfl]
    exact maxLoopF_ne_ninf rest _ (some a) _ hne

theorem minLoopF_ne_pinf_start {next : Game → SR} {g : Game} {acts : List Move}
    (h : acts ≠ []) (hfin : ∀ a ∈ acts, (next (childG g a)).1 ≠ .pinf)
    (bm : Option Move) (cnt : Nat) :
    (minLoopF next g acts .pinf bm cnt).1 ≠ .pinf := by
  cases acts with
  | nil => exact absurd rfl h
  | cons a rest =>
    rw [minLoopF_cons]
    have hne := hfin a (List.mem_cons_self a rest)
    rw [EV.lt_pinf_of_ne hne, if_pos rfl]
    exact minLoopF_ne_pinf rest _ (some a) _ hne

-- values of the search are always finite and lie in [-10, 10]
theorem agent_fin_aux (p : Player) : ∀ f : Nat,
    (∀ g : Game, WF g → g.get_legal_actions.length < f →
      ∃ z, (agentMax p f g).1 = .fin z ∧ -10 ≤ z ∧ z ≤ 10) ∧
    (∀ g : Game, WF g → g.get_legal_actions.length < f →
      ∃ z, (agentMin p f g).1 = .fin z ∧ -10 ≤ z ∧ z ≤ 10) := by
  intro f
  induction f with
  | zero => exact ⟨fun g _ h => absurd h (by omega), fun g _ h => absurd h (by omega)⟩
  | succ f ih =>
    constructor
    · intro g hw hE
      cases hterm : g.is_terminal
      · rw [agentMax_nonterminal p f hterm]
        have hne := nonterminal_legal_ne hterm
        have hchild : ∀ a ∈ g.get_legal_actions,
            ∃ z, (agentMin p f (childG g a)).1 = .fin z ∧ -10 ≤ z ∧ z ≤ 10 := by
          intro a ha
          refine ih.2 (childG g a) (wf_childG hw) ?_
          have := legal_childG hw ha
          omega
        have hnn : ∀ a ∈ g.get_legal_actions, (agentMin p f (childG g a)).1 ≠ .ninf := by
          intro a ha
          obtain ⟨z, hz, _⟩ := hchild a ha
          rw [hz]
          intro hc
          exact EV.noConfusion hc
        have hres := maxLoopF_ne_ninf_start hne hnn none 1
        rcases maxLoopF_attain g.get_legal_actions .ninf none 1 with ⟨_, hv⟩ | ⟨a, ha, _, hv⟩
        · exact absurd hv hres
        · obtain ⟨z, hz, hb1, hb2⟩ := hchild a ha
          exact ⟨z, by rw [hv, hz], hb1, hb2⟩
      · rw [agentMax_terminal p f hterm]
        exact ⟨g.utility p, rfl, (utility_bounds g p).1, (utility_bounds g p).2⟩
    · intro g hw hE
      cases hterm : g.is_terminal
      · rw [agentMin_nonterminal p f hterm]
        have hne := nonterminal_legal_ne hterm
        have hchild : ∀ a ∈ g.get_legal_actions,
            ∃ z, (agentMax p f (childG g a)).1 = .fin z ∧ -10 ≤ z ∧ z ≤ 10 := by
          intro a ha
          refine ih.1 (childG g a) (wf_childG hw) ?_
          have := legal_childG hw ha
          omega
        have hnn : ∀ a ∈ g.get_legal_actions, (agentMax p f (childG g a)).1 ≠ .pinf := by
          intro a ha
          obtain ⟨z, hz, _⟩ := hchild a ha
          rw [hz]
          intro hc
          exact EV.noConfusion hc
        have hres := minLoopF_ne_pinf_start hne hnn none 1
        rcases minLoopF_attain g.get_legal_actions .pinf none 1 with ⟨_, hv⟩ | ⟨a, ha, _, hv⟩
        · exact absurd hv hres
        · obtain ⟨z, hz, hb1, hb2⟩ := hchild a ha
          exact ⟨z, by rw [hv, hz], hb1, hb2⟩
      · rw [agentMin_terminal p f hterm]
        exact ⟨g.utility p, rfl, (utility_bounds g p).1, (utility_bounds g p).2⟩

theorem agentMax_fin {p : Player} {f : Nat} {g : Game} (hw : WF g)
    (hE : g.get_legal_actions.length < f) :
    ∃ z, (agentMax p f g).1 = .fin z ∧ -10 ≤ z ∧ z ≤ 10 :=
  (agent_fin_aux p f).1 g hw hE

theorem agentMin_fin {p : Player} {f : Nat} {g : Game} (hw : WF g)
    (hE : g.get_legal_actions.length < f) :
    ∃ z, (agentMin p f g).1 = .fin z ∧ -10 ≤ z ∧ z ≤ 10 :=
  (agent_fin_aux p f).2 g hw hE

theorem childG_fuel {g : Game} {a : Move} {f : Nat} (hw : WF g)
    (ha : a ∈ g.get_legal_actions) (hE : g.get_legal_actions.length < f + 1) :
    (childG g a).get_legal_actions.length < f := by
  have := legal_childG hw ha
  omega

-- the move chosen at a non-terminal MAX entry is a legal move attaining the value
theorem agentMax_attain {p : Player} {f : Nat} {g : Game} (hw : WF g)
    (hE : g.get_legal_actions.length < f + 1) (hterm : g.is_terminal = false) :
    ∃ a ∈ g.get_legal_actions, (agentMax p (f + 1) g).2.1 = some a ∧
      (agentMax p (f + 1) g).1 = (agentMin p f (childG g a)).1 := by
  rw [agentMax_nonterminal p f hterm]
  have hne := nonterminal_legal_ne hterm
  have hnn : ∀ a ∈ g.get_legal_actions, (agentMin p f (childG g a)).1 ≠ .ninf := by
    intro a ha
    obtain ⟨z, hz, _⟩ := agentMin_fin (wf_childG hw) (childG_fuel hw ha hE)
    rw [hz]
    intro hc
    exact EV.noConfusion hc
  have hres := maxLoopF_ne_ninf_start hne hnn none 1
  rcases maxLoopF_attain g.get_legal_actions .ninf none 1 with ⟨_, hv⟩ | ⟨a, ha, h1, h2⟩
  · exact absurd hv hres
  · exact ⟨a, ha, h1, h2⟩

theorem agentMin_attain {p : Player} {f : Nat} {g : Game} (hw : WF g)
    (hE : g.get_legal_actions.length < f + 1) (hterm : g.is_terminal = false) :
    ∃ a ∈ g.get_legal_actions, (agentMin p (f + 1) g).2.1 = some a ∧
      (agentMin p (f + 1) g).1 = (agentMax p f (childG g a)).1 := by
  rw [agentMin_nonterminal p f hterm]
  have hne := nonterminal_legal_ne hterm
  have hnn : ∀ a ∈ g.get_legal_actions, (agentMax p f (childG g a)).1 ≠ .pinf := by
    intro a ha
    obtain ⟨z, hz, _⟩ := agentMax_fin (wf_childG hw) (childG_fuel hw ha hE)
    rw [hz]
    intro hc
    exact EV.noConfusion hc
  have hres := minLoopF_ne_pinf_start hne hnn none 1
  rcases minLoopF_attain g.get_legal_actions .pinf none 1 with ⟨_, hv⟩ | ⟨a, ha, h1, h2⟩
  · exact absurd hv hres
  · exact ⟨a, ha, h1, h2⟩

-- ──────────────────────────────────────────────────────────────────────
-- Fuel irrelevance and MIN/MAX duality
-- ──────────────────────────────────────────────────────────────────────

theorem maxLoopF_congr {next1 next2 : Game → SR} {g : Game} :
    ∀ (acts : List Move), (∀ a ∈ acts, next1 (childG g a) = next2 (childG g a)) →
      ∀ (best : EV) (bm : Option Move) (cnt : Nat),
        maxLoopF next1 g acts best bm cnt = maxLoopF next2 g acts best bm cnt := by
  intro acts
  induction acts with
  | nil => intro _ best bm cnt; rfl
  | cons hd rest ih =>
    intro h best bm cnt
    rw [maxLoopF_cons, maxLoopF_cons, h hd (List.mem_cons_self hd rest)]
    cases EV.lt best (next2 (childG g hd)).1 <;>
      simp only [Bool.false_eq_true, if_false, if_true] <;>
      exact ih (fun a ha => h a (List.mem_cons_of_mem _ ha)) _ _ _

theorem minLoopF_congr {next1 next2 : Game → SR} {g : Game} :
    ∀ (acts : List Move), (∀ a ∈ acts, next1 (childG g a) = next2 (childG g a)) →
      ∀ (best : EV) (bm : Option Move) (cnt : Nat),
        minLoopF next1 g acts best bm cnt = minLoopF next2 g acts best bm cnt := by
  intro acts
  induction acts with
  | nil => intro _ best bm cnt; rfl
  | cons hd rest ih =>
    intro h best bm cnt
    rw [minLoopF_cons, minLoopF_cons, h hd (List.mem_cons_self hd rest)]
    cases EV.lt (next2 (childG g hd)).1 best <;>
      simp only [Bool.false_eq_true, if_false, if_true] <;>
      exact ih (fun a ha => h a (List.mem_cons_of_mem _ ha)) _ _ _

theorem agent_fuel_irrel (p : Player) : ∀ f1 f2 : Nat, ∀ g : Game, WF g →
    g.get_legal_actions.length < f1 → g.get_legal_actions.length < f2 →
    agentMax p f1 g = agentMax p f2 g ∧ agentMin p f1 g = agentMin p f2 g := by
  intro f1
  induction f1 with
  | zero => intro f2 g _ h; exact absurd h (by omega)
  | succ f1 ih =>
    intro f2 g hw hE1 hE2
    cases f2 with
    | zero => exact absurd hE2 (by omega)
    | succ f2 =>
      cases hterm : g.is_terminal
      · rw [agentMax_nonterminal p f1 hterm, agentMax_nonterminal p f2 hterm,
          agentMin_nonterminal p f1 hterm, agentMin_nonterminal p f2 hterm]
        constructor
        · apply maxLoopF_congr
          intro a ha
          exact (ih f2 (childG g a) (wf_childG hw) (childG_fuel hw ha hE1)
            (childG_fuel hw ha hE2)).2
        · apply minLoopF_congr
          intro a ha
          exact (ih f2 (childG g a) (wf_childG hw) (childG_fuel hw ha hE1)
            (childG_fuel hw ha hE2)).1
      · rw [agentMax_terminal p f1 hterm, agentMax_terminal p f2 hterm,
          agentMin_terminal p f1 hterm, agentMin_terminal p f2 hterm]
        exact ⟨rfl, rfl⟩

theorem utility_neg (g : Game) (p : Player) :
    g.utility p = -(g.utility p.other) := by
  cases hcw : g.check_winner with
  | none => rw [utility_eq_none hcw, utility_eq_none hcw]; rfl
  | some o =>
    cases o with
    | draw => rw [utility_eq_draw hcw, utility_eq_draw hcw]; rfl
    | win q =>
      rw [utility_eq_win hcw, utility_eq_win hcw]
      cases q <;> cases p <;> rfl

theorem other_other (p : Player) : p.other.other = p := by cases p <;> rfl

theorem minLoopF_neg {next next' : Game → SR} {g : Game} :
    ∀ (acts : List Move),
      (∀ a ∈ acts, (next (childG g a)).1 = ((next' (childG g a)).1).neg ∧
        (next (childG g a)).2 = (next' (childG g a)).2) →
      ∀ (best : EV) (bm : Option Move) (cnt : Nat),
        minLoopF next g acts best.neg bm cnt =
          (((maxLoopF next' g acts best bm cnt).1).neg,
            (maxLoopF next' g acts best bm cnt).2) := by
  intro acts
  induction acts with
  | nil => intro _ best bm cnt; rfl
  | cons hd rest ih =>
    intro h best bm cnt
    have hhd := h hd (List.mem_cons_self hd rest)
    rw [minLoopF_cons, maxLoopF_cons, hhd.1, hhd.2, EV.lt_neg_iff]
    cases EV.lt best (next' (childG g hd)).1 <;>
      simp only [Bool.false_eq_true, if_false, if_true]
    · exact ih (fun a ha => h a (List.mem_cons_of_mem _ ha)) best bm _
    · exact ih (fun a ha => h a (List.mem_cons_of_mem _ ha)) _ (some hd) _

theorem maxLoopF_neg {next next' : Game → SR} {g : Game} :
    ∀ (acts : List Move),
      (∀ a ∈ acts, (next (childG g a)).1 = ((next' (childG g a)).1).neg ∧
        (next (childG g a)).2 = (next' (childG g a)).2) →
      ∀ (best : EV) (bm : Option Move) (cnt : Nat),
        maxLoopF next g acts best.neg bm cnt =
          (((minLoopF next' g acts best bm cnt).1).neg,
            (minLoopF next' g acts best bm cnt).2) := by
  intro acts
  induction acts with
  | nil => intro _ best bm cnt; rfl
  | cons hd rest ih =>
    intro h best bm cnt
    have hhd := h hd (List.mem_cons_self hd rest)
    rw [maxLoopF_cons, minLoopF_cons, hhd.1, hhd.2, EV.lt_neg_iff]
    cases EV.lt (next' (childG g hd)).1 best <;>
      simp only [Bool.false_eq_true, if_false, if_true]
    · exact ih (fun a ha => h a (List.mem_cons_of_mem _ ha)) best bm _
    · exact ih (fun a ha => h a (List.mem_cons_of_mem _ ha)) _ (some hd) _

-- `_min` for agent `p` is `_max` for the opponent with negated values:
-- identical moves, identical node counts
theorem agent_neg (p : Player) : ∀ f : Nat, ∀ g : Game,
    ((agentMin p f g).1 = ((agentMax p.other f g).1).neg ∧
      (agentMin p f g).2 = (agentMax p.other f g).2) ∧
    ((agentMax p f g).1 = ((agentMin p.other f g).1).neg ∧
      (agentMax p f g).2 = (agentMin p.other f g).2) := by
  intro f
  induction f with
  | zero => intro g; exact ⟨⟨rfl, rfl⟩, ⟨rfl, rfl⟩⟩
  | succ f ih =>
    intro g
    cases hterm : g.is_terminal
    · constructor
      · rw [agentMin_nonterminal p f hterm, agentMax_nonterminal p.other f hterm]
        have h := @minLoopF_neg (agentMax p f) (agentMin p.other f)
          g g.get_legal_actions
          (fun a _ => (ih (childG g a)).2) .ninf none 1
        rw [show EV.ninf.neg = EV.pinf from rfl] at h
        exact ⟨by rw [h], by rw [h]⟩
      · rw [agentMax_nonterminal p f hterm, agentMin_nonterminal p.other f hterm]
        have h := @maxLoopF_neg (agentMin p f) (agentMax p.other f)
          g g.get_legal_actions
          (fun a _ => (ih (childG g a)).1) .pinf none 1
        rw [show EV.pinf.neg = EV.ninf from rfl] at h
        exact ⟨by rw [h], by rw [h]⟩
    · rw [agentMin_terminal p f hterm, agentMax_terminal p f hterm,
        agentMin_terminal p.other f hterm, agentMax_terminal p.other f hterm]
      refine ⟨⟨?_, rfl⟩, ⟨?_, rfl⟩⟩
      · rw [utility_neg g p]
        cases g.utility p.other <;> rfl
      · rw [utility_neg g p]
        cases g.utility p.other <;> rfl


-- ──────────────────────────────────────────────────────────────────────
-- Player and cell equality facts
-- ──────────────────────────────────────────────────────────────────────

theorem Player.beq_iff (p q : Player) : (p.beq q = true) ↔ p = q := by
  cases p <;> cases q <;> simp [Player.beq]

theorem Player.beq_self (p : Player) : p.beq p = true := by cases p <;> rfl

theorem Player.beq_eq_false {p q : Player} (h : p ≠ q) : p.beq q = false := by
  cases p <;> cases q <;> simp_all [Player.beq]

theorem Player.other_ne (p : Player) : p.other ≠ p := by cases p <;> simp [Player.other]

theorem Player.eq_other_of_ne {p q : Player} (h : q ≠ p) : q = p.other := by
  cases p <;> cases q <;> simp_all [Player.other]

theorem Player.ne_cases (p q : Player) (h : p ≠ q) :
    (p = .X ∧ q = .O) ∨ (p = .O ∧ q = .X) := by
  cases p <;> cases q <;> simp_all

theorem cellEq_iff (c d : Cell) : (cellEq c d = true) ↔ c = d := by
  cases c <;> cases d <;> simp [cellEq, Player.beq_iff]

-- ──────────────────────────────────────────────────────────────────────
-- Characterizing `check_winner`
-- ──────────────────────────────────────────────────────────────────────

-- the eight winning lines, in the order they appear in `get_winning_line`
def winLines : List (List (Int × Int)) :=
  [[(0, 0), (0, 1), (0, 2)], [(1, 0), (1, 1), (1, 2)], [(2, 0), (2, 1), (2, 2)],
   [(0, 0), (1, 0), (2, 0)], [(0, 1), (1, 1), (2, 1)], [(0, 2), (1, 2), (2, 2)],
   [(0, 0), (1, 1), (2, 2)], [(0, 2), (1, 1), (2, 0)]]

-- spec-side predicate: `p` owns one of the eight lines
def wins (g : Game) (p : Player) : Prop :=
  ∃ l ∈ winLines, ∀ a ∈ l, cellAt g.board a.1 a.2 = some p

instance winsDecidable (g : Game) (p : Player) : Decidable (wins g p) := by
  unfold wins
  infer_instance

theorem lineWin_eq_some {c0 c1 c2 : Cell} {p : Player} :
    lineWin c0 c1 c2 = some p ↔ c0 = some p ∧ c1 = some p ∧ c2 = some p := by
  unfold lineWin
  cases hb : (cellEq c0 c1 && cellEq c1 c2)
  · simp only [Bool.false_eq_true, if_false]
    constructor
    · intro h
      exact absurd h (by simp)
    · intro ⟨h0, h1, h2⟩
      subst h0; subst h1; subst h2
      simp [cellEq_iff, Player.beq_self, cellEq] at hb
  · simp only [if_true]
    rw [Bool.and_eq_true, cellEq_iff, cellEq_iff] at hb
    obtain ⟨h01, h12⟩ := hb
    subst h01
    rw [← h12]
    constructor
    · intro h
      exact ⟨h, h, h⟩
    · intro ⟨h, _, _⟩
      exact h

theorem rowsWinner_cases {a b c d e f x y z : Cell} {p : Player}
    (h : rowsWinner [[a, b, c], [d, e, f], [x, y, z]] = some p) :
    (a = some p ∧ b = some p ∧ c = some p) ∨
    (d = some p ∧ e = some p ∧ f = some p) ∨
    (x = some p ∧ y = some p ∧ z = some p) := by
  rw [show rowsWinner [[a, b, c], [d, e, f], [x, y, z]] =
    (match lineWin a b c with
     | some q => some q
     | none =>
       match lineWin d e f with
       | some q => some q
       | none =>
         match lineWin x y z with
         | some q => some q
         | none => none) from rfl] at h
  rcases h1 : lineWin a b c with _ | q
  · rw [h1] at h
    rcases h2 : lineWin d e f with _ | q
    · rw [h2] at h
      rcases h3 : lineWin x y z with _ | q
      · rw [h3] at h; exact absurd h (by simp)
      · rw [h3] at h
        simp only [Option.some.injEq] at h
        subst h
        exact Or.inr (Or.inr (lineWin_eq_some.mp h3))
    · rw [h2] at h
      simp only [Option.some.injEq] at h
      subst h
      exact Or.inr (Or.inl (lineWin_eq_some.mp h2))
  · rw [h1] at h
    simp only [Option.some.injEq] at h
    subst h
    exact Or.inl (lineWin_eq_some.mp h1)

theorem colsWinner_cases {a b c d e f x y z : Cell} {p : Player}
    (h : colsWinner [[a, b, c], [d, e, f], [x, y, z]] = some p) :
    (a = some p ∧ d = some p ∧ x = some p) ∨
    (b = some p ∧ e = some p ∧ y = some p) ∨
    (c = some p ∧ f = some p ∧ z = some p) := by
  rw [show colsWinner [[a, b, c], [d, e, f], [x, y, z]] =
    (match lineWin a d x with
     | some q => some q
     | none =>
       match lineWin b e y with
       | some q => some q
       | none => lineWin c f z) from rfl] at h
  rcases h1 : lineWin a d x with _ | q
  · rw [h1] at h
    rcases h2 : lineWin b e y with _ | q
    · rw [h2] at h
      exact Or.inr (Or.inr (lineWin_eq_some.mp h))
    · rw [h2] at h
      simp only [Option.some.injEq] at h
      subst h
      exact Or.inr (Or.inl (lineWin_eq_some.mp h2))
  · rw [h1] at h
    simp only [Option.some.injEq] at h
    subst h
    exact Or.inl (lineWin_eq_some.mp h1)

theorem diagsWinner_cases {a b c d e f x y z : Cell} {p : Player}
    (h : diagsWinner [[a, b, c], [d, e, f], [x, y, z]] = some p) :
    (a = some p ∧ e = some p ∧ z = some p) ∨
    (c = some p ∧ e = some p ∧ x = some p) := by
  rw [show diagsWinner [[a, b, c], [d, e, f], [x, y, z]] =
    (match lineWin a e z with
     | some q => some q
     | none => lineWin c e x) from rfl] at h
  rcases h1 : lineWin a e z with _ | q
  · rw [h1] at h
    exact Or.inr (lineWin_eq_some.mp h)
  · rw [h1] at h
    simp only [Option.some.injEq] at h
    subst h
    exact Or.inl (lineWin_eq_some.mp h1)

theorem lineWin_none_not_all {c0 c1 c2 : Cell} {p : Player}
    (h : lineWin c0 c1 c2 = none) :
    ¬(c0 = some p ∧ c1 = some p ∧ c2 = some p) := by
  intro hall
  rw [lineWin_eq_some.mpr hall] at h
  exact Option.noConfusion h

theorem rowsWinner_none {a b c d e f x y z : Cell}
    (h : rowsWinner [[a, b, c], [d, e, f], [x, y, z]] = none) :
    lineWin a b c = none ∧ lineWin d e f = none ∧ lineWin x y z = none := by
  rw [show rowsWinner [[a, b, c], [d, e, f], [x, y, z]] =
    (match lineWin a b c with
     | some q => some q
     | none =>
       match lineWin d e f with
       | some q => some q
       | none =>
         match lineWin x y z with
         | some q => some q
         | none => none) from rfl] at h
  rcases h1 : lineWin a b c with _ | q
  · rw [h1] at h
    rcases h2 : lineWin d e f with _ | q
    · rw [h2] at h
      rcases h3 : lineWin x y z with _ | q
      · exact ⟨rfl, rfl, rfl⟩
      · rw [h3] at h; exact absurd h (by simp)
    · rw [h2] at h; exact absurd h (by simp)
  · rw [h1] at h; exact absurd h (by simp)

theorem colsWinner_none {a b c d e f x y z : Cell}
    (h : colsWinner [[a, b, c], [d, e, f], [x, y, z]] = none) :
    lineWin a d x = none ∧ lineWin b e y = none ∧ lineWin c f z = none := by
  rw [show colsWinner [[a, b, c], [d, e, f], [x, y, z]] =
    (match lineWin a d x with
     | some q => some q
     | none =>
       match lineWin b e y with
       | some q => some q
       | none => lineWin c f z) from rfl] at h
  rcases h1 : lineWin a d x with _ | q
  · rw [h1] at h
    rcases h2 : lineWin b e y with _ | q
    · rw [h2] at h
      exact ⟨rfl, rfl, h⟩
    · rw [h2] at h; exact absurd h (by simp)
  · rw [h1] at h; exact absurd h (by simp)

theorem diagsWinner_none {a b c d e f x y z : Cell}
    (h : diagsWinner [[a, b, c], [d, e, f], [x, y, z]] = none) :
    lineWin a e z = none ∧ lineWin c e x = none := by
  rw [show diagsWinner [[a, b, c], [d, e, f], [x, y, z]] =
    (match lineWin a e z with
     | some q => some q
     | none => lineWin c e x) from rfl] at h
  rcases h1 : lineWin a e z with _ | q
  · rw [h1] at h
    exact ⟨rfl, h⟩
  · rw [h1] at h; exact absurd h (by simp)

-- `wins` on an explicitly given board, line by line
theorem wins_iff_cells {g : Game} {p : Player}
    {a b c d e f x y z : Cell}
    (hb : g.board = [[a, b, c], [d, e, f], [x, y, z]]) :
    wins g p ↔
      ((a = some p ∧ b = some p ∧ c = some p) ∨
       (d = some p ∧ e = some p ∧ f = some p) ∨
       (x = some p ∧ y = some p ∧ z = some p) ∨
       (a = some p ∧ d = some p ∧ x = some p) ∨
       (b = some p ∧ e = some p ∧ y = some p) ∨
       (c = some p ∧ f = some p ∧ z = some p) ∨
       (a = some p ∧ e = some p ∧ z = some p) ∨
       (c = some p ∧ e = some p ∧ x = some p)) := by
  constructor
  · rintro ⟨l, hl, hcells⟩
    rw [hb] at hcells
    simp only [winLines, List.mem_cons, List.not_mem_nil, or_false] at hl
    rcases hl with rfl|rfl|rfl|rfl|rfl|rfl|rfl|rfl
    · exact Or.inl ⟨hcells (0, 0) (by simp), hcells (0, 1) (by simp),
        hcells (0, 2) (by simp)⟩
    · exact Or.inr (Or.inl ⟨hcells (1, 0) (by simp), hcells (1, 1) (by simp),
        hcells (1, 2) (by simp)⟩)
    · exact Or.inr (Or.inr (Or.inl ⟨hcells (2, 0) (by simp), hcells (2, 1) (by simp),
        hcells (2, 2) (by simp)⟩))
    · exact Or.inr (Or.inr (Or.inr (Or.inl ⟨hcells (0, 0) (by simp),
        hcells (1, 0) (by simp), hcells (2, 0) (by simp)⟩)))
    · exact Or.inr (Or.inr (Or.inr (Or.inr (Or.inl ⟨hcells (0, 1) (by simp),
        hcells (1, 1) (by simp), hcells (2, 1) (by simp)⟩))))
    · exact Or.inr (Or.inr (Or.inr (Or.inr (Or.inr (Or.inl ⟨hcells (0, 2) (by simp),
        hcells (1, 2) (by simp), hcells (2, 2) (by simp)⟩)))))
    · exact Or.inr (Or.inr (Or.inr (Or.inr (Or.inr (Or.inr (Or.inl
        ⟨hcells (0, 0) (by simp), hcells (1, 1) (by simp), hcells (2, 2) (by simp)⟩))))))
    · exact Or.inr (Or.inr (Or.inr (Or.inr (Or.inr (Or.inr (Or.inr
        ⟨hcells (0, 2) (by simp), hcells (1, 1) (by simp), hcells (2, 0) (by simp)⟩))))))
  · intro h
    rcases h with ⟨h1, h2, h3⟩|⟨h1, h2, h3⟩|⟨h1, h2, h3⟩|⟨h1, h2, h3⟩|⟨h1, h2, h3⟩|
      ⟨h1, h2, h3⟩|⟨h1, h2, h3⟩|⟨h1, h2, h3⟩
    · refine ⟨[(0, 0), (0, 1), (0, 2)], by simp [winLines], ?_⟩
      intro m hm
      rw [hb]
      simp only [List.mem_cons, List.not_mem_nil, or_false] at hm
      rcases hm with rfl|rfl|rfl
      exacts [h1, h2, h3]
    · refine ⟨[(1, 0), (1, 1), (1, 2)], by simp [winLines], ?_⟩
      intro m hm
      rw [hb]
      simp only [List.mem_cons, List.not_mem_nil, or_false] at hm
      rcases hm with rfl|rfl|rfl
      exacts [h1, h2, h3]
    · refine ⟨[(2, 0), (2, 1), (2, 2)], by simp [winLines], ?_⟩
      intro m hm
      rw [hb]
      simp only [List.mem_cons, List.not_mem_nil, or_false] at hm
      rcases hm with rfl|rfl|rfl
      exacts [h1, h2, h3]
    · refine ⟨[(0, 0), (1, 0), (2, 0)], by simp [winLines], ?_⟩
      intro m hm
      rw [hb]
      simp only [List.mem_cons, List.not_mem_nil, or_false] at hm
      rcases hm with rfl|rfl|rfl
      exacts [h1, h2, h3]
    · refine ⟨[(0, 1), (1, 1), (2, 1)], by simp [winLines], ?_⟩
      intro m hm
      rw [hb]
      simp only [List.mem_cons, List.not_mem_nil, or_false] at hm
      rcases hm with rfl|rfl|rfl
      exacts [h1, h2, h3]
    · refine ⟨[(0, 2), (1, 2), (2, 2)], by simp [winLines], ?_⟩
      intro m hm
      rw [hb]
      simp only [List.mem_cons, List.not_mem_nil, or_false] at hm
      rcases hm with rfl|rfl|rfl
      exacts [h1, h2, h3]
    · refine ⟨[(0, 0), (1, 1), (2, 2)], by simp [winLines], ?_⟩
      intro m hm
      rw [hb]
      simp only [List.mem_cons, List.not_mem_nil, or_false] at hm
      rcases hm with rfl|rfl|rfl
      exacts [h1, h2, h3]
    · refine ⟨[(0, 2), (1, 1), (2, 0)], by simp [winLines], ?_⟩
      intro m hm
      rw [hb]
      simp only [List.mem_cons, List.not_mem_nil, or_false] at hm
      rcases hm with rfl|rfl|rfl
      exacts [h1, h2, h3]

theorem check_winner_eq_rows {g : Game} {p : Player}
    (h1 : rowsWinner g.board = some p) : g.check_winner = some (.win p) := by
  unfold Game.check_winner
  simp [h1]

theorem check_winner_eq_cols {g : Game} {p : Player}
    (h1 : rowsWinner g.board = none) (h2 : colsWinner g.board = some p) :
    g.check_winner = some (.win p) := by
  unfold Game.check_winner
  simp [h1, h2]

theorem check_winner_eq_diags {g : Game} {p : Player}
    (h1 : rowsWinner g.board = none) (h2 : colsWinner g.board = none)
    (h3 : diagsWinner g.board = some p) : g.check_winner = some (.win p) := by
  unfold Game.check_winner
  simp [h1, h2, h3]

theorem check_winner_eq_of_none {g : Game}
    (h1 : rowsWinner g.board = none) (h2 : colsWinner g.board = none)
    (h3 : diagsWinner g.board = none) :
    g.check_winner = (if g.get_legal_actions.isEmpty then some .draw else none) := by
  unfold Game.check_winner
  simp [h1, h2, h3]

theorem wins_of_checks {g : Game} (hw : WF g) {p : Player}
    (h : rowsWinner g.board = some p ∨ colsWinner g.board = some p ∨
      diagsWinner g.board = some p) : wins g p := by
  obtain ⟨a, b, c, d, e, f, x, y, z, hb⟩ := hw.cells
  rw [wins_iff_cells hb]
  rcases h with h | h | h
  · rw [hb] at h
    rcases rowsWinner_cases h with h' | h' | h'
    · exact Or.inl h'
    · exact Or.inr (Or.inl h')
    · exact Or.inr (Or.inr (Or.inl h'))
  · rw [hb] at h
    rcases colsWinner_cases h with h' | h' | h'
    · exact Or.inr (Or.inr (Or.inr (Or.inl h')))
    · exact Or.inr (Or.inr (Or.inr (Or.inr (Or.inl h'))))
    · exact Or.inr (Or.inr (Or.inr (Or.inr (Or.inr (Or.inl h')))))
  · rw [hb] at h
    rcases diagsWinner_cases h with h' | h'
    · exact Or.inr (Or.inr (Or.inr (Or.inr (Or.inr (Or.inr (Or.inl h'))))))
    · exact Or.inr (Or.inr (Or.inr (Or.inr (Or.inr (Or.inr (Or.inr h'))))))

theorem not_wins_of_checks_none {g : Game} (hw : WF g)
    (h1 : rowsWinner g.board = none) (h2 : colsWinner g.board = none)
    (h3 : diagsWinner g.board = none) (p : Player) : ¬ wins g p := by
  obtain ⟨a, b, c, d, e, f, x, y, z, hb⟩ := hw.cells
  rw [wins_iff_cells hb]
  rw [hb] at h1 h2 h3
  obtain ⟨hr1, hr2, hr3⟩ := rowsWinner_none h1
  obtain ⟨hc1, hc2, hc3⟩ := colsWinner_none h2
  obtain ⟨hd1, hd2⟩ := diagsWinner_none h3
  intro hcase
  rcases hcase with h' | h' | h' | h' | h' | h' | h' | h'
  · exact lineWin_none_not_all hr1 h'
  · exact lineWin_none_not_all hr2 h'
  · exact lineWin_none_not_all hr3 h'
  · exact lineWin_none_not_all hc1 h'
  · exact lineWin_none_not_all hc2 h'
  · exact lineWin_none_not_all hc3 h'
  · exact lineWin_none_not_all hd1 h'
  · exact lineWin_none_not_all hd2 h'

theorem check_winner_win_elim {g : Game} (hw : WF g) {p : Player}
    (h : g.check_winner = some (.win p)) : wins g p := by
  rcases h1 : rowsWinner g.board with _ | q
  · rcases h2 : colsWinner g.board with _ | q
    · rcases h3 : diagsWinner g.board with _ | q
      · rw [check_winner_eq_of_none h1 h2 h3] at h
        cases hleg : g.get_legal_actions.isEmpty <;> rw [hleg] at h <;> simp at h
      · rw [check_winner_eq_diags h1 h2 h3] at h
        simp only [Option.some.injEq, Outcome.win.injEq] at h
        subst h
        exact wins_of_checks hw (Or.inr (Or.inr h3))
    · rw [check_winner_eq_cols h1 h2] at h
      simp only [Option.some.injEq, Outcome.win.injEq] at h
      subst h
      exact wins_of_checks hw (Or.inr (Or.inl h2))
  · rw [check_winner_eq_rows h1] at h
    simp only [Option.some.injEq, Outcome.win.injEq] at h
    subst h
    exact wins_of_checks hw (Or.inl h1)

theorem check_winner_of_wins {g : Game} (hw : WF g) {p : Player} (h : wins g p) :
    ∃ q, g.check_winner = some (.win q) := by
  rcases h1 : rowsWinner g.board with _ | q
  · rcases h2 : colsWinner g.board with _ | q
    · rcases h3 : diagsWinner g.board with _ | q
      · exact absurd h (not_wins_of_checks_none hw h1 h2 h3 p)
      · exact ⟨q, check_winner_eq_diags h1 h2 h3⟩
    · exact ⟨q, check_winner_eq_cols h1 h2⟩
  · exact ⟨q, check_winner_eq_rows h1⟩

theorem check_winner_draw_iff {g : Game} (hw : WF g) :
    g.check_winner = some .draw ↔
      (∀ p, ¬ wins g p) ∧ g.get_legal_actions = [] := by
  constructor
  · intro h
    rcases h1 : rowsWinner g.board with _ | q
    · rcases h2 : colsWinner g.board with _ | q
      · rcases h3 : diagsWinner g.board with _ | q
        · rw [check_winner_eq_of_none h1 h2 h3] at h
          cases hleg : g.get_legal_actions.isEmpty <;> rw [hleg] at h <;> simp at h
          exact ⟨not_wins_of_checks_none hw h1 h2 h3,
            List.isEmpty_iff.mp hleg⟩
        · rw [check_winner_eq_diags h1 h2 h3] at h; simp at h
      · rw [check_winner_eq_cols h1 h2] at h; simp at h
    · rw [check_winner_eq_rows h1] at h; simp at h
  · intro ⟨hnw, hleg⟩
    rcases h1 : rowsWinner g.board with _ | q
    · rcases h2 : colsWinner g.board with _ | q
      · rcases h3 : diagsWinner g.board with _ | q
        · rw [check_winner_eq_of_none h1 h2 h3, hleg]
          rfl
        · exact absurd (wins_of_checks hw (Or.inr (Or.inr h3))) (hnw q)
      · exact absurd (wins_of_checks hw (Or.inr (Or.inl h2))) (hnw q)
    · exact absurd (wins_of_checks hw (Or.inl h1)) (hnw q)

theorem check_winner_none_iff {g : Game} (hw : WF g) :
    g.check_winner = none ↔
      (∀ p, ¬ wins g p) ∧ g.get_legal_actions ≠ [] := by
  constructor
  · intro h
    rcases h1 : rowsWinner g.board with _ | q
    · rcases h2 : colsWinner g.board with _ | q
      · rcases h3 : diagsWinner g.board with _ | q
        · rw [check_winner_eq_of_none h1 h2 h3] at h
          cases hleg : g.get_legal_actions.isEmpty <;> rw [hleg] at h <;> simp at h
          exact ⟨not_wins_of_checks_none hw h1 h2 h3, by
            intro hc
            rw [hc] at hleg
            simp [List.isEmpty] at hleg⟩
        · rw [check_winner_eq_diags h1 h2 h3] at h; simp at h
      · rw [check_winner_eq_cols h1 h2] at h; simp at h
    · rw [check_winner_eq_rows h1] at h; simp at h
  · intro ⟨hnw, hleg⟩
    rcases h1 : rowsWinner g.board with _ | q
    · rcases h2 : colsWinner g.board with _ | q
      · rcases h3 : diagsWinner g.board with _ | q
        · rw [check_winner_eq_of_none h1 h2 h3]
          have : g.get_legal_actions.isEmpty = false := by
            cases hleg' : g.get_legal_actions.isEmpty
            · rfl
            · exact absurd (List.isEmpty_iff.mp hleg') hleg
          rw [this]
          rfl
        · exact absurd (wins_of_checks hw (Or.inr (Or.inr h3))) (hnw q)
      · exact absurd (wins_of_checks hw (Or.inr (Or.inl h2))) (hnw q)
    · exact absurd (wins_of_checks hw (Or.inl h1)) (hnw q)

instance wfDecidable (g : Game) : Decidable (WF g) := by
  unfold WF
  infer_instance

instance decidableForallPlayer (P : Player → Prop) [∀ p, Decidable (P p)] :
    Decidable (∀ p, P p) :=
  decidable_of_iff (P .X ∧ P .O)
    ⟨fun ⟨h1, h2⟩ p => by cases p <;> assumption, fun h => ⟨h .X, h .O⟩⟩

-- concrete boards used by witnesses and counterexamples

-- the first testable-property board: first row all X, rest empty
def rowXBoard : Game :=
  ⟨[[some .X, some .X, some .X], [none, none, none], [none, none, none]], .O⟩

-- a fully filled board with no three-in-a-row
def fullDrawBoard : Game :=
  ⟨[[some .X, some .O, some .X], [some .X, some .O, some .O],
    [some .O, some .X, some .X]], .X⟩

-- a board on which both players own a completed line (unreachable in a
-- sequential game, but a well-formed board value)
def doubleWinBoard : Game :=
  ⟨[[some .X, some .X, some .X], [some .O, some .O, some .O],
    [none, none, none]], .X⟩

theorem legal_nil_winner {g : Game} (h : g.get_legal_actions = []) :
    g.check_winner ≠ none := by
  intro hn
  rcases h1 : rowsWinner g.board with _ | q
  · rcases h2 : colsWinner g.board with _ | q
    · rcases h3 : diagsWinner g.board with _ | q
      · rw [check_winner_eq_of_none h1 h2 h3, h] at hn
        simp [List.isEmpty] at hn
      · rw [check_winner_eq_diags h1 h2 h3] at hn; simp at hn
    · rw [check_winner_eq_cols h1 h2] at hn; simp at hn
  · rw [check_winner_eq_rows h1] at hn; simp at hn

/-- C6: for every game state, `is_terminal` returns true iff `check_winner` is
non-None or `legal_moves` is empty; moreover whenever the legal-move list is
empty `check_winner` is non-None (a full board yields `Draw` when no line
wins), so `is_terminal` is equivalent to `check_winner` being non-None. -/
theorem is_terminal_spec (g : Game) :
    (g.is_terminal = true ↔ (g.check_winner ≠ none ∨ g.get_legal_actions = [])) ∧
    (g.get_legal_actions = [] → g.check_winner ≠ none) ∧
    (g.is_terminal = true ↔ g.check_winner ≠ none) := by
  have hni : g.get_legal_actions = [] → g.check_winner ≠ none :=
    fun h => legal_nil_winner h
  have hterm : g.is_terminal = true ↔
      (g.check_winner ≠ none ∨ g.get_legal_actions = []) := by
    unfold Game.is_terminal
    rw [Bool.or_eq_true, Option.isSome_iff_ne_none, List.isEmpty_iff]
  refine ⟨hterm, hni, hterm.trans ?_⟩
  constructor
  · intro h
    rcases h with h | h
    · exact h
    · exact hni h
  · exact Or.inl

/-- C6 witness: a full drawn board is terminal with a non-None winner, and its
empty legal-move list indeed forces a non-None winner. -/
theorem is_terminal_spec_witness :
    (fullDrawBoard.get_legal_actions = [] ∧ fullDrawBoard.check_winner ≠ none) ∧
    (initGame.is_terminal = false) :=
  ⟨⟨by decide, (is_terminal_spec fullDrawBoard).2.1 (by decide)⟩, by decide⟩

/-- C5: for every game state and player symbol, `utility` returns one of
-10, 0, +10: +10 when `check_winner` returns that player, -10 when it returns
the opposing player, and 0 when it returns `Draw` or None (so evaluating the
utility of a non-terminal state does not raise and degrades to 0). -/
theorem utility_spec (g : Game) (p : Player) :
    (g.utility p = -10 ∨ g.utility p = 0 ∨ g.utility p = 10) ∧
    (g.check_winner = some (.win p) → g.utility p = 10) ∧
    (g.check_winner = some (.win p.other) → g.utility p = -10) ∧
    (g.check_winner = some .draw → g.utility p = 0) ∧
    (g.check_winner = none → g.utility p = 0) := by
  refine ⟨?_, ?_, ?_, fun h => utility_eq_draw h p, fun h => utility_eq_none h p⟩
  · cases hcw : g.check_winner with
    | none => rw [utility_eq_none hcw]; tauto
    | some o =>
      cases o with
      | draw => rw [utility_eq_draw hcw]; tauto
      | win q =>
        rw [utility_eq_win hcw]
        cases hq : q.beq p <;> simp
  · intro h
    rw [utility_eq_win h, Player.beq_self p]
    rfl
  · intro h
    rw [utility_eq_win h, Player.beq_eq_false (Player.other_ne p)]
    rfl

/-- C4 counterexample: on the well-formed board with first row all X and second
row all O, player O owns a completed line, yet `check_winner` does not return
O (the earlier X row is found first).  The claim's "returns a player's symbol
exactly when one of the eight lines has all three cells equal to that symbol"
is therefore false as stated for arbitrary boards. -/
theorem check_winner_claim_counterexample :
    WF doubleWinBoard ∧ wins doubleWinBoard .O ∧
      doubleWinBoard.check_winner ≠ some (.win .O) := by
  refine ⟨by decide, by decide, by decide⟩

/-- C4 (amended): for every well-formed board on which the two players do not
both own completed lines, `check_winner` returns a player's symbol exactly
when one of the eight lines (3 rows, 3 columns, 2 diagonals) has all three
cells equal to that non-empty symbol; it returns Draw exactly when no line
wins and no Empty cell remains; and None otherwise. -/
theorem check_winner_spec (g : Game) (hw : WF g)
    (huniq : ¬(wins g .X ∧ wins g .O)) :
    (∀ p, g.check_winner = some (.win p) ↔ wins g p) ∧
    (g.check_winner = some .draw ↔ (∀ p, ¬ wins g p) ∧ g.get_legal_actions = []) ∧
    (g.check_winner = none ↔ (∀ p, ¬ wins g p) ∧ g.get_legal_actions ≠ []) := by
  refine ⟨?_, check_winner_draw_iff hw, check_winner_none_iff hw⟩
  intro p
  constructor
  · exact check_winner_win_elim hw
  · intro hwins
    obtain ⟨q, hq⟩ := check_winner_of_wins hw hwins
    have hq' : wins g q := check_winner_win_elim hw hq
    by_cases hpq : q = p
    · subst hpq; exact hq
    · exfalso
      rcases Player.ne_cases q p hpq with ⟨rfl, rfl⟩ | ⟨rfl, rfl⟩
      · exact huniq ⟨hq', hwins⟩
      · exact huniq ⟨hwins, hq'⟩

/-- C4 witness: the three concrete cases of the claim, derived through the
amended theorem: the all-X first row wins for X, the full mixed board is a
Draw, and the empty board is in progress. -/
theorem check_winner_spec_witness :
    rowXBoard.check_winner = some (.win .X) ∧
    fullDrawBoard.check_winner = some .draw ∧
    initGame.check_winner = none :=
  ⟨((check_winner_spec rowXBoard (by decide)
      (by decide)).1 .X).mpr (by decide),
    ((check_winner_spec fullDrawBoard (by decide)
      (by decide)).2.1).mpr (by decide),
    ((check_winner_spec initGame (by decide)
      (by decide)).2.2).mpr (by decide)⟩

/-- C3: for every well-formed game state and every coordinate pair,
`apply_move` returns true exactly when `is_valid_move` holds; in that case it
places the current player's symbol at (row, col), leaves every other in-range
cell unchanged, and flips `current_player` to the other symbol; when the move
is invalid it returns false and leaves the board and `current_player`
completely unchanged (and, being a total function, never raises). -/
theorem make_move_spec (g : Game) (row col : Int) (hw : WF g) :
    ((g.make_move row col).1 = true ↔ g.is_valid_move row col = true) ∧
    (g.is_valid_move row col = true →
      cellAt (g.make_move row col).2.board row col = some g.current_player ∧
      (g.make_move row col).2.current_player = g.current_player.other ∧
      (∀ r' c' : Int, 0 ≤ r' → r' ≤ 2 → 0 ≤ c' → c' ≤ 2 → ¬(r' = row ∧ c' = col) →
        cellAt (g.make_move row col).2.board r' c' = cellAt g.board r' c')) ∧
    (g.is_valid_move row col = false →
      (g.make_move row col).1 = false ∧ (g.make_move row col).2 = g) := by
  refine ⟨?_, ?_, ?_⟩
  · cases hv : g.is_valid_move row col
    · rw [make_move_invalid hv]
    · rw [make_move_valid hv]
  · intro hv
    obtain ⟨⟨h1, h2, h3, h4⟩, _⟩ := valid_bounds hv
    rw [make_move_valid hv]
    refine ⟨cellAt_boardSet_self hw h1 h2 h3 h4 _, rfl, ?_⟩
    intro r' c' k1 k2 k3 k4 hne
    exact cellAt_boardSet_other hw h1 h2 h3 h4 k1 k2 k3 k4 hne _
  · intro hv
    rw [make_move_invalid hv]
    exact ⟨rfl, rfl⟩

/-- C3 witness: on the initial board, (0,0) is valid and gets X placed with the
turn passing to O; the occupied cell (0,0) then rejects a second move and the
out-of-range request (-1,5) is rejected, both leaving the state unchanged. -/
theorem make_move_spec_witness :
    (initGame.is_valid_move 0 0 = true ∧
      cellAt (initGame.make_move 0 0).2.board 0 0 = some .X ∧
      (initGame.make_move 0 0).2.current_player = .O) ∧
    ((initGame.make_move 0 0).2.is_valid_move 0 0 = false ∧
      ((initGame.make_move 0 0).2.make_move 0 0).1 = false ∧
      ((initGame.make_move 0 0).2.make_move 0 0).2 = (initGame.make_move 0 0).2) ∧
    (initGame.is_valid_move (-1) 5 = false ∧
      (initGame.make_move (-1) 5).2 = initGame) := by
  have h1 := make_move_spec initGame 0 0 (by decide)
  have h2 := make_move_spec (initGame.make_move 0 0).2 0 0 (by decide)
  have h3 := make_move_spec initGame (-1) 5 (by decide)
  refine ⟨⟨by decide, (h1.2.1 (by decide)).1, (h1.2.1 (by decide)).2.1⟩,
    ⟨by decide, (h2.2.2 (by decide)).1, (h2.2.2 (by decide)).2⟩,
    ⟨by decide, (h3.2.2 (by decide)).2⟩⟩

theorem abMax_terminal (p : Player) (f : Nat) {g : Game} (h : g.is_terminal = true)
    (alpha beta : EV) :
    abMax p (f + 1) g alpha beta = (.fin (g.utility p), none, 1) := by
  rw [abMax_succ, if_pos h]

theorem abMin_terminal (p : Player) (f : Nat) {g : Game} (h : g.is_terminal = true)
    (alpha beta : EV) :
    abMin p (f + 1) g alpha beta = (.fin (g.utility p), none, 1) := by
  rw [abMin_succ, if_pos h]

theorem abMax_nonterminal (p : Player) (f : Nat) {g : Game}
    (h : g.is_terminal = false) (alpha beta : EV) :
    abMax p (f + 1) g alpha beta =
      abMaxLoopF (abMin p f) g g.get_legal_actions .ninf none alpha beta 1 := by
  rw [abMax_succ, if_neg (by simp [h])]

theorem abMin_nonterminal (p : Player) (f : Nat) {g : Game}
    (h : g.is_terminal = false) (alpha beta : EV) :
    abMin p (f + 1) g alpha beta =
      abMinLoopF (abMax p f) g g.get_legal_actions .pinf none alpha beta 1 := by
  rw [abMin_succ, if_neg (by simp [h])]

/-- C10: on every terminal game state, for either pruning setting,
`get_best_move` returns no coordinate pair (None) and leaves the
nodes-expanded counter at exactly 1; being a total function it never
raises. -/
theorem get_best_move_terminal (g : Game) (p : Player) (useAB : Bool)
    (h : g.is_terminal = true) : get_best_move p useAB g = (none, 1) := by
  unfold get_best_move
  cases useAB
  · simp only [Bool.false_eq_true, if_false]
    rw [show searchFuel = 9 + 1 from rfl, agentMax_terminal p 9 h]
  · simp only [if_true]
    rw [show searchFuel = 9 + 1 from rfl, abMax_terminal p 9 h]

/-- C10 witness: on the completed first-row board (a terminal win for X), both
variants return None with a node count of exactly 1. -/
theorem get_best_move_terminal_witness :
    rowXBoard.is_terminal = true ∧
    get_best_move .O true rowXBoard = (none, 1) ∧
    get_best_move .O false rowXBoard = (none, 1) :=
  ⟨by decide, get_best_move_terminal rowXBoard .O true (by decide),
    get_best_move_terminal rowXBoard .O false (by decide)⟩

/-- C5 witness: the utility cases evaluated on concrete boards: a won board
scores +10 for the winner and -10 for the loser, a drawn board and the
in-progress empty board both score 0. -/
theorem utility_spec_witness :
    rowXBoard.utility .X = 10 ∧ rowXBoard.utility .O = -10 ∧
    fullDrawBoard.utility .X = 0 ∧ initGame.utility .X = 0 :=
  ⟨(utility_spec rowXBoard .X).2.1 (by decide),
   (utility_spec rowXBoard .O).2.2.1 (by decide),
   (utility_spec fullDrawBoard .X).2.2.2.1 (by decide),
   (utility_spec initGame .X).2.2.2.2 (by decide)⟩

theorem EV.not_le_of_lt {a b : EV} (h : EV.lt a b = true) : EV.le b a = false := by
  rw [EV.lt_eq_not_le] at h
  cases hle : EV.le b a
  · rfl
  · rw [hle] at h
    simp at h

theorem EV.le_false_elim {a b : EV} (h : EV.le a b = false) : EV.le b a = true := by
  rcases EV.le_total a b with h' | h'
  · rw [h'] at h
    exact absurd h (by simp)
  · exact h'

-- ──────────────────────────────────────────────────────────────────────
-- Equations for the alpha-beta loops
-- ──────────────────────────────────────────────────────────────────────

theorem abMaxLoopF_nil (next : Game → EV → EV → SR) (g : Game) (best : EV)
    (bm : Option Move) (alpha beta : EV) (cnt : Nat) :
    abMaxLoopF next g [] best bm alpha beta cnt = (best, bm, cnt) := rfl

theorem abMaxLoopF_cons (next : Game → EV → EV → SR) (g : Game) (a : Move)
    (rest : List Move) (best : EV) (bm : Option Move) (alpha beta : EV) (cnt : Nat) :
    abMaxLoopF next g (a :: rest) best bm alpha beta cnt =
      (let r := next (childG g a) alpha beta
       let best' := if EV.lt best r.1 then r.1 else best
       let bm' := if EV.lt best r.1 then some a else bm
       if EV.le beta best' then (best', bm', cnt + r.2.2)
       else abMaxLoopF next g rest best' bm' (EV.emax alpha best') beta (cnt + r.2.2)) :=
  rfl

theorem abMinLoopF_nil (next : Game → EV → EV → SR) (g : Game) (best : EV)
    (bm : Option Move) (alpha beta : EV) (cnt : Nat) :
    abMinLoopF next g [] best bm alpha beta cnt = (best, bm, cnt) := rfl

theorem abMinLoopF_cons (next : Game → EV → EV → SR) (g : Game) (a : Move)
    (rest : List Move) (best : EV) (bm : Option Move) (alpha beta : EV) (cnt : Nat) :
    abMinLoopF next g (a :: rest) best bm alpha beta cnt =
      (let r := next (childG g a) alpha beta
       let best' := if EV.lt r.1 best then r.1 else best
       let bm' := if EV.lt r.1 best then some a else bm
       if EV.le best' alpha then (best', bm', cnt + r.2.2)
       else abMinLoopF next g rest best' bm' alpha (EV.emin beta best') (cnt + r.2.2)) :=
  rfl

-- ──────────────────────────────────────────────────────────────────────
-- Fail-soft specifications relating `_ab_max`/`_ab_min` to `_max`/`_min`
-- ──────────────────────────────────────────────────────────────────────

-- the value returned by `_ab_min` is exact inside the (alpha, beta) window,
-- and a one-sided bound outside it
def FSminP (p : Player) (f : Nat) (g' : Game) : Prop :=
  ∀ alpha beta : EV, EV.lt alpha beta = true →
    (EV.lt alpha (agentMin p f g').1 = true → EV.lt (agentMin p f g').1 beta = true →
      (abMin p f g' alpha beta).1 = (agentMin p f g').1) ∧
    (EV.le (agentMin p f g').1 alpha = true →
      EV.le (abMin p f g' alpha beta).1 alpha = true ∧
      EV.le (agentMin p f g').1 (abMin p f g' alpha beta).1 = true) ∧
    (EV.le beta (agentMin p f g').1 = true →
      EV.le beta (abMin p f g' alpha beta).1 = true ∧
      EV.le (abMin p f g' alpha beta).1 (agentMin p f g').1 = true)

-- the mirrored specification for `_ab_max`
def FSmaxP (p : Player) (f : Nat) (g' : Game) : Prop :=
  ∀ alpha beta : EV, EV.lt alpha beta = true →
    (EV.lt alpha (agentMax p f g').1 = true → EV.lt (agentMax p f g').1 beta = true →
      (abMax p f g' alpha beta).1 = (agentMax p f g').1) ∧
    (EV.le (agentMax p f g').1 alpha = true →
      EV.le (agentMax p f g').1 (abMax p f g' alpha beta).1 = true ∧
      EV.le (abMax p f g' alpha beta).1 alpha = true) ∧
    (EV.le beta (agentMax p f g').1 = true →
      EV.le beta (abMax p f g' alpha beta).1 = true ∧
      EV.le (abMax p f g' alpha beta).1 (agentMax p f g').1 = true)

theorem abMaxLoopF_cons_lt {next : Game → EV → EV → SR} {g : Game} {a : Move}
    {best alpha beta : EV}
    (h : EV.lt best (next (childG g a) alpha beta).1 = true)
    (rest : List Move) (bm : Option Move) (cnt : Nat) :
    abMaxLoopF next g (a :: rest) best bm alpha beta cnt =
      if EV.le beta (next (childG g a) alpha beta).1 then
        ((next (childG g a) alpha beta).1, some a, cnt + (next (childG g a) alpha beta).2.2)
      else abMaxLoopF next g rest (next (childG g a) alpha beta).1 (some a)
        (EV.emax alpha (next (childG g a) alpha beta).1) beta
        (cnt + (next (childG g a) alpha beta).2.2) := by
  rw [abMaxLoopF_cons]
  simp only [h, if_true]

theorem abMaxLoopF_cons_ge {next : Game → EV → EV → SR} {g : Game} {a : Move}
    {best alpha beta : EV}
    (h : EV.lt best (next (childG g a) alpha beta).1 = false)
    (rest : List Move) (bm : Option Move) (cnt : Nat) :
    abMaxLoopF next g (a :: rest) best bm alpha beta cnt =
      if EV.le beta best then (best, bm, cnt + (next (childG g a) alpha beta).2.2)
      else abMaxLoopF next g rest best bm (EV.emax alpha best) beta
        (cnt + (next (childG g a) alpha beta).2.2) := by
  rw [abMaxLoopF_cons]
  simp only [h, Bool.false_eq_true, if_false]

theorem abMinLoopF_cons_lt {next : Game → EV → EV → SR} {g : Game} {a : Move}
    {best alpha beta : EV}
    (h : EV.lt (next (childG g a) alpha beta).1 best = true)
    (rest : List Move) (bm : Option Move) (cnt : Nat) :
    abMinLoopF next g (a :: rest) best bm alpha beta cnt =
      if EV.le (next (childG g a) alpha beta).1 alpha then
        ((next (childG g a) alpha beta).1, some a, cnt + (next (childG g a) alpha beta).2.2)
      else abMinLoopF next g rest (next (childG g a) alpha beta).1 (some a)
        alpha (EV.emin beta (next (childG g a) alpha beta).1)
        (cnt + (next (childG g a) alpha beta).2.2) := by
  rw [abMinLoopF_cons]
  simp only [h, if_true]

theorem abMinLoopF_cons_ge {next : Game → EV → EV → SR} {g : Game} {a : Move}
    {best alpha beta : EV}
    (h : EV.lt (next (childG g a) alpha beta).1 best = false)
    (rest : List Move) (bm : Option Move) (cnt : Nat) :
    abMinLoopF next g (a :: rest) best bm alpha beta cnt =
      if EV.le best alpha then (best, bm, cnt + (next (childG g a) alpha beta).2.2)
      else abMinLoopF next g rest best bm alpha (EV.emin beta best)
        (cnt + (next (childG g a) alpha beta).2.2) := by
  rw [abMinLoopF_cons]
  simp only [h, Bool.false_eq_true, if_false]

-- MAX loop in the fail-low regime: every child value is at most alpha, so no
-- cut-off fires, alpha never rises, and the result stays within
-- [every child value, alpha]
theorem abMaxLoopF_faillow {p : Player} {f : Nat} {g : Game} {alpha beta : EV}
    (hab : EV.lt alpha beta = true) :
    ∀ (acts : List Move),
      (∀ a ∈ acts, FSminP p f (childG g a) ∧
        EV.le (agentMin p f (childG g a)).1 alpha = true) →
      ∀ (b : EV) (bm : Option Move) (cnt : Nat), EV.le b alpha = true →
        EV.le (abMaxLoopF (abMin p f) g acts b bm alpha beta cnt).1 alpha = true ∧
        EV.le b (abMaxLoopF (abMin p f) g acts b bm alpha beta cnt).1 = true ∧
        (∀ a ∈ acts, EV.le (agentMin p f (childG g a)).1
          (abMaxLoopF (abMin p f) g acts b bm alpha beta cnt).1 = true) := by
  intro acts
  induction acts with
  | nil =>
    intro _ b bm cnt hb
    rw [abMaxLoopF_nil]
    exact ⟨hb, EV.le_refl b, fun a ha => absurd ha (List.not_mem_nil a)⟩
  | cons a rest ih =>
    intro h b bm cnt hb
    obtain ⟨hest1, hest2⟩ := ((h a (List.mem_cons_self a rest)).1 alpha beta hab).2.1
      (h a (List.mem_cons_self a rest)).2
    have hrest := fun x hx => h x (List.mem_cons_of_mem _ hx)
    cases hlt : EV.lt b (abMin p f (childG g a) alpha beta).1
    · rw [abMaxLoopF_cons_ge hlt]
      have hcut : EV.le beta b = false := EV.not_le_of_lt (EV.lt_of_le_of_lt hb hab)
      rw [hcut]
      simp only [Bool.false_eq_true, if_false]
      rw [EV.emax_eq_left hb]
      obtain ⟨r1, r2, r3⟩ := ih hrest b bm _ hb
      refine ⟨r1, r2, ?_⟩
      intro x hx
      rcases List.mem_cons.mp hx with rfl | hmem
      · exact EV.le_trans hest2 (EV.le_trans (EV.le_of_not_lt hlt) r2)
      · exact r3 x hmem
    · rw [abMaxLoopF_cons_lt hlt]
      have hcut : EV.le beta (abMin p f (childG g a) alpha beta).1 = false :=
        EV.not_le_of_lt (EV.lt_of_le_of_lt hest1 hab)
      rw [hcut]
      simp only [Bool.false_eq_true, if_false]
      rw [EV.emax_eq_left hest1]
      obtain ⟨r1, r2, r3⟩ := ih hrest (abMin p f (childG g a) alpha beta).1 (some a) _ hest1
      refine ⟨r1, EV.le_trans (EV.le_of_lt hlt) r2, ?_⟩
      intro x hx
      rcases List.mem_cons.mp hx with rfl | hmem
      · exact EV.le_trans hest2 r2
      · exact r3 x hmem

theorem EV.lt_of_not_le {a b : EV} (h : EV.le a b = false) : EV.lt b a = true := by
  rw [EV.lt_eq_not_le, h]
  rfl

theorem EV.emax_lt {a b c : EV} (h1 : EV.lt a c = true) (h2 : EV.lt b c = true) :
    EV.lt (EV.emax a b) c = true := by
  unfold EV.emax
  cases EV.le b a <;> simp [h1, h2]

theorem EV.emax_absorb {a b c : EV} (hbc : EV.le b c = true) :
    EV.emax (EV.emax a b) c = EV.emax a c := by
  rcases EV.le_total a b with h | h
  · rw [EV.emax_eq_right h, EV.emax_eq_right hbc, EV.emax_eq_right (EV.le_trans h hbc)]
  · rw [EV.emax_eq_left h]

-- MAX loop in the fail-high regime: some child value reaches beta, so a beta
-- cut-off eventually fires and the result lies within [beta, V]
theorem abMaxLoopF_failhigh {p : Player} {f : Nat} {g : Game} {alpha beta V : EV}
    (hab : EV.lt alpha beta = true) (haV : EV.le alpha V = true) :
    ∀ (acts : List Move),
      (∀ a ∈ acts, FSminP p f (childG g a) ∧
        EV.le (agentMin p f (childG g a)).1 V = true) →
      (∃ a ∈ acts, EV.le beta (agentMin p f (childG g a)).1 = true) →
      ∀ (b : EV) (bm : Option Move) (cnt : Nat),
        EV.le b V = true → EV.lt b beta = true →
        EV.le beta (abMaxLoopF (abMin p f) g acts b bm (EV.emax alpha b) beta cnt).1 = true ∧
        EV.le (abMaxLoopF (abMin p f) g acts b bm (EV.emax alpha b) beta cnt).1 V = true := by
  intro acts
  induction acts with
  | nil =>
    intro _ hex b bm cnt _ _
    obtain ⟨a, ha, _⟩ := hex
    exact absurd ha (List.not_mem_nil a)
  | cons a rest ih =>
    intro h hex b bm cnt hbV hbβ
    have hfs := (h a (List.mem_cons_self a rest)).1
    have hmV := (h a (List.mem_cons_self a rest)).2
    have hrest := fun x hx => h x (List.mem_cons_of_mem _ hx)
    have hacβ : EV.lt (EV.emax alpha b) beta = true := EV.emax_lt hab hbβ
    have hacV : EV.le (EV.emax alpha b) V = true := EV.emax_le haV hbV
    cases hm : EV.le beta (agentMin p f (childG g a)).1
    · -- the head child value is below beta: no cut-off at this step
      have hmβ : EV.lt (agentMin p f (childG g a)).1 beta = true := EV.lt_of_not_le hm
      have hattain : ∃ x ∈ rest, EV.le beta (agentMin p f (childG g x)).1 = true := by
        obtain ⟨x, hx, hxval⟩ := hex
        rcases List.mem_cons.mp hx with rfl | hxmem
        · rw [hxval] at hm
          exact absurd hm (by simp)
        · exact ⟨x, hxmem, hxval⟩
      -- in both window positions the estimate is at most V and below beta
      have hest : EV.le (abMin p f (childG g a) (EV.emax alpha b) beta).1 V = true ∧
          EV.lt (abMin p f (childG g a) (EV.emax alpha b) beta).1 beta = true := by
        cases hpos : EV.le (agentMin p f (childG g a)).1 (EV.emax alpha b)
        · have hexact := (hfs (EV.emax alpha b) beta hacβ).1 (EV.lt_of_not_le hpos) hmβ
          rw [hexact]
          exact ⟨hmV, hmβ⟩
        · obtain ⟨he1, _⟩ := (hfs (EV.emax alpha b) beta hacβ).2.1 hpos
          exact ⟨EV.le_trans he1 hacV, EV.lt_of_le_of_lt he1 hacβ⟩
      cases hlt : EV.lt b (abMin p f (childG g a) (EV.emax alpha b) beta).1
      · rw [abMaxLoopF_cons_ge hlt, EV.not_le_of_lt hbβ]
        simp only [Bool.false_eq_true, if_false]
        rw [EV.emax_absorb (EV.le_refl b)]
        exact ih hrest hattain b bm _ hbV hbβ
      · rw [abMaxLoopF_cons_lt hlt, EV.not_le_of_lt hest.2]
        simp only [Bool.false_eq_true, if_false]
        rw [EV.emax_absorb (EV.le_of_lt hlt)]
        exact ih hrest hattain _ (some a) _ hest.1 hest.2
    · -- the head child value reaches beta: its estimate triggers the cut-off
      obtain ⟨he1, he2⟩ := (hfs (EV.emax alpha b) beta hacβ).2.2 hm
      have hlt : EV.lt b (abMin p f (childG g a) (EV.emax alpha b) beta).1 = true :=
        EV.lt_of_lt_of_le hbβ he1
      rw [abMaxLoopF_cons_lt hlt, he1]
      simp only [if_true]
      exact ⟨he1, EV.le_trans he2 hmV⟩

-- once the alpha-beta MAX loop's best value has caught up with alpha and all
-- remaining child values lie below beta, the loop tracks the plain MAX loop
-- exactly: same value and same chosen move
theorem abMaxLoopF_synced {p : Player} {f : Nat} {g : Game} {alpha beta : EV} :
    ∀ (acts : List Move),
      (∀ a ∈ acts, FSminP p f (childG g a) ∧
        EV.lt (agentMin p f (childG g a)).1 beta = true) →
      ∀ (b : EV) (bm : Option Move) (cnt cnt' : Nat),
        EV.le alpha b = true → EV.lt b beta = true →
        (abMaxLoopF (abMin p f) g acts b bm (EV.emax alpha b) beta cnt').1 =
          (maxLoopF (agentMin p f) g acts b bm cnt).1 ∧
        (abMaxLoopF (abMin p f) g acts b bm (EV.emax alpha b) beta cnt').2.1 =
          (maxLoopF (agentMin p f) g acts b bm cnt).2.1 := by
  intro acts
  induction acts with
  | nil =>
    intro _ b bm cnt cnt' _ _
    rw [abMaxLoopF_nil, maxLoopF_nil]
    exact ⟨rfl, rfl⟩
  | cons a rest ih =>
    intro h b bm cnt cnt' hαb hbβ
    have hfs := (h a (List.mem_cons_self a rest)).1
    have hmβ := (h a (List.mem_cons_self a rest)).2
    have hrest := fun x hx => h x (List.mem_cons_of_mem _ hx)
    have hwin : EV.lt b beta = true := hbβ
    have hac : EV.emax alpha b = b := EV.emax_eq_right hαb
    rw [maxLoopF_cons]
    cases hm : EV.lt b (agentMin p f (childG g a)).1
    · -- the head child value does not improve on the shared best
      have hmb : EV.le (agentMin p f (childG g a)).1 b = true := EV.le_of_not_lt hm
      obtain ⟨he1, _⟩ := (hfs b beta hwin).2.1 hmb
      have habest : EV.lt b (abMin p f (childG g a) b beta).1 = false :=
        EV.not_lt_of_le he1
      rw [hac, abMaxLoopF_cons_ge habest, EV.not_le_of_lt hbβ]
      simp only [Bool.false_eq_true, if_false]
      rw [EV.emax_eq_left (EV.le_refl b)]
      have := ih hrest b bm (cnt + (agentMin p f (childG g a)).2.2)
        (cnt' + (abMin p f (childG g a) b beta).2.2) hαb hbβ
      rw [hac] at this
      exact this
    · -- the head child improves the best: the window is exact there
      have hexact := (hfs b beta hwin).1 hm hmβ
      have habest : EV.lt b (abMin p f (childG g a) b beta).1 = true := by
        rw [hexact]
        exact hm
      rw [hac, abMaxLoopF_cons_lt habest, hexact, EV.not_le_of_lt hmβ]
      simp only [Bool.false_eq_true, if_false, if_true]
      have hbm : EV.le b (agentMin p f (childG g a)).1 = true := EV.le_of_lt hm
      have hαm : EV.le alpha (agentMin p f (childG g a)).1 = true := EV.le_trans hαb hbm
      rw [EV.emax_eq_right hbm]
      have := ih hrest (agentMin p f (childG g a)).1 (some a)
        (cnt + (agentMin p f (childG g a)).2.2)
        (cnt' + (abMin p f (childG g a) b beta).2.2) hαm hmβ
      rw [EV.emax_eq_right hαm] at this
      exact this

-- plain MAX loop value: when every child value is at most V, the start is at
-- most V, and either the start or some child attains V, the result is V
theorem maxLoopF_eq_V {p : Player} {f : Nat} {g : Game} {V : EV}
    {acts : List Move} (hub : ∀ a ∈ acts, EV.le (agentMin p f (childG g a)).1 V = true)
    {b : EV} {bm : Option Move} {cnt : Nat} (hbV : EV.le b V = true)
    (hat : b = V ∨ ∃ a ∈ acts, (agentMin p f (childG g a)).1 = V) :
    (maxLoopF (agentMin p f) g acts b bm cnt).1 = V := by
  apply EV.le_antisymm
  · exact maxLoopF_upper acts b bm cnt hbV hub
  · rcases hat with rfl | ⟨a, ha, hav⟩
    · exact maxLoopF_le acts b bm cnt
    · rw [← hav]
      exact maxLoopF_child_le acts b bm cnt a ha

-- MAX loop inside the exact window: regardless of the (possibly different)
-- intermediate best values, the plain loop and the alpha-beta loop both end
-- at the exact value V
theorem abMaxLoopF_exact {p : Player} {f : Nat} {g : Game} {alpha beta V : EV}
    (hab : EV.lt alpha beta = true) (haV : EV.lt alpha V = true)
    (hVb : EV.lt V beta = true) :
    ∀ (acts : List Move),
      (∀ a ∈ acts, FSminP p f (childG g a) ∧
        EV.le (agentMin p f (childG g a)).1 V = true) →
      (∃ a ∈ acts, (agentMin p f (childG g a)).1 = V) →
      ∀ (bP : EV) (bmP : Option Move) (cntP : Nat)
        (bA : EV) (bmA : Option Move) (cntA : Nat),
        EV.le bP alpha = true → EV.le bA alpha = true →
        (maxLoopF (agentMin p f) g acts bP bmP cntP).1 = V ∧
        (abMaxLoopF (abMin p f) g acts bA bmA alpha beta cntA).1 = V := by
  intro acts
  induction acts with
  | nil =>
    intro _ hex
    obtain ⟨a, ha, _⟩ := hex
    exact absurd ha (List.not_mem_nil a)
  | cons a rest ih =>
    intro h hex bP bmP cntP bA bmA cntA hbP hbA
    have hfs := (h a (List.mem_cons_self a rest)).1
    have hmV := (h a (List.mem_cons_self a rest)).2
    have hrest := fun x hx => h x (List.mem_cons_of_mem _ hx)
    rw [maxLoopF_cons]
    cases hpos : EV.le (agentMin p f (childG g a)).1 alpha
    · -- the head child value lies strictly inside the window: both loops
      -- resynchronize at it
      have hαm : EV.lt alpha (agentMin p f (childG g a)).1 = true :=
        EV.lt_of_not_le hpos
      have hmβ : EV.lt (agentMin p f (childG g a)).1 beta = true :=
        EV.lt_of_le_of_lt hmV hVb
      have hexact := (hfs alpha beta hab).1 hαm hmβ
      have hltP : EV.lt bP (agentMin p f (childG g a)).1 = true :=
        EV.lt_of_le_of_lt hbP hαm
      have hltA : EV.lt bA (abMin p f (childG g a) alpha beta).1 = true := by
        rw [hexact]
        exact EV.lt_of_le_of_lt hbA hαm
      rw [hltP]
      simp only [if_true]
      rw [abMaxLoopF_cons_lt hltA, hexact, EV.not_le_of_lt hmβ]
      simp only [Bool.false_eq_true, if_false]
      rw [EV.emax_eq_right (EV.le_of_lt hαm)]
      have hsync := @abMaxLoopF_synced p f g alpha beta rest
        (fun x hx => ⟨(hrest x hx).1, EV.lt_of_le_of_lt (hrest x hx).2 hVb⟩)
        (agentMin p f (childG g a)).1 (some a)
        (cntP + (agentMin p f (childG g a)).2.2)
        (cntA + (abMin p f (childG g a) alpha beta).2.2)
        (EV.le_of_lt hαm) hmβ
      rw [EV.emax_eq_right (EV.le_of_lt hαm)] at hsync
      have hplain : (maxLoopF (agentMin p f) g rest (agentMin p f (childG g a)).1
          (some a) (cntP + (agentMin p f (childG g a)).2.2)).1 = V := by
        apply maxLoopF_eq_V (fun x hx => (hrest x hx).2) hmV
        cases heq : decide ((agentMin p f (childG g a)).1 = V)
        · right
          obtain ⟨x, hx, hxv⟩ := hex
          rcases List.mem_cons.mp hx with rfl | hxmem
          · exact absurd hxv (by simpa using heq)
          · exact ⟨x, hxmem, hxv⟩
        · left
          exact of_decide_eq_true heq
      exact ⟨hplain, hsync.1.trans hplain⟩
    · -- the head child value is below alpha: both loops stay in phase one
      have hattain : ∃ x ∈ rest, (agentMin p f (childG g x)).1 = V := by
        obtain ⟨x, hx, hxv⟩ := hex
        rcases List.mem_cons.mp hx with rfl | hxmem
        · rw [hxv] at hpos
          exact absurd hpos (by rw [EV.not_le_of_lt haV]; simp)
        · exact ⟨x, hxmem, hxv⟩
      obtain ⟨he1, _⟩ := (hfs alpha beta hab).2.1 hpos
      have hbP' : EV.le (if EV.lt bP (agentMin p f (childG g a)).1 = true then
          (agentMin p f (childG g a)).1 else bP) alpha = true := by
        cases hx : EV.lt bP (agentMin p f (childG g a)).1 <;> simp [hx, hpos, hbP]
      cases hltA : EV.lt bA (abMin p f (childG g a) alpha beta).1
      · rw [abMaxLoopF_cons_ge hltA, EV.not_le_of_lt (EV.lt_of_le_of_lt hbA hab)]
        simp only [Bool.false_eq_true, if_false]
        rw [EV.emax_eq_left hbA]
        cases hltP : EV.lt bP (agentMin p f (childG g a)).1 <;>
          simp only [Bool.false_eq_true, if_false, if_true] <;>
          exact ih hrest hattain _ _ _ bA bmA _ (by simp_all) hbA
      · rw [abMaxLoopF_cons_lt hltA,
          EV.not_le_of_lt (EV.lt_of_le_of_lt he1 hab)]
        simp only [Bool.false_eq_true, if_false]
        rw [EV.emax_eq_left he1]
        cases hltP : EV.lt bP (agentMin p f (childG g a)).1 <;>
          simp only [Bool.false_eq_true, if_false, if_true] <;>
          exact ih hrest hattain _ _ _ _ (some a) _ (by simp_all) he1

theorem EV.lt_emin {a b c : EV} (h1 : EV.lt c a = true) (h2 : EV.lt c b = true) :
    EV.lt c (EV.emin a b) = true := by
  unfold EV.emin
  cases EV.le a b <;> simp [h1, h2]

theorem EV.emin_absorb {a b c : EV} (hcb : EV.le c b = true) :
    EV.emin (EV.emin a b) c = EV.emin a c := by
  rcases EV.le_total b a with h | h
  · rw [EV.emin_eq_right h, EV.emin_eq_right (EV.le_trans hcb h),
      EV.emin_eq_right hcb]
  · rw [EV.emin_eq_left h]

-- MIN loop in the fail-high regime: every child value is at least beta, so no
-- cut-off fires, beta never drops, and the result stays within
-- [beta, every child value]
theorem abMinLoopF_failhigh {p : Player} {f : Nat} {g : Game} {alpha beta : EV}
    (hab : EV.lt alpha beta = true) :
    ∀ (acts : List Move),
      (∀ a ∈ acts, FSmaxP p f (childG g a) ∧
        EV.le beta (agentMax p f (childG g a)).1 = true) →
      ∀ (b : EV) (bm : Option Move) (cnt : Nat), EV.le beta b = true →
        EV.le beta (abMinLoopF (abMax p f) g acts b bm alpha beta cnt).1 = true ∧
        EV.le (abMinLoopF (abMax p f) g acts b bm alpha beta cnt).1 b = true ∧
        (∀ a ∈ acts, EV.le (abMinLoopF (abMax p f) g acts b bm alpha beta cnt).1
          (agentMax p f (childG g a)).1 = true) := by
  intro acts
  induction acts with
  | nil =>
    intro _ b bm cnt hb
    rw [abMinLoopF_nil]
    exact ⟨hb, EV.le_refl b, fun a ha => absurd ha (List.not_mem_nil a)⟩
  | cons a rest ih =>
    intro h b bm cnt hb
    obtain ⟨hest1, hest2⟩ := ((h a (List.mem_cons_self a rest)).1 alpha beta hab).2.2
      (h a (List.mem_cons_self a rest)).2
    have hrest := fun x hx => h x (List.mem_cons_of_mem _ hx)
    cases hlt : EV.lt (abMax p f (childG g a) alpha beta).1 b
    · rw [abMinLoopF_cons_ge hlt]
      have hcut : EV.le b alpha = false :=
        EV.not_le_of_lt (EV.lt_of_lt_of_le hab hb)
      rw [hcut]
      simp only [Bool.false_eq_true, if_false]
      rw [EV.emin_eq_left hb]
      obtain ⟨r1, r2, r3⟩ := ih hrest b bm _ hb
      refine ⟨r1, r2, ?_⟩
      intro x hx
      rcases List.mem_cons.mp hx with rfl | hmem
      · exact EV.le_trans (EV.le_trans r2 (EV.le_of_not_lt hlt)) hest2
      · exact r3 x hmem
    · rw [abMinLoopF_cons_lt hlt]
      have hcut : EV.le (abMax p f (childG g a) alpha beta).1 alpha = false :=
        EV.not_le_of_lt (EV.lt_of_lt_of_le hab hest1)
      rw [hcut]
      simp only [Bool.false_eq_true, if_false]
      rw [EV.emin_eq_left hest1]
      obtain ⟨r1, r2, r3⟩ := ih hrest (abMax p f (childG g a) alpha beta).1 (some a) _ hest1
      refine ⟨r1, EV.le_trans r2 (EV.le_of_lt hlt), ?_⟩
      intro x hx
      rcases List.mem_cons.mp hx with rfl | hmem
      · exact EV.le_trans r2 hest2
      · exact r3 x hmem

-- MIN loop in the fail-low regime: some child value drops to alpha, so an
-- alpha cut-off eventually fires and the result lies within [V, alpha]
theorem abMinLoopF_faillow {p : Player} {f : Nat} {g : Game} {alpha beta V : EV}
    (hab : EV.lt alpha beta = true) (hVb : EV.le V beta = true) :
    ∀ (acts : List Move),
      (∀ a ∈ acts, FSmaxP p f (childG g a) ∧
        EV.le V (agentMax p f (childG g a)).1 = true) →
      (∃ a ∈ acts, EV.le (agentMax p f (childG g a)).1 alpha = true) →
      ∀ (b : EV) (bm : Option Move) (cnt : Nat),
        EV.le V b = true → EV.lt alpha b = true →
        EV.le (abMinLoopF (abMax p f) g acts b bm alpha (EV.emin beta b) cnt).1 alpha = true ∧
        EV.le V (abMinLoopF (abMax p f) g acts b bm alpha (EV.emin beta b) cnt).1 = true := by
  intro acts
  induction acts with
  | nil =>
    intro _ hex b bm cnt _ _
    obtain ⟨a, ha, _⟩ := hex
    exact absurd ha (List.not_mem_nil a)
  | cons a rest ih =>
    intro h hex b bm cnt hVb' hαb
    have hfs := (h a (List.mem_cons_self a rest)).1
    have hVm := (h a (List.mem_cons_self a rest)).2
    have hrest := fun x hx => h x (List.mem_cons_of_mem _ hx)
    have hacα : EV.lt alpha (EV.emin beta b) = true := EV.lt_emin hab hαb
    have hacV : EV.le V (EV.emin beta b) = true := EV.le_emin hVb hVb'
    cases hm : EV.le (agentMax p f (childG g a)).1 alpha
    · have hαm : EV.lt alpha (agentMax p f (childG g a)).1 = true := EV.lt_of_not_le hm
      have hattain : ∃ x ∈ rest, EV.le (agentMax p f (childG g x)).1 alpha = true := by
        obtain ⟨x, hx, hxval⟩ := hex
        rcases List.mem_cons.mp hx with rfl | hxmem
        · rw [hxval] at hm
          exact absurd hm (by simp)
        · exact ⟨x, hxmem, hxval⟩
      have hest : EV.le V (abMax p f (childG g a) alpha (EV.emin beta b)).1 = true ∧
          EV.lt alpha (abMax p f (childG g a) alpha (EV.emin beta b)).1 = true := by
        cases hpos : EV.le (EV.emin beta b) (agentMax p f (childG g a)).1
        · have hexact := (hfs alpha (EV.emin beta b) hacα).1 hαm (EV.lt_of_not_le hpos)
          rw [hexact]
          exact ⟨hVm, hαm⟩
        · obtain ⟨he1, _⟩ := (hfs alpha (EV.emin beta b) hacα).2.2 hpos
          exact ⟨EV.le_trans hacV he1, EV.lt_of_lt_of_le hacα he1⟩
      cases hlt : EV.lt (abMax p f (childG g a) alpha (EV.emin beta b)).1 b
      · rw [abMinLoopF_cons_ge hlt, EV.not_le_of_lt hαb]
        simp only [Bool.false_eq_true, if_false]
        rw [EV.emin_absorb (EV.le_refl b)]
        exact ih hrest hattain b bm _ hVb' hαb
      · rw [abMinLoopF_cons_lt hlt, EV.not_le_of_lt hest.2]
        simp only [Bool.false_eq_true, if_false]
        rw [EV.emin_absorb (EV.le_of_lt hlt)]
        exact ih hrest hattain _ (some a) _ hest.1 hest.2
    · obtain ⟨he1, he2⟩ := (hfs alpha (EV.emin beta b) hacα).2.1 hm
      have hlt : EV.lt (abMax p f (childG g a) alpha (EV.emin beta b)).1 b = true :=
        EV.lt_of_le_of_lt he2 hαb
      rw [abMinLoopF_cons_lt hlt, he2]
      simp only [if_true]
      exact ⟨he2, EV.le_trans hVm he1⟩

-- mirrored synchronization for the MIN loops
theorem abMinLoopF_synced {p : Player} {f : Nat} {g : Game} {alpha beta : EV} :
    ∀ (acts : List Move),
      (∀ a ∈ acts, FSmaxP p f (childG g a) ∧
        EV.lt alpha (agentMax p f (childG g a)).1 = true) →
      ∀ (b : EV) (bm : Option Move) (cnt cnt' : Nat),
        EV.le b beta = true → EV.lt alpha b = true →
        (abMinLoopF (abMax p f) g acts b bm alpha (EV.emin beta b) cnt').1 =
          (minLoopF (agentMax p f) g acts b bm cnt).1 ∧
        (abMinLoopF (abMax p f) g acts b bm alpha (EV.emin beta b) cnt').2.1 =
          (minLoopF (agentMax p f) g acts b bm cnt).2.1 := by
  intro acts
  induction acts with
  | nil =>
    intro _ b bm cnt cnt' _ _
    rw [abMinLoopF_nil, minLoopF_nil]
    exact ⟨rfl, rfl⟩
  | cons a rest ih =>
    intro h b bm cnt cnt' hbβ hαb
    have hfs := (h a (List.mem_cons_self a rest)).1
    have hαm := (h a (List.mem_cons_self a rest)).2
    have hrest := fun x hx => h x (List.mem_cons_of_mem _ hx)
    have hac : EV.emin beta b = b := EV.emin_eq_right hbβ
    rw [minLoopF_cons]
    cases hm : EV.lt (agentMax p f (childG g a)).1 b
    · have hmb : EV.le b (agentMax p f (childG g a)).1 = true := EV.le_of_not_lt hm
      obtain ⟨he1, _⟩ := (hfs alpha b hαb).2.2 hmb
      have habest : EV.lt (abMax p f (childG g a) alpha b).1 b = false :=
        EV.not_lt_of_le he1
      rw [hac, abMinLoopF_cons_ge habest, EV.not_le_of_lt hαb]
      simp only [Bool.false_eq_true, if_false]
      rw [EV.emin_eq_left (EV.le_refl b)]
      have := ih hrest b bm (cnt + (agentMax p f (childG g a)).2.2)
        (cnt' + (abMax p f (childG g a) alpha b).2.2) hbβ hαb
      rw [hac] at this
      exact this
    · have hexact := (hfs alpha b hαb).1 hαm hm
      have habest : EV.lt (abMax p f (childG g a) alpha b).1 b = true := by
        rw [hexact]
        exact hm
      rw [hac, abMinLoopF_cons_lt habest, hexact, EV.not_le_of_lt hαm]
      simp only [Bool.false_eq_true, if_false, if_true]
      have hmb : EV.le (agentMax p f (childG g a)).1 b = true := EV.le_of_lt hm
      have hmβ : EV.le (agentMax p f (childG g a)).1 beta = true := EV.le_trans hmb hbβ
      rw [EV.emin_eq_right hmb]
      have := ih hrest (agentMax p f (childG g a)).1 (some a)
        (cnt + (agentMax p f (childG g a)).2.2)
        (cnt' + (abMax p f (childG g a) alpha b).2.2) hmβ hαm
      rw [EV.emin_eq_right hmβ] at this
      exact this

theorem minLoopF_eq_V {p : Player} {f : Nat} {g : Game} {V : EV}
    {acts : List Move} (hlb : ∀ a ∈ acts, EV.le V (agentMax p f (childG g a)).1 = true)
    {b : EV} {bm : Option Move} {cnt : Nat} (hVb : EV.le V b = true)
    (hat : b = V ∨ ∃ a ∈ acts, (agentMax p f (childG g a)).1 = V) :
    (minLoopF (agentMax p f) g acts b bm cnt).1 = V := by
  apply EV.le_antisymm
  · rcases hat with rfl | ⟨a, ha, hav⟩
    · exact minLoopF_le acts b bm cnt
    · rw [← hav]
      exact minLoopF_child_le acts b bm cnt a ha
  · exact minLoopF_lower acts b bm cnt hVb hlb

theorem abMinLoopF_exact {p : Player} {f : Nat} {g : Game} {alpha beta V : EV}
    (hab : EV.lt alpha beta = true) (haV : EV.lt alpha V = true)
    (hVb : EV.lt V beta = true) :
    ∀ (acts : List Move),
      (∀ a ∈ acts, FSmaxP p f (childG g a) ∧
        EV.le V (agentMax p f (childG g a)).1 = true) →
      (∃ a ∈ acts, (agentMax p f (childG g a)).1 = V) →
      ∀ (bP : EV) (bmP : Option Move) (cntP : Nat)
        (bA : EV) (bmA : Option Move) (cntA : Nat),
        EV.le beta bP = true → EV.le beta bA = true →
        (minLoopF (agentMax p f) g acts bP bmP cntP).1 = V ∧
        (abMinLoopF (abMax p f) g acts bA bmA alpha beta cntA).1 = V := by
  intro acts
  induction acts with
  | nil =>
    intro _ hex
    obtain ⟨a, ha, _⟩ := hex
    exact absurd ha (List.not_mem_nil a)
  | cons a rest ih =>
    intro h hex bP bmP cntP bA bmA cntA hbP hbA
    have hfs := (h a (List.mem_cons_self a rest)).1
    have hVm := (h a (List.mem_cons_self a rest)).2
    have hrest := fun x hx => h x (List.mem_cons_of_mem _ hx)
    rw [minLoopF_cons]
    cases hpos : EV.le beta (agentMax p f (childG g a)).1
    · -- the head child value lies strictly inside the window
      have hmβ : EV.lt (agentMax p f (childG g a)).1 beta = true :=
        EV.lt_of_not_le hpos
      have hαm : EV.lt alpha (agentMax p f (childG g a)).1 = true :=
        EV.lt_of_lt_of_le haV hVm
      have hexact := (hfs alpha beta hab).1 hαm hmβ
      have hltP : EV.lt (agentMax p f (childG g a)).1 bP = true :=
        EV.lt_of_lt_of_le hmβ hbP
      have hltA : EV.lt (abMax p f (childG g a) alpha beta).1 bA = true := by
        rw [hexact]
        exact EV.lt_of_lt_of_le hmβ hbA
      rw [hltP]
      simp only [if_true]
      rw [abMinLoopF_cons_lt hltA, hexact, EV.not_le_of_lt hαm]
      simp only [Bool.false_eq_true, if_false]
      rw [EV.emin_eq_right (EV.le_of_lt hmβ)]
      have hsync := @abMinLoopF_synced p f g alpha beta rest
        (fun x hx => ⟨(hrest x hx).1, EV.lt_of_lt_of_le haV (hrest x hx).2⟩)
        (agentMax p f (childG g a)).1 (some a)
        (cntP + (agentMax p f (childG g a)).2.2)
        (cntA + (abMax p f (childG g a) alpha beta).2.2)
        (EV.le_of_lt hmβ) hαm
      rw [EV.emin_eq_right (EV.le_of_lt hmβ)] at hsync
      have hplain : (minLoopF (agentMax p f) g rest (agentMax p f (childG g a)).1
          (some a) (cntP + (agentMax p f (childG g a)).2.2)).1 = V := by
        apply minLoopF_eq_V (fun x hx => (hrest x hx).2) hVm
        cases heq : decide ((agentMax p f (childG g a)).1 = V)
        · right
          obtain ⟨x, hx, hxv⟩ := hex
          rcases List.mem_cons.mp hx with rfl | hxmem
          · exact absurd hxv (by simpa using heq)
          · exact ⟨x, hxmem, hxv⟩
        · left
          exact of_decide_eq_true heq
      exact ⟨hplain, hsync.1.trans hplain⟩
    · -- the head child value is above beta: both loops stay in phase one
      have hattain : ∃ x ∈ rest, (agentMax p f (childG g x)).1 = V := by
        obtain ⟨x, hx, hxv⟩ := hex
        rcases List.mem_cons.mp hx with rfl | hxmem
        · rw [hxv] at hpos
          exact absurd hpos (by rw [EV.not_le_of_lt hVb]; simp)
        · exact ⟨x, hxmem, hxv⟩
      obtain ⟨he1, _⟩ := (hfs alpha beta hab).2.2 hpos
      cases hltA : EV.lt (abMax p f (childG g a) alpha beta).1 bA
      · rw [abMinLoopF_cons_ge hltA, EV.not_le_of_lt (EV.lt_of_lt_of_le hab hbA)]
        simp only [Bool.false_eq_true, if_false]
        rw [EV.emin_eq_left hbA]
        cases hltP : EV.lt (agentMax p f (childG g a)).1 bP <;>
          simp only [Bool.false_eq_true, if_false, if_true] <;>
          exact ih hrest hattain _ _ _ bA bmA _ (by simp_all) hbA
      · rw [abMinLoopF_cons_lt hltA,
          EV.not_le_of_lt (EV.lt_of_lt_of_le hab he1)]
        simp only [Bool.false_eq_true, if_false]
        rw [EV.emin_eq_left he1]
        cases hltP : EV.lt (agentMax p f (childG g a)).1 bP <;>
          simp only [Bool.false_eq_true, if_false, if_true] <;>
          exact ih hrest hattain _ _ _ _ (some a) _ (by simp_all) he1

theorem EV.trichotomy (v alpha beta : EV) :
    EV.le v alpha = true ∨ (EV.lt alpha v = true ∧ EV.lt v beta = true) ∨
      EV.le beta v = true := by
  rcases EV.le_total v alpha with h1 | h1
  · exact Or.inl h1
  · rcases EV.le_total beta v with h2 | h2
    · exact Or.inr (Or.inr h2)
    · cases hx : EV.le v alpha
      · cases hy : EV.le beta v
        · exact Or.inr (Or.inl ⟨EV.lt_of_not_le hx, EV.lt_of_not_le hy⟩)
        · exact Or.inr (Or.inr rfl)
      · exact Or.inl rfl

theorem EV.ne_ninf_of_lt {a b : EV} (h : EV.lt a b = true) : b ≠ .ninf := by
  intro hb
  rw [hb, EV.lt_ninf] at h
  exact Bool.false_ne_true h

theorem EV.ne_pinf_of_lt {a b : EV} (h : EV.lt a b = true) : a ≠ .pinf := by
  intro ha
  rw [ha] at h
  cases b <;> simp [EV.lt] at h

-- the fail-soft correctness of alpha-beta pruning relative to plain minimax:
-- inside the window the value is exact, outside it the search returns a
-- value on the same side of the bound, between the bound and the true value
theorem FS_aux (p : Player) : ∀ f : Nat,
    (∀ g : Game, WF g → g.get_legal_actions.length < f → FSmaxP p f g) ∧
    (∀ g : Game, WF g → g.get_legal_actions.length < f → FSminP p f g) := by
  intro f
  induction f with
  | zero =>
    exact ⟨fun g _ h => absurd h (by omega), fun g _ h => absurd h (by omega)⟩
  | succ f ih =>
    constructor
    · -- FSmaxP at fuel f+1
      intro g hw hE alpha beta hab
      cases hterm : g.is_terminal
      · -- non-terminal: analyze the loops
        have hne := nonterminal_legal_ne hterm
        have hfsmin : ∀ a ∈ g.get_legal_actions, FSminP p f (childG g a) :=
          fun a ha => ih.2 (childG g a) (wf_childG hw) (childG_fuel hw ha hE)
        have hub : ∀ a ∈ g.get_legal_actions,
            EV.le (agentMin p f (childG g a)).1 (agentMax p (f + 1) g).1 = true := by
          intro a ha
          rw [agentMax_nonterminal p f hterm]
          exact maxLoopF_child_le g.get_legal_actions .ninf none 1 a ha
        have hattain : (agentMax p (f + 1) g).1 ≠ .ninf →
            ∃ a ∈ g.get_legal_actions,
              (agentMin p f (childG g a)).1 = (agentMax p (f + 1) g).1 := by
          intro hnn
          rcases agentMax_attain hw hE hterm with ⟨a, ha, _, hav⟩
          exact ⟨a, ha, hav.symm⟩
        rw [abMax_nonterminal p f hterm alpha beta]
        rcases EV.trichotomy (agentMax p (f + 1) g).1 alpha beta with hlow | hmid | hhigh
        · -- fail-low regime
          obtain ⟨r1, r2, r3⟩ := abMaxLoopF_faillow hab g.get_legal_actions
            (fun a ha => ⟨hfsmin a ha, EV.le_trans (hub a ha) hlow⟩)
            .ninf none 1 (EV.ninf_le alpha)
          refine ⟨?_, ?_, ?_⟩
          · intro hx _
            exact absurd hlow (by rw [EV.not_le_of_lt hx]; simp)
          · intro _
            refine ⟨?_, r1⟩
            rcases @maxLoopF_attain (agentMin p f) g
              g.get_legal_actions .ninf none 1 with ⟨_, hv⟩ | ⟨a, ha, _, hv⟩
            · rw [agentMax_nonterminal p f hterm, hv]
              exact EV.ninf_le _
            · rw [agentMax_nonterminal p f hterm, hv]
              exact r3 a ha
          · intro hx
            exact absurd (EV.le_trans hx hlow) (by rw [EV.not_le_of_lt hab]; simp)
        · -- exact window
          have hnn : (agentMax p (f + 1) g).1 ≠ .ninf := EV.ne_ninf_of_lt hmid.1
          have hplain : (maxLoopF (agentMin p f) g g.get_legal_actions .ninf none 1).1 =
              (agentMax p (f + 1) g).1 := by
            rw [agentMax_nonterminal p f hterm]
          obtain ⟨_, hab'⟩ := abMaxLoopF_exact hab hmid.1 hmid.2 g.get_legal_actions
            (fun a ha => ⟨hfsmin a ha, hub a ha⟩) (hattain hnn)
            .ninf none 1 .ninf none 1 (EV.ninf_le alpha) (EV.ninf_le alpha)
          refine ⟨fun _ _ => hab', ?_, ?_⟩
          · intro hx
            exact absurd hx (by rw [EV.not_le_of_lt hmid.1]; simp)
          · intro hx
            exact absurd hx (by rw [EV.not_le_of_lt hmid.2]; simp)
        · -- fail-high regime
          have hnn : (agentMax p (f + 1) g).1 ≠ .ninf := by
            intro hv
            rw [hv] at hhigh
            have : beta = .ninf := by
              cases beta <;> simp_all [EV.le]
            rw [this, EV.lt_ninf] at hab
            exact Bool.false_ne_true hab
          obtain ⟨a0, ha0, hv0⟩ := hattain hnn
          obtain ⟨r1, r2⟩ := abMaxLoopF_failhigh hab
            (EV.le_of_lt (EV.lt_of_lt_of_le hab hhigh)) g.get_legal_actions
            (fun a ha => ⟨hfsmin a ha, hub a ha⟩)
            ⟨a0, ha0, by rw [hv0]; exact hhigh⟩ .ninf none 1
            (EV.ninf_le _) (EV.ninf_lt_of_ne (EV.ne_ninf_of_lt hab))
          rw [EV.emax_eq_left (EV.ninf_le alpha)] at r1 r2
          refine ⟨?_, ?_, fun _ => ⟨r1, r2⟩⟩
          · intro _ hx
            exact absurd hhigh (by rw [EV.not_le_of_lt hx]; simp)
          · intro hx
            exact absurd (EV.le_trans hhigh hx) (by rw [EV.not_le_of_lt hab]; simp)
      · -- terminal: both searches return the raw utility
        rw [agentMax_terminal p f hterm, abMax_terminal p f hterm alpha beta]
        refine ⟨fun _ _ => rfl, fun hx => ⟨EV.le_refl _, hx⟩, fun hx => ⟨hx, EV.le_refl _⟩⟩
    · -- FSminP at fuel f+1
      intro g hw hE alpha beta hab
      cases hterm : g.is_terminal
      · have hne := nonterminal_legal_ne hterm
        have hfsmax : ∀ a ∈ g.get_legal_actions, FSmaxP p f (childG g a) :=
          fun a ha => ih.1 (childG g a) (wf_childG hw) (childG_fuel hw ha hE)
        have hlb : ∀ a ∈ g.get_legal_actions,
            EV.le (agentMin p (f + 1) g).1 (agentMax p f (childG g a)).1 = true := by
          intro a ha
          rw [agentMin_nonterminal p f hterm]
          exact minLoopF_child_le g.get_legal_actions .pinf none 1 a ha
        have hattain : (agentMin p (f + 1) g).1 ≠ .pinf →
            ∃ a ∈ g.get_legal_actions,
              (agentMax p f (childG g a)).1 = (agentMin p (f + 1) g).1 := by
          intro hnn
          rcases agentMin_attain hw hE hterm with ⟨a, ha, _, hav⟩
          exact ⟨a, ha, hav.symm⟩
        rw [abMin_nonterminal p f hterm alpha beta]
        rcases EV.trichotomy (agentMin p (f + 1) g).1 alpha beta with hlow | hmid | hhigh
        · -- fail-low regime (cut-offs fire)
          have hnn : (agentMin p (f + 1) g).1 ≠ .pinf := by
            intro hv
            rw [hv] at hlow
            have : alpha = .pinf := by
              cases alpha <;> simp_all [EV.le]
            rw [this] at hab
            exact absurd hab (by cases beta <;> simp [EV.lt])
          obtain ⟨a0, ha0, hv0⟩ := hattain hnn
          obtain ⟨r1, r2⟩ := abMinLoopF_faillow hab
            (EV.le_of_lt (EV.lt_of_le_of_lt hlow hab)) g.get_legal_actions
            (fun a ha => ⟨hfsmax a ha, hlb a ha⟩)
            ⟨a0, ha0, by rw [hv0]; exact hlow⟩ .pinf none 1
            (EV.le_pinf _) (EV.lt_pinf_of_ne (EV.ne_pinf_of_lt hab))
          rw [EV.emin_eq_left (EV.le_pinf beta)] at r1 r2
          refine ⟨?_, fun _ => ⟨r1, r2⟩, ?_⟩
          · intro hx _
            exact absurd hlow (by rw [EV.not_le_of_lt hx]; simp)
          · intro hx
            exact absurd (EV.le_trans hx hlow) (by rw [EV.not_le_of_lt hab]; simp)
        · -- exact window
          have hnn : (agentMin p (f + 1) g).1 ≠ .pinf := EV.ne_pinf_of_lt hmid.2
          obtain ⟨_, hab'⟩ := abMinLoopF_exact hab hmid.1 hmid.2 g.get_legal_actions
            (fun a ha => ⟨hfsmax a ha, hlb a ha⟩) (hattain hnn)
            .pinf none 1 .pinf none 1 (EV.le_pinf beta) (EV.le_pinf beta)
          refine ⟨fun _ _ => hab', ?_, ?_⟩
          · intro hx
            exact absurd hx (by rw [EV.not_le_of_lt hmid.1]; simp)
          · intro hx
            exact absurd hx (by rw [EV.not_le_of_lt hmid.2]; simp)
        · -- fail-high regime (no cut-offs)
          obtain ⟨r1, r2, r3⟩ := abMinLoopF_failhigh hab g.get_legal_actions
            (fun a ha => ⟨hfsmax a ha, EV.le_trans hhigh (hlb a ha)⟩)
            .pinf none 1 (EV.le_pinf beta)
          refine ⟨?_, ?_, ?_⟩
          · intro _ hx
            exact absurd hhigh (by rw [EV.not_le_of_lt hx]; simp)
          · intro hx
            exact absurd (EV.le_trans hhigh hx) (by rw [EV.not_le_of_lt hab]; simp)
          · intro _
            refine ⟨r1, ?_⟩
            rcases @minLoopF_attain (agentMax p f) g
              g.get_legal_actions .pinf none 1 with ⟨_, hv⟩ | ⟨a, ha, _, hv⟩
            · rw [agentMin_nonterminal p f hterm, hv]
              exact EV.le_pinf _
            · rw [agentMin_nonterminal p f hterm, hv]
              exact r3 a ha
      · rw [agentMin_terminal p f hterm, abMin_terminal p f hterm alpha beta]
        refine ⟨fun _ _ => rfl, fun hx => ⟨hx, EV.le_refl _⟩, fun hx => ⟨hx, EV.le_refl _⟩⟩

-- at the root window (-inf, +inf) the alpha-beta search returns exactly the
-- plain minimax value and chosen move
theorem ab_plain_root (p : Player) (f : Nat) (g : Game) (hw : WF g)
    (hE : g.get_legal_actions.length < f + 1) :
    (abMax p (f + 1) g .ninf .pinf).1 = (agentMax p (f + 1) g).1 ∧
    (abMax p (f + 1) g .ninf .pinf).2.1 = (agentMax p (f + 1) g).2.1 := by
  cases hterm : g.is_terminal
  · rw [abMax_nonterminal p f hterm, agentMax_nonterminal p f hterm]
    have hsync := @abMaxLoopF_synced p f g EV.ninf EV.pinf
      g.get_legal_actions
      (fun a ha => ⟨(FS_aux p f).2 (childG g a) (wf_childG hw) (childG_fuel hw ha hE),
        by
          obtain ⟨z, hz, _⟩ := @agentMin_fin p f (childG g a) (wf_childG hw)
            (childG_fuel hw ha hE)
          rw [hz]
          rfl⟩)
      .ninf none 1 1 (EV.le_refl .ninf) rfl
    rw [show EV.emax .ninf .ninf = .ninf from rfl] at hsync
    exact hsync
  · rw [abMax_terminal p f hterm, agentMax_terminal p f hterm]
    exact ⟨rfl, rfl⟩

-- the accumulator of the alpha-beta loops is a pure offset
theorem abMaxLoopF_cnt_shift {next : Game → EV → EV → SR} {g : Game} :
    ∀ (acts : List Move) (b : EV) (bm : Option Move) (alpha beta : EV) (c d : Nat),
      (abMaxLoopF next g acts b bm alpha beta (c + d)).2.2 =
        c + (abMaxLoopF next g acts b bm alpha beta d).2.2 := by
  intro acts
  induction acts with
  | nil => intro b bm alpha beta c d; rfl
  | cons a rest ih =>
    intro b bm alpha beta c d
    rw [abMaxLoopF_cons, abMaxLoopF_cons]
    cases EV.lt b (next (childG g a) alpha beta).1 <;>
      simp only [Bool.false_eq_true, if_false, if_true] <;>
      cases EV.le beta _ <;>
      simp only [Bool.false_eq_true, if_false, if_true] <;>
      rw [Nat.add_assoc] <;>
      first
      | rfl
      | exact ih _ _ _ _ c _

theorem abMaxLoopF_cnt_le {p : Player} {f : Nat} {g : Game} :
    ∀ (acts : List Move),
      (∀ a ∈ acts, ∀ alpha beta : EV,
        (abMin p f (childG g a) alpha beta).2.2 ≤ (agentMin p f (childG g a)).2.2) →
      ∀ (b : EV) (bm : Option Move) (alpha beta : EV) (cnt : Nat),
        (abMaxLoopF (abMin p f) g acts b bm alpha beta cnt).2.2 ≤
          cnt + (acts.map fun a => (agentMin p f (childG g a)).2.2).sum := by
  intro acts
  induction acts with
  | nil => intro _ b bm alpha beta cnt; simp [abMaxLoopF_nil]
  | cons a rest ih =>
    intro h b bm alpha beta cnt
    have hhd := h a (List.mem_cons_self a rest) alpha beta
    have hrest := fun x hx => h x (List.mem_cons_of_mem _ hx)
    rw [List.map_cons, List.sum_cons]
    cases hlt : EV.lt b (abMin p f (childG g a) alpha beta).1
    · rw [abMaxLoopF_cons_ge hlt]
      cases hcut : EV.le beta b
      · simp only [Bool.false_eq_true, if_false]
        have := ih hrest b bm (EV.emax alpha b) beta
          (cnt + (abMin p f (childG g a) alpha beta).2.2)
        omega
      · simp only [if_true]
        omega
    · rw [abMaxLoopF_cons_lt hlt]
      cases hcut : EV.le beta (abMin p f (childG g a) alpha beta).1
      · simp only [Bool.false_eq_true, if_false]
        have := ih hrest (abMin p f (childG g a) alpha beta).1 (some a)
          (EV.emax alpha (abMin p f (childG g a) alpha beta).1) beta
          (cnt + (abMin p f (childG g a) alpha beta).2.2)
        omega
      · simp only [if_true]
        omega

theorem abMinLoopF_cnt_le {p : Player} {f : Nat} {g : Game} :
    ∀ (acts : List Move),
      (∀ a ∈ acts, ∀ alpha beta : EV,
        (abMax p f (childG g a) alpha beta).2.2 ≤ (agentMax p f (childG g a)).2.2) →
      ∀ (b : EV) (bm : Option Move) (alpha beta : EV) (cnt : Nat),
        (abMinLoopF (abMax p f) g acts b bm alpha beta cnt).2.2 ≤
          cnt + (acts.map fun a => (agentMax p f (childG g a)).2.2).sum := by
  intro acts
  induction acts with
  | nil => intro _ b bm alpha beta cnt; simp [abMinLoopF_nil]
  | cons a rest ih =>
    intro h b bm alpha beta cnt
    have hhd := h a (List.mem_cons_self a rest) alpha beta
    have hrest := fun x hx => h x (List.mem_cons_of_mem _ hx)
    rw [List.map_cons, List.sum_cons]
    cases hlt : EV.lt (abMax p f (childG g a) alpha beta).1 b
    · rw [abMinLoopF_cons_ge hlt]
      cases hcut : EV.le b alpha
      · simp only [Bool.false_eq_true, if_false]
        have := ih hrest b bm alpha (EV.emin beta b)
          (cnt + (abMax p f (childG g a) alpha beta).2.2)
        omega
      · simp only [if_true]
        omega
    · rw [abMinLoopF_cons_lt hlt]
      cases hcut : EV.le (abMax p f (childG g a) alpha beta).1 alpha
      · simp only [Bool.false_eq_true, if_false]
        have := ih hrest (abMax p f (childG g a) alpha beta).1 (some a) alpha
          (EV.emin beta (abMax p f (childG g a) alpha beta).1)
          (cnt + (abMax p f (childG g a) alpha beta).2.2)
        omega
      · simp only [if_true]
        omega

-- alpha-beta never expands more nodes than plain minimax, on any state and
-- with any window
theorem ab_cnt_aux (p : Player) : ∀ f : Nat,
    (∀ (g : Game) (alpha beta : EV),
      (abMax p f g alpha beta).2.2 ≤ (agentMax p f g).2.2) ∧
    (∀ (g : Game) (alpha beta : EV),
      (abMin p f g alpha beta).2.2 ≤ (agentMin p f g).2.2) := by
  intro f
  induction f with
  | zero => exact ⟨fun g _ _ => Nat.le_refl _, fun g _ _ => Nat.le_refl _⟩
  | succ f ih =>
    constructor
    · intro g alpha beta
      cases hterm : g.is_terminal
      · rw [abMax_nonterminal p f hterm, agentMax_nonterminal p f hterm,
          maxLoopF_cnt]
        exact abMaxLoopF_cnt_le g.get_legal_actions
          (fun a _ alpha' beta' => ih.2 (childG g a) alpha' beta') .ninf none alpha beta 1
      · rw [abMax_terminal p f hterm, agentMax_terminal p f hterm]
    · intro g alpha beta
      cases hterm : g.is_terminal
      · rw [abMin_nonterminal p f hterm, agentMin_nonterminal p f hterm,
          minLoopF_cnt]
        exact abMinLoopF_cnt_le g.get_legal_actions
          (fun a _ alpha' beta' => ih.1 (childG g a) alpha' beta') .pinf none alpha beta 1
      · rw [abMin_terminal p f hterm, agentMin_terminal p f hterm]

/-- C1: For every reachable game state, the alpha-beta variant
(use_alpha_beta = true) and the plain-minimax variant (use_alpha_beta = false)
of the search agent return the identical chosen move, and the alpha-beta
variant's nodes-expanded count is less than or equal to the plain variant's. -/
theorem ab_plain_equiv (p : Player) (g : Game) (h : Reachable g) :
    (get_best_move p true g).1 = (get_best_move p false g).1 ∧
    (get_best_move p true g).2 ≤ (get_best_move p false g).2 := by
  have hw := reachable_wf h
  have hE : g.get_legal_actions.length < 9 + 1 := Nat.lt_succ_of_le (legal_le_9 g)
  have hroot := ab_plain_root p 9 g hw hE
  refine ⟨?_, ?_⟩
  · show (abMax p searchFuel g .ninf .pinf).2.1 = (agentMax p searchFuel g).2.1
    exact hroot.2
  · show (abMax p searchFuel g .ninf .pinf).2.2 ≤ (agentMax p searchFuel g).2.2
    exact (ab_cnt_aux p searchFuel).1 g .ninf .pinf

/-- Witness for C1 at the initial empty board, which is reachable. -/
theorem ab_plain_equiv_witness :
    (get_best_move Player.X true initGame).1 = (get_best_move Player.X false initGame).1 ∧
    (get_best_move Player.X true initGame).2 ≤ (get_best_move Player.X false initGame).2 :=
  ab_plain_equiv Player.X initGame Reachable.init

/-- C2: For every reachable non-terminal game state and either pruning
setting, the move returned by best_move satisfies is_valid_move on that same
state, and therefore applying it via make_move on that same state returns
true. -/
theorem best_move_valid (p : Player) (useAB : Bool) (g : Game)
    (h : Reachable g) (hterm : g.is_terminal = false) :
    ∃ m : Move, (get_best_move p useAB g).1 = some m ∧
      g.is_valid_move m.1 m.2 = true ∧
      (g.make_move m.1 m.2).1 = true := by
  have hw := reachable_wf h
  have hE : g.get_legal_actions.length < 9 + 1 := Nat.lt_succ_of_le (legal_le_9 g)
  obtain ⟨a, ha, hmv, _⟩ := @agentMax_attain p 9 g hw hE hterm
  have hvalid : g.is_valid_move a.1 a.2 = true := mem_legal_iff_valid.mp ha
  refine ⟨a, ?_, hvalid, by rw [make_move_valid hvalid]⟩
  cases useAB
  · show (agentMax p searchFuel g).2.1 = some a
    exact hmv
  · show (abMax p (9 + 1) g .ninf .pinf).2.1 = some a
    rw [(ab_plain_root p 9 g hw hE).2]
    exact hmv

/-- Witness for C2 at the initial empty board, which is reachable and
non-terminal. -/
theorem best_move_valid_witness :
    ∃ m : Move, (get_best_move Player.X false initGame).1 = some m ∧
      initGame.is_valid_move m.1 m.2 = true ∧
      (initGame.make_move m.1 m.2).1 = true :=
  best_move_valid Player.X false initGame Reachable.init (by decide)

-- ──────────────────────────────────────────────────────────────────────
-- Heap-explicit mirror of the search (for the frame property of
-- `MinimaxAgent.get_best_move`)
--
-- Python objects live on a heap and methods mutate them in place.  To state
-- that the search never mutates the object handed to `get_best_move`, we
-- re-run the agent over an explicit heap of `TicTacToe` objects addressed by
-- references.  Reading methods (`is_terminal`, `utility`,
-- `get_legal_actions`) evaluate the pure embedding on the referenced object;
-- `clone` allocates a fresh object holding a deep copy; `make_move` writes
-- the referenced object in place.
-- ──────────────────────────────────────────────────────────────────────

abbrev Heap := List Game

abbrev Ref := Nat

def hget (h : Heap) (r : Ref) : Game := h.getD r initGame

-- `TicTacToe.clone`: allocate a new object holding a deep copy
def cloneH (h : Heap) (r : Ref) : Heap × Ref := (h ++ [(hget h r).clone], h.length)

-- `TicTacToe.make_move`: mutate the referenced object in place
def make_moveH (h : Heap) (r : Ref) (row col : Int) : Bool × Heap :=
  ((Game.make_move (hget h r) row col).1,
    h.set r (Game.make_move (hget h r) row col).2)

-- reading methods
def is_terminalH (h : Heap) (r : Ref) : Bool := (hget h r).is_terminal

def utilityH (h : Heap) (r : Ref) (p : Player) : Int := (hget h r).utility p

def legalH (h : Heap) (r : Ref) : List Move := (hget h r).get_legal_actions

-- the loop of `_max` over the heap: `child = game.clone()` allocates,
-- `child.make_move(*action)` mutates the fresh object, the recursive call
-- receives the child's reference
def maxLoopH (next : Heap → Ref → SR × Heap) (r : Ref) :
    List Move → EV → Option Move → Nat → Heap → SR × Heap
  | [], best, bm, cnt, h => ((best, bm, cnt), h)
  | a :: rest, best, bm, cnt, h =>
    let hc := cloneH h r
    let hm := make_moveH hc.1 hc.2 a.1 a.2
    let rr := next hm.2 hc.2
    if EV.lt best rr.1.1 then maxLoopH next r rest rr.1.1 (some a) (cnt + rr.1.2.2) rr.2
    else maxLoopH next r rest best bm (cnt + rr.1.2.2) rr.2

-- the loop of `_min` over the heap
def minLoopH (next : Heap → Ref → SR × Heap) (r : Ref) :
    List Move → EV → Option Move → Nat → Heap → SR × Heap
  | [], best, bm, cnt, h => ((best, bm, cnt), h)
  | a :: rest, best, bm, cnt, h =>
    let hc := cloneH h r
    let hm := make_moveH hc.1 hc.2 a.1 a.2
    let rr := next hm.2 hc.2
    if EV.lt rr.1.1 best then minLoopH next r rest rr.1.1 (some a) (cnt + rr.1.2.2) rr.2
    else minLoopH next r rest best bm (cnt + rr.1.2.2) rr.2

-- the loop of `_ab_max` over the heap
def abMaxLoopH (next : Heap → Ref → EV → EV → SR × Heap) (r : Ref) :
    List Move → EV → Option Move → EV → EV → Nat → Heap → SR × Heap
  | [], best, bm, _, _, cnt, h => ((best, bm, cnt), h)
  | a :: rest, best, bm, alpha, beta, cnt, h =>
    let hc := cloneH h r
    let hm := make_moveH hc.1 hc.2 a.1 a.2
    let rr := next hm.2 hc.2 alpha beta
    let best' := if EV.lt best rr.1.1 then rr.1.1 else best
    let bm' := if EV.lt best rr.1.1 then some a else bm
    if EV.le beta best' then ((best', bm', cnt + rr.1.2.2), rr.2)
    else abMaxLoopH next r rest best' bm' (EV.emax alpha best') beta (cnt + rr.1.2.2) rr.2

-- the loop of `_ab_min` over the heap
def abMinLoopH (next : Heap → Ref → EV → EV → SR × Heap) (r : Ref) :
    List Move → EV → Option Move → EV → EV → Nat → Heap → SR × Heap
  | [], best, bm, _, _, cnt, h => ((best, bm, cnt), h)
  | a :: rest, best, bm, alpha, beta, cnt, h =>
    let hc := cloneH h r
    let hm := make_moveH hc.1 hc.2 a.1 a.2
    let rr := next hm.2 hc.2 alpha beta
    let best' := if EV.lt rr.1.1 best then rr.1.1 else best
    let bm' := if EV.lt rr.1.1 best then some a else bm
    if EV.le best' alpha then ((best', bm', cnt + rr.1.2.2), rr.2)
    else abMinLoopH next r rest best' bm' alpha (EV.emin beta best') (cnt + rr.1.2.2) rr.2

def minimaxPairH (p : Player) :
    Nat → (Heap → Ref → SR × Heap) × (Heap → Ref → SR × Heap)
  | 0 => (fun h _ => ((.fin 0, none, 0), h), fun h _ => ((.fin 0, none, 0), h))
  | fuel + 1 =>
    let prev := minimaxPairH p fuel
    (fun h r =>
      if is_terminalH h r then ((.fin (utilityH h r p), none, 1), h)
      else maxLoopH prev.2 r (legalH h r) .ninf none 1 h,
     fun h r =>
      if is_terminalH h r then ((.fin (utilityH h r p), none, 1), h)
      else minLoopH prev.1 r (legalH h r) .pinf none 1 h)

def agentMaxH (p : Player) (fuel : Nat) (h : Heap) (r : Ref) : SR × Heap :=
  (minimaxPairH p fuel).1 h r

def agentMinH (p : Player) (fuel : Nat) (h : Heap) (r : Ref) : SR × Heap :=
  (minimaxPairH p fuel).2 h r

def abPairH (p : Player) :
    Nat → (Heap → Ref → EV → EV → SR × Heap) × (Heap → Ref → EV → EV → SR × Heap)
  | 0 => (fun h _ _ _ => ((.fin 0, none, 0), h), fun h _ _ _ => ((.fin 0, none, 0), h))
  | fuel + 1 =>
    let prev := abPairH p fuel
    (fun h r alpha beta =>
      if is_terminalH h r then ((.fin (utilityH h r p), none, 1), h)
      else abMaxLoopH prev.2 r (legalH h r) .ninf none alpha beta 1 h,
     fun h r alpha beta =>
      if is_terminalH h r then ((.fin (utilityH h r p), none, 1), h)
      else abMinLoopH prev.1 r (legalH h r) .pinf none alpha beta 1 h)

def abMaxH (p : Player) (fuel : Nat) (h : Heap) (r : Ref) (alpha beta : EV) : SR × Heap :=
  (abPairH p fuel).1 h r alpha beta

def abMinH (p : Player) (fuel : Nat) (h : Heap) (r : Ref) (alpha beta : EV) : SR × Heap :=
  (abPairH p fuel).2 h r alpha beta

-- `MinimaxAgent.get_best_move` over the heap
def get_best_moveH (p : Player) (useAB : Bool) (h : Heap) (r : Ref) :
    (Option Move × Nat) × Heap :=
  if useAB then
    let rr := abMaxH p searchFuel h r .ninf .pinf
    ((rr.1.2.1, rr.1.2.2), rr.2)
  else
    let rr := agentMaxH p searchFuel h r
    ((rr.1.2.1, rr.1.2.2), rr.2)

-- ──────────────────────────────────────────────────────────────────────
-- Heap lemmas
-- ──────────────────────────────────────────────────────────────────────

-- a step of the program preserves every object already allocated
def HPres (h h' : Heap) : Prop :=
  h.length ≤ h'.length ∧ ∀ i, i < h.length → hget h' i = hget h i

theorem HPres.refl (h : Heap) : HPres h h := ⟨Nat.le_refl _, fun _ _ => rfl⟩

theorem HPres.trans {h1 h2 h3 : Heap} (a : HPres h1 h2) (b : HPres h2 h3) :
    HPres h1 h3 :=
  ⟨Nat.le_trans a.1 b.1, fun i hi => (b.2 i (Nat.lt_of_lt_of_le hi a.1)).trans (a.2 i hi)⟩

theorem hget_append_lt (h h2 : Heap) (i : Nat) (hi : i < h.length) :
    hget (h ++ h2) i = hget h i := by
  induction h generalizing i with
  | nil => exact absurd hi (Nat.not_lt_zero i)
  | cons x xs ih =>
    cases i with
    | zero => rfl
    | succ j => exact ih j (Nat.lt_of_succ_lt_succ hi)

theorem hget_append_len (h : Heap) (g : Game) : hget (h ++ [g]) h.length = g := by
  induction h with
  | nil => rfl
  | cons x xs ih => exact ih

theorem hget_set_ne (h : Heap) (i j : Nat) (g : Game) (hne : i ≠ j) :
    hget (h.set i g) j = hget h j := by
  induction h generalizing i j with
  | nil => rfl
  | cons x xs ih =>
    cases i with
    | zero =>
      cases j with
      | zero => exact absurd rfl hne
      | succ j' => rfl
    | succ i' =>
      cases j with
      | zero => rfl
      | succ j' => exact ih i' j' (fun hc => hne (congrArg Nat.succ hc))

theorem hget_set_eq (h : Heap) (i : Nat) (g : Game) (hi : i < h.length) :
    hget (h.set i g) i = g := by
  induction h generalizing i with
  | nil => exact absurd hi (Nat.not_lt_zero i)
  | cons x xs ih =>
    cases i with
    | zero => rfl
    | succ i' => exact ih i' (Nat.lt_of_succ_lt_succ hi)

theorem cloneH_pres (h : Heap) (r : Ref) : HPres h (cloneH h r).1 := by
  refine ⟨?_, ?_⟩
  · simp [cloneH]
  · intro i hi
    exact hget_append_lt h _ i hi

-- a cleaner statement of the same fact: writing through reference `r`
-- touches no object with a smaller address
theorem make_moveH_pres_lt (h : Heap) (r : Ref) (row col : Int) (i : Nat)
    (hi : i ≠ r) : hget (make_moveH h r row col).2 i = hget h i :=
  hget_set_ne h r i _ (fun hc => hi hc.symm)

theorem make_moveH_len (h : Heap) (r : Ref) (row col : Int) :
    (make_moveH h r row col).2.length = h.length := by
  simp [make_moveH]

-- ──────────────────────────────────────────────────────────────────────
-- Frame property of the loops and the search
-- ──────────────────────────────────────────────────────────────────────

theorem maxLoopH_frame {next : Heap → Ref → SR × Heap}
    (hnext : ∀ h r, HPres h (next h r).2) (r : Ref) :
    ∀ (acts : List Move) (best : EV) (bm : Option Move) (cnt : Nat) (h : Heap),
      HPres h (maxLoopH next r acts best bm cnt h).2 := by
  intro acts
  induction acts with
  | nil => intro best bm cnt h; exact HPres.refl h
  | cons a rest ih =>
    intro best bm cnt h
    have hstep : HPres h (next (make_moveH (cloneH h r).1 (cloneH h r).2 a.1 a.2).2
        (cloneH h r).2).2 := by
      refine HPres.trans ?_ (hnext _ _)
      refine ⟨?_, ?_⟩
      · rw [make_moveH_len]; simp [cloneH]
      · intro i hi
        rw [make_moveH_pres_lt _ _ _ _ i (by simp [cloneH]; omega)]
        exact (cloneH_pres h r).2 i hi
    rw [maxLoopH]
    cases EV.lt best (next (make_moveH (cloneH h r).1 (cloneH h r).2 a.1 a.2).2
        (cloneH h r).2).1.1 <;>
      simp only [Bool.false_eq_true, if_false, if_true] <;>
      exact HPres.trans hstep (ih _ _ _ _)

theorem minLoopH_frame {next : Heap → Ref → SR × Heap}
    (hnext : ∀ h r, HPres h (next h r).2) (r : Ref) :
    ∀ (acts : List Move) (best : EV) (bm : Option Move) (cnt : Nat) (h : Heap),
      HPres h (minLoopH next r acts best bm cnt h).2 := by
  intro acts
  induction acts with
  | nil => intro best bm cnt h; exact HPres.refl h
  | cons a rest ih =>
    intro best bm cnt h
    have hstep : HPres h (next (make_moveH (cloneH h r).1 (cloneH h r).2 a.1 a.2).2
        (cloneH h r).2).2 := by
      refine HPres.trans ?_ (hnext _ _)
      refine ⟨?_, ?_⟩
      · rw [make_moveH_len]; simp [cloneH]
      · intro i hi
        rw [make_moveH_pres_lt _ _ _ _ i (by simp [cloneH]; omega)]
        exact (cloneH_pres h r).2 i hi
    rw [minLoopH]
    cases EV.lt (next (make_moveH (cloneH h r).1 (cloneH h r).2 a.1 a.2).2
        (cloneH h r).2).1.1 best <;>
      simp only [Bool.false_eq_true, if_false, if_true] <;>
      exact HPres.trans hstep (ih _ _ _ _)

theorem abMaxLoopH_frame {next : Heap → Ref → EV → EV → SR × Heap}
    (hnext : ∀ h r alpha beta, HPres h (next h r alpha beta).2) (r : Ref) :
    ∀ (acts : List Move) (best : EV) (bm : Option Move) (alpha beta : EV)
      (cnt : Nat) (h : Heap),
      HPres h (abMaxLoopH next r acts best bm alpha beta cnt h).2 := by
  intro acts
  induction acts with
  | nil => intro best bm alpha beta cnt h; exact HPres.refl h
  | cons a rest ih =>
    intro best bm alpha beta cnt h
    have hstep : HPres h (next (make_moveH (cloneH h r).1 (cloneH h r).2 a.1 a.2).2
        (cloneH h r).2 alpha beta).2 := by
      refine HPres.trans ?_ (hnext _ _ _ _)
      refine ⟨?_, ?_⟩
      · rw [make_moveH_len]; simp [cloneH]
      · intro i hi
        rw [make_moveH_pres_lt _ _ _ _ i (by simp [cloneH]; omega)]
        exact (cloneH_pres h r).2 i hi
    rw [abMaxLoopH]
    cases EV.le beta (if EV.lt best (next (make_moveH (cloneH h r).1 (cloneH h r).2
        a.1 a.2).2 (cloneH h r).2 alpha beta).1.1 then
          (next (make_moveH (cloneH h r).1 (cloneH h r).2 a.1 a.2).2
            (cloneH h r).2 alpha beta).1.1 else best) <;>
      simp only [Bool.false_eq_true, if_false, if_true]
    · exact HPres.trans hstep (ih _ _ _ _ _ _)
    · exact hstep

theorem abMinLoopH_frame {next : Heap → Ref → EV → EV → SR × Heap}
    (hnext : ∀ h r alpha beta, HPres h (next h r alpha beta).2) (r : Ref) :
    ∀ (acts : List Move) (best : EV) (bm : Option Move) (alpha beta : EV)
      (cnt : Nat) (h : Heap),
      HPres h (abMinLoopH next r acts best bm alpha beta cnt h).2 := by
  intro acts
  induction acts with
  | nil => intro best bm alpha beta cnt h; exact HPres.refl h
  | cons a rest ih =>
    intro best bm alpha beta cnt h
    have hstep : HPres h (next (make_moveH (cloneH h r).1 (cloneH h r).2 a.1 a.2).2
        (cloneH h r).2 alpha beta).2 := by
      refine HPres.trans ?_ (hnext _ _ _ _)
      refine ⟨?_, ?_⟩
      · rw [make_moveH_len]; simp [cloneH]
      · intro i hi
        rw [make_moveH_pres_lt _ _ _ _ i (by simp [cloneH]; omega)]
        exact (cloneH_pres h r).2 i hi
    rw [abMinLoopH]
    cases EV.le (if EV.lt (next (make_moveH (cloneH h r).1 (cloneH h r).2
        a.1 a.2).2 (cloneH h r).2 alpha beta).1.1 best then
          (next (make_moveH (cloneH h r).1 (cloneH h r).2 a.1 a.2).2
            (cloneH h r).2 alpha beta).1.1 else best) alpha <;>
      simp only [Bool.false_eq_true, if_false, if_true]
    · exact HPres.trans hstep (ih _ _ _ _ _ _)
    · exact hstep

theorem searchH_frame (p : Player) : ∀ f : Nat,
    (∀ (h : Heap) (r : Ref), HPres h (agentMaxH p f h r).2) ∧
    (∀ (h : Heap) (r : Ref), HPres h (agentMinH p f h r).2) := by
  intro f
  induction f with
  | zero => exact ⟨fun h _ => HPres.refl h, fun h _ => HPres.refl h⟩
  | succ f ih =>
    constructor
    · intro h r
      show HPres h ((minimaxPairH p (f + 1)).1 h r).2
      rw [minimaxPairH]
      cases hterm : is_terminalH h r
      · simp only [hterm, Bool.false_eq_true, if_false]
        exact maxLoopH_frame (fun h' r' => ih.2 h' r') r _ _ _ _ h
      · simp only [hterm, if_true]
        exact HPres.refl h
    · intro h r
      show HPres h ((minimaxPairH p (f + 1)).2 h r).2
      rw [minimaxPairH]
      cases hterm : is_terminalH h r
      · simp only [hterm, Bool.false_eq_true, if_false]
        exact minLoopH_frame (fun h' r' => ih.1 h' r') r _ _ _ _ h
      · simp only [hterm, if_true]
        exact HPres.refl h

theorem absearchH_frame (p : Player) : ∀ f : Nat,
    (∀ (h : Heap) (r : Ref) (alpha beta : EV), HPres h (abMaxH p f h r alpha beta).2) ∧
    (∀ (h : Heap) (r : Ref) (alpha beta : EV), HPres h (abMinH p f h r alpha beta).2) := by
  intro f
  induction f with
  | zero => exact ⟨fun h _ _ _ => HPres.refl h, fun h _ _ _ => HPres.refl h⟩
  | succ f ih =>
    constructor
    · intro h r alpha beta
      show HPres h ((abPairH p (f + 1)).1 h r alpha beta).2
      rw [abPairH]
      cases hterm : is_terminalH h r
      · simp only [hterm, Bool.false_eq_true, if_false]
        exact abMaxLoopH_frame (fun h' r' a' b' => ih.2 h' r' a' b') r _ _ _ _ _ _ h
      · simp only [hterm, if_true]
        exact HPres.refl h
    · intro h r alpha beta
      show HPres h ((abPairH p (f + 1)).2 h r alpha beta).2
      rw [abPairH]
      cases hterm : is_terminalH h r
      · simp only [hterm, Bool.false_eq_true, if_false]
        exact abMinLoopH_frame (fun h' r' a' b' => ih.1 h' r' a' b') r _ _ _ _ _ _ h
      · simp only [hterm, if_true]
        exact HPres.refl h

-- ──────────────────────────────────────────────────────────────────────
-- The heap-threaded search computes the same results as the pure embedding
-- ──────────────────────────────────────────────────────────────────────

theorem maxLoopH_eq {next : Heap → Ref → SR × Heap} {nextP : Game → SR}
    (hframe : ∀ h r, HPres h (next h r).2)
    (hagree : ∀ h r, r < h.length → (next h r).1 = nextP (hget h r)) (r : Ref) :
    ∀ (acts : List Move) (best : EV) (bm : Option Move) (cnt : Nat) (h : Heap),
      r < h.length →
      (maxLoopH next r acts best bm cnt h).1 =
        maxLoopF nextP (hget h r) acts best bm cnt := by
  intro acts
  induction acts with
  | nil => intro best bm cnt h hr; rfl
  | cons a rest ih =>
    intro best bm cnt h hr
    have hc2lt : (cloneH h r).2 <
        (make_moveH (cloneH h r).1 (cloneH h r).2 a.1 a.2).2.length := by
      rw [make_moveH_len]; simp [cloneH]
    have hchild : hget (make_moveH (cloneH h r).1 (cloneH h r).2 a.1 a.2).2
        (cloneH h r).2 = childG (hget h r) a := by
      have hcl : hget (cloneH h r).1 (cloneH h r).2 = (hget h r).clone :=
        hget_append_len h ((hget h r).clone)
      show hget ((cloneH h r).1.set (cloneH h r).2
        (Game.make_move (hget (cloneH h r).1 (cloneH h r).2) a.1 a.2).2)
        (cloneH h r).2 = _
      rw [hget_set_eq _ _ _ (by simp [cloneH]), hcl]
      rfl
    have hpar : hget (make_moveH (cloneH h r).1 (cloneH h r).2 a.1 a.2).2 r =
        hget h r := by
      rw [make_moveH_pres_lt (cloneH h r).1 (cloneH h r).2 a.1 a.2 r
        (Nat.ne_of_lt hr : r ≠ List.length h)]
      exact (cloneH_pres h r).2 r hr
    have hmlen : (make_moveH (cloneH h r).1 (cloneH h r).2 a.1 a.2).2.length =
        h.length + 1 := by
      rw [make_moveH_len]; simp [cloneH]
    have hfr := hframe (make_moveH (cloneH h r).1 (cloneH h r).2 a.1 a.2).2 (cloneH h r).2
    have h1 : r < (make_moveH (cloneH h r).1 (cloneH h r).2 a.1 a.2).2.length := by
      rw [hmlen]; exact Nat.lt_succ_of_lt hr
    have hrlt : r < (next (make_moveH (cloneH h r).1 (cloneH h r).2 a.1 a.2).2
        (cloneH h r).2).2.length := Nat.lt_of_lt_of_le h1 hfr.1
    have hparr : hget (next (make_moveH (cloneH h r).1 (cloneH h r).2 a.1 a.2).2
        (cloneH h r).2).2 r = hget h r := by
      rw [hfr.2 r h1]; exact hpar
    have hrr1 : (next (make_moveH (cloneH h r).1 (cloneH h r).2 a.1 a.2).2
        (cloneH h r).2).1 = nextP (childG (hget h r) a) := by
      rw [hagree _ _ hc2lt, hchild]
    rw [maxLoopH, maxLoopF_cons]
    simp only [hrr1]
    cases hlt : EV.lt best (nextP (childG (hget h r) a)).1 <;>
      simp only [Bool.false_eq_true, if_false, if_true] <;>
      rw [← hparr] <;> exact ih _ _ _ _ hrlt

theorem minLoopH_eq {next : Heap → Ref → SR × Heap} {nextP : Game → SR}
    (hframe : ∀ h r, HPres h (next h r).2)
    (hagree : ∀ h r, r < h.length → (next h r).1 = nextP (hget h r)) (r : Ref) :
    ∀ (acts : List Move) (best : EV) (bm : Option Move) (cnt : Nat) (h : Heap),
      r < h.length →
      (minLoopH next r acts best bm cnt h).1 =
        minLoopF nextP (hget h r) acts best bm cnt := by
  intro acts
  induction acts with
  | nil => intro best bm cnt h hr; rfl
  | cons a rest ih =>
    intro best bm cnt h hr
    have hc2lt : (cloneH h r).2 <
        (make_moveH (cloneH h r).1 (cloneH h r).2 a.1 a.2).2.length := by
      rw [make_moveH_len]; simp [cloneH]
    have hchild : hget (make_moveH (cloneH h r).1 (cloneH h r).2 a.1 a.2).2
        (cloneH h r).2 = childG (hget h r) a := by
      have hcl : hget (cloneH h r).1 (cloneH h r).2 = (hget h r).clone :=
        hget_append_len h ((hget h r).clone)
      show hget ((cloneH h r).1.set (cloneH h r).2
        (Game.make_move (hget (cloneH h r).1 (cloneH h r).2) a.1 a.2).2)
        (cloneH h r).2 = _
      rw [hget_set_eq _ _ _ (by simp [cloneH]), hcl]
      rfl
    have hpar : hget (make_moveH (cloneH h r).1 (cloneH h r).2 a.1 a.2).2 r =
        hget h r := by
      rw [make_moveH_pres_lt (cloneH h r).1 (cloneH h r).2 a.1 a.2 r
        (Nat.ne_of_lt hr : r ≠ List.length h)]
      exact (cloneH_pres h r).2 r hr
    have hmlen : (make_moveH (cloneH h r).1 (cloneH h r).2 a.1 a.2).2.length =
        h.length + 1 := by
      rw [make_moveH_len]; simp [cloneH]
    have hfr := hframe (make_moveH (cloneH h r).1 (cloneH h r).2 a.1 a.2).2 (cloneH h r).2
    have h1 : r < (make_moveH (cloneH h r).1 (cloneH h r).2 a.1 a.2).2.length := by
      rw [hmlen]; exact Nat.lt_succ_of_lt hr
    have hrlt : r < (next (make_moveH (cloneH h r).1 (cloneH h r).2 a.1 a.2).2
        (cloneH h r).2).2.length := Nat.lt_of_lt_of_le h1 hfr.1
    have hparr : hget (next (make_moveH (cloneH h r).1 (cloneH h r).2 a.1 a.2).2
        (cloneH h r).2).2 r = hget h r := by
      rw [hfr.2 r h1]; exact hpar
    have hrr1 : (next (make_moveH (cloneH h r).1 (cloneH h r).2 a.1 a.2).2
        (cloneH h r).2).1 = nextP (childG (hget h r) a) := by
      rw [hagree _ _ hc2lt, hchild]
    rw [minLoopH, minLoopF_cons]
    simp only [hrr1]
    cases hlt : EV.lt (nextP (childG (hget h r) a)).1 best <;>
      simp only [Bool.false_eq_true, if_false, if_true] <;>
      rw [← hparr] <;> exact ih _ _ _ _ hrlt

theorem abMaxLoopF_cons_eq (next : Game → EV → EV → SR) (g : Game) (a : Move)
    (rest : List Move) (best : EV) (bm : Option Move) (alpha beta : EV) (cnt : Nat) :
    abMaxLoopF next g (a :: rest) best bm alpha beta cnt =
      if EV.le beta (if EV.lt best (next (childG g a) alpha beta).1 then
          (next (childG g a) alpha beta).1 else best) then
        (if EV.lt best (next (childG g a) alpha beta).1 then
          (next (childG g a) alpha beta).1 else best,
         if EV.lt best (next (childG g a) alpha beta).1 then some a else bm,
         cnt + (next (childG g a) alpha beta).2.2)
      else abMaxLoopF next g rest
        (if EV.lt best (next (childG g a) alpha beta).1 then
          (next (childG g a) alpha beta).1 else best)
        (if EV.lt best (next (childG g a) alpha beta).1 then some a else bm)
        (EV.emax alpha (if EV.lt best (next (childG g a) alpha beta).1 then
          (next (childG g a) alpha beta).1 else best))
        beta (cnt + (next (childG g a) alpha beta).2.2) := rfl

theorem abMinLoopF_cons_eq (next : Game → EV → EV → SR) (g : Game) (a : Move)
    (rest : List Move) (best : EV) (bm : Option Move) (alpha beta : EV) (cnt : Nat) :
    abMinLoopF next g (a :: rest) best bm alpha beta cnt =
      if EV.le (if EV.lt (next (childG g a) alpha beta).1 best then
          (next (childG g a) alpha beta).1 else best) alpha then
        (if EV.lt (next (childG g a) alpha beta).1 best then
          (next (childG g a) alpha beta).1 else best,
         if EV.lt (next (childG g a) alpha beta).1 best then some a else bm,
         cnt + (next (childG g a) alpha beta).2.2)
      else abMinLoopF next g rest
        (if EV.lt (next (childG g a) alpha beta).1 best then
          (next (childG g a) alpha beta).1 else best)
        (if EV.lt (next (childG g a) alpha beta).1 best then some a else bm)
        alpha
        (EV.emin beta (if EV.lt (next (childG g a) alpha beta).1 best then
          (next (childG g a) alpha beta).1 else best))
        (cnt + (next (childG g a) alpha beta).2.2) := rfl

theorem abMaxLoopH_eq {next : Heap → Ref → EV → EV → SR × Heap}
    {nextP : Game → EV → EV → SR}
    (hframe : ∀ h r alpha beta, HPres h (next h r alpha beta).2)
    (hagree : ∀ h r, r < h.length → ∀ alpha beta : EV,
      (next h r alpha beta).1 = nextP (hget h r) alpha beta) (r : Ref) :
    ∀ (acts : List Move) (best : EV) (bm : Option Move) (alpha beta : EV)
      (cnt : Nat) (h : Heap), r < h.length →
      (abMaxLoopH next r acts best bm alpha beta cnt h).1 =
        abMaxLoopF nextP (hget h r) acts best bm alpha beta cnt := by
  intro acts
  induction acts with
  | nil => intro best bm alpha beta cnt h hr; rfl
  | cons a rest ih =>
    intro best bm alpha beta cnt h hr
    have hc2lt : (cloneH h r).2 <
        (make_moveH (cloneH h r).1 (cloneH h r).2 a.1 a.2).2.length := by
      rw [make_moveH_len]; simp [cloneH]
    have hchild : hget (make_moveH (cloneH h r).1 (cloneH h r).2 a.1 a.2).2
        (cloneH h r).2 = childG (hget h r) a := by
      have hcl : hget (cloneH h r).1 (cloneH h r).2 = (hget h r).clone :=
        hget_append_len h ((hget h r).clone)
      show hget ((cloneH h r).1.set (cloneH h r).2
        (Game.make_move (hget (cloneH h r).1 (cloneH h r).2) a.1 a.2).2)
        (cloneH h r).2 = _
      rw [hget_set_eq _ _ _ (by simp [cloneH]), hcl]
      rfl
    have hpar : hget (make_moveH (cloneH h r).1 (cloneH h r).2 a.1 a.2).2 r =
        hget h r := by
      rw [make_moveH_pres_lt (cloneH h r).1 (cloneH h r).2 a.1 a.2 r
        (Nat.ne_of_lt hr : r ≠ List.length h)]
      exact (cloneH_pres h r).2 r hr
    have hmlen : (make_moveH (cloneH h r).1 (cloneH h r).2 a.1 a.2).2.length =
        h.length + 1 := by
      rw [make_moveH_len]; simp [cloneH]
    have hfr := hframe (make_moveH (cloneH h r).1 (cloneH h r).2 a.1 a.2).2
      (cloneH h r).2 alpha beta
    have h1 : r < (make_moveH (cloneH h r).1 (cloneH h r).2 a.1 a.2).2.length := by
      rw [hmlen]; exact Nat.lt_succ_of_lt hr
    have hrlt : r < (next (make_moveH (cloneH h r).1 (cloneH h r).2 a.1 a.2).2
        (cloneH h r).2 alpha beta).2.length := Nat.lt_of_lt_of_le h1 hfr.1
    have hparr : hget (next (make_moveH (cloneH h r).1 (cloneH h r).2 a.1 a.2).2
        (cloneH h r).2 alpha beta).2 r = hget h r := by
      rw [hfr.2 r h1]; exact hpar
    have hrr1 : (next (make_moveH (cloneH h r).1 (cloneH h r).2 a.1 a.2).2
        (cloneH h r).2 alpha beta).1 = nextP (childG (hget h r) a) alpha beta := by
      rw [hagree _ _ hc2lt, hchild]
    rw [abMaxLoopH, abMaxLoopF_cons_eq]
    simp only [hrr1]
    cases hcut : EV.le beta
        (if EV.lt best (nextP (childG (hget h r) a) alpha beta).1 then
          (nextP (childG (hget h r) a) alpha beta).1 else best)
    · simp only [Bool.false_eq_true, if_false]
      rw [← hparr]; exact ih _ _ _ _ _ _ hrlt
    · simp only [if_true]

theorem abMinLoopH_eq {next : Heap → Ref → EV → EV → SR × Heap}
    {nextP : Game → EV → EV → SR}
    (hframe : ∀ h r alpha beta, HPres h (next h r alpha beta).2)
    (hagree : ∀ h r, r < h.length → ∀ alpha beta : EV,
      (next h r alpha beta).1 = nextP (hget h r) alpha beta) (r : Ref) :
    ∀ (acts : List Move) (best : EV) (bm : Option Move) (alpha beta : EV)
      (cnt : Nat) (h : Heap), r < h.length →
      (abMinLoopH next r acts best bm alpha beta cnt h).1 =
        abMinLoopF nextP (hget h r) acts best bm alpha beta cnt := by
  intro acts
  induction acts with
  | nil => intro best bm alpha beta cnt h hr; rfl
  | cons a rest ih =>
    intro best bm alpha beta cnt h hr
    have hc2lt : (cloneH h r).2 <
        (make_moveH (cloneH h r).1 (cloneH h r).2 a.1 a.2).2.length := by
      rw [make_moveH_len]; simp [cloneH]
    have hchild : hget (make_moveH (cloneH h r).1 (cloneH h r).2 a.1 a.2).2
        (cloneH h r).2 = childG (hget h r) a := by
      have hcl : hget (cloneH h r).1 (cloneH h r).2 = (hget h r).clone :=
        hget_append_len h ((hget h r).clone)
      show hget ((cloneH h r).1.set (cloneH h r).2
        (Game.make_move (hget (cloneH h r).1 (cloneH h r).2) a.1 a.2).2)
        (cloneH h r).2 = _
      rw [hget_set_eq _ _ _ (by simp [cloneH]), hcl]
      rfl
    have hpar : hget (make_moveH (cloneH h r).1 (cloneH h r).2 a.1 a.2).2 r =
        hget h r := by
      rw [make_moveH_pres_lt (cloneH h r).1 (cloneH h r).2 a.1 a.2 r
        (Nat.ne_of_lt hr : r ≠ List.length h)]
      exact (cloneH_pres h r).2 r hr
    have hmlen : (make_moveH (cloneH h r).1 (cloneH h r).2 a.1 a.2).2.length =
        h.length + 1 := by
      rw [make_moveH_len]; simp [cloneH]
    have hfr := hframe (make_moveH (cloneH h r).1 (cloneH h r).2 a.1 a.2).2
      (cloneH h r).2 alpha beta
    have h1 : r < (make_moveH (cloneH h r).1 (cloneH h r).2 a.1 a.2).2.length := by
      rw [hmlen]; exact Nat.lt_succ_of_lt hr
    have hrlt : r < (next (make_moveH (cloneH h r).1 (cloneH h r).2 a.1 a.2).2
        (cloneH h r).2 alpha beta).2.length := Nat.lt_of_lt_of_le h1 hfr.1
    have hparr : hget (next (make_moveH (cloneH h r).1 (cloneH h r).2 a.1 a.2).2
        (cloneH h r).2 alpha beta).2 r = hget h r := by
      rw [hfr.2 r h1]; exact hpar
    have hrr1 : (next (make_moveH (cloneH h r).1 (cloneH h r).2 a.1 a.2).2
        (cloneH h r).2 alpha beta).1 = nextP (childG (hget h r) a) alpha beta := by
      rw [hagree _ _ hc2lt, hchild]
    rw [abMinLoopH, abMinLoopF_cons_eq]
    simp only [hrr1]
    cases hcut : EV.le
        (if EV.lt (nextP (childG (hget h r) a) alpha beta).1 best then
          (nextP (childG (hget h r) a) alpha beta).1 else best) alpha
    · simp only [Bool.false_eq_true, if_false]
      rw [← hparr]; exact ih _ _ _ _ _ _ hrlt
    · simp only [if_true]

theorem searchH_eq (p : Player) : ∀ f : Nat,
    (∀ (h : Heap) (r : Ref), r < h.length →
      (agentMaxH p f h r).1 = agentMax p f (hget h r)) ∧
    (∀ (h : Heap) (r : Ref), r < h.length →
      (agentMinH p f h r).1 = agentMin p f (hget h r)) := by
  intro f
  induction f with
  | zero => exact ⟨fun h r _ => rfl, fun h r _ => rfl⟩
  | succ f ih =>
    constructor
    · intro h r hr
      show ((minimaxPairH p (f + 1)).1 h r).1 = _
      rw [minimaxPairH, agentMax_succ]
      cases hterm : is_terminalH h r
      · have hterm' : (hget h r).is_terminal = false := hterm
        simp only [hterm, hterm', Bool.false_eq_true, if_false]
        exact maxLoopH_eq (fun h' r' => (searchH_frame p f).2 h' r')
          (fun h' r' hr' => ih.2 h' r' hr') r _ _ _ _ h hr
      · have hterm' : (hget h r).is_terminal = true := hterm
        simp only [hterm, hterm', if_true]
        rfl
    · intro h r hr
      show ((minimaxPairH p (f + 1)).2 h r).1 = _
      rw [minimaxPairH, agentMin_succ]
      cases hterm : is_terminalH h r
      · have hterm' : (hget h r).is_terminal = false := hterm
        simp only [hterm, hterm', Bool.false_eq_true, if_false]
        exact minLoopH_eq (fun h' r' => (searchH_frame p f).1 h' r')
          (fun h' r' hr' => ih.1 h' r' hr') r _ _ _ _ h hr
      · have hterm' : (hget h r).is_terminal = true := hterm
        simp only [hterm, hterm', if_true]
        rfl

theorem absearchH_eq (p : Player) : ∀ f : Nat,
    (∀ (h : Heap) (r : Ref), r < h.length → ∀ alpha beta : EV,
      (abMaxH p f h r alpha beta).1 = abMax p f (hget h r) alpha beta) ∧
    (∀ (h : Heap) (r : Ref), r < h.length → ∀ alpha beta : EV,
      (abMinH p f h r alpha beta).1 = abMin p f (hget h r) alpha beta) := by
  intro f
  induction f with
  | zero => exact ⟨fun h r _ _ _ => rfl, fun h r _ _ _ => rfl⟩
  | succ f ih =>
    constructor
    · intro h r hr alpha beta
      show ((abPairH p (f + 1)).1 h r alpha beta).1 = _
      rw [abPairH, abMax_succ]
      cases hterm : is_terminalH h r
      · have hterm' : (hget h r).is_terminal = false := hterm
        simp only [hterm, hterm', Bool.false_eq_true, if_false]
        exact abMaxLoopH_eq (fun h' r' a' b' => (absearchH_frame p f).2 h' r' a' b')
          (fun h' r' hr' a' b' => ih.2 h' r' hr' a' b') r _ _ _ _ _ _ h hr
      · have hterm' : (hget h r).is_terminal = true := hterm
        simp only [hterm, hterm', if_true]
        rfl
    · intro h r hr alpha beta
      show ((abPairH p (f + 1)).2 h r alpha beta).1 = _
      rw [abPairH, abMin_succ]
      cases hterm : is_terminalH h r
      · have hterm' : (hget h r).is_terminal = false := hterm
        simp only [hterm, hterm', Bool.false_eq_true, if_false]
        exact abMinLoopH_eq (fun h' r' a' b' => (absearchH_frame p f).1 h' r' a' b')
          (fun h' r' hr' a' b' => ih.1 h' r' hr' a' b') r _ _ _ _ _ _ h hr
      · have hterm' : (hget h r).is_terminal = true := hterm
        simp only [hterm, hterm', if_true]
        rfl

theorem get_best_moveH_eq (p : Player) (useAB : Bool) (h : Heap) (r : Ref)
    (hr : r < h.length) :
    (get_best_moveH p useAB h r).1 = get_best_move p useAB (hget h r) := by
  cases useAB
  · show ((agentMaxH p searchFuel h r).1.2.1, (agentMaxH p searchFuel h r).1.2.2) = _
    rw [(searchH_eq p searchFuel).1 h r hr]
    rfl
  · show ((abMaxH p searchFuel h r .ninf .pinf).1.2.1,
      (abMaxH p searchFuel h r .ninf .pinf).1.2.2) = _
    rw [(absearchH_eq p searchFuel).1 h r hr .ninf .pinf]
    rfl

/-- C9: for every heap of game objects, every reference into it, and both
search variants, calling best_move leaves the object handed to it completely
unchanged — same board cell-for-cell and same current_player after the call —
while computing the same result as the pure function of that object's value:
the search only mutates the per-branch clones it allocates itself. -/
theorem best_move_frame (p : Player) (useAB : Bool) (h : Heap) (r : Ref)
    (hr : r < h.length) :
    (hget (get_best_moveH p useAB h r).2 r).board = (hget h r).board ∧
    (hget (get_best_moveH p useAB h r).2 r).current_player =
      (hget h r).current_player ∧
    (get_best_moveH p useAB h r).1 = get_best_move p useAB (hget h r) := by
  have hpres : hget (get_best_moveH p useAB h r).2 r = hget h r := by
    cases useAB
    · exact ((searchH_frame p searchFuel).1 h r).2 r hr
    · exact ((absearchH_frame p searchFuel).1 h r .ninf .pinf).2 r hr
  exact ⟨by rw [hpres], by rw [hpres], get_best_moveH_eq p useAB h r hr⟩

/-- Witness for C9 on a one-object heap holding the initial board. -/
theorem best_move_frame_witness :
    (hget (get_best_moveH .X true [initGame] 0).2 0).board = (hget [initGame] 0).board ∧
    (hget (get_best_moveH .X true [initGame] 0).2 0).current_player =
      (hget [initGame] 0).current_player ∧
    (get_best_moveH .X true [initGame] 0).1 = get_best_move .X true (hget [initGame] 0) :=
  best_move_frame .X true [initGame] 0 (by decide)

-- ──────────────────────────────────────────────────────────────────────
-- Immediate winning moves and the tie-breaking of `best_move`
-- ──────────────────────────────────────────────────────────────────────

-- a reachable position with X to move: X completes row 1 by playing (1, 2),
-- but (0, 0) creates a double threat and comes first in the traversal order
def c7Board : Game :=
  ⟨[[none, some .O, none], [some .X, some .X, none], [none, none, some .O]], .X⟩

theorem c7Board_reachable : Reachable c7Board := by
  have h0 : Reachable initGame := .init
  have h1 := Reachable.step _ 1 0 h0 (by decide)
  have h2 := Reachable.step _ 0 1 h1 (by decide)
  have h3 := Reachable.step _ 1 1 h2 (by decide)
  have h4 := Reachable.step _ 2 2 h3 (by decide)
  exact (show ((((initGame.make_move 1 0).2.make_move 0 1).2.make_move
    1 1).2.make_move 2 2).2 = c7Board by decide) ▸ h4

/-- On `c7Board` the agent's symbol X has the immediate winning move (1, 2)
available, yet `best_move` returns (0, 0) — a move that does not win on the
spot — for both the pruning-enabled and pruning-disabled agent: the strict
`val > best_val` tie-break keeps the first move attaining the maximal value in
traversal order, which need not be an immediately winning one. -/
theorem best_move_win_pref_counterexample :
    Reachable c7Board ∧
    c7Board.is_terminal = false ∧
    c7Board.current_player = Player.X ∧
    ((1 : Int), (2 : Int)) ∈ c7Board.get_legal_actions ∧
    (childG c7Board (1, 2)).check_winner = some (.win Player.X) ∧
    (get_best_move Player.X false c7Board).1 = some (0, 0) ∧
    (get_best_move Player.X true c7Board).1 = some (0, 0) ∧
    (childG c7Board (0, 0)).check_winner ≠ some (.win Player.X) := by
  refine ⟨c7Board_reachable, by decide, rfl, by decide, by decide, ?_, ?_, by decide⟩
  · decide!
  · decide!

/-- C7 (amended): for every reachable non-terminal state whose current player
is the agent's symbol, if some legal move immediately makes the agent the
winner, then the root minimax value is the win value +10 and the move returned
by best_move (either pruning setting) attains it: the chosen move still forces
a win for the agent, but it need not be the immediately winning move itself. -/
theorem best_move_forced_win (p : Player) (useAB : Bool) (g : Game)
    (hre : Reachable g) (hterm : g.is_terminal = false)
    (hcur : g.current_player = p) (a : Move) (ha : a ∈ g.get_legal_actions)
    (hwin : (childG g a).check_winner = some (.win p)) :
    (agentMax p searchFuel g).1 = .fin 10 ∧
    ∃ m : Move, (get_best_move p useAB g).1 = some m ∧
      m ∈ g.get_legal_actions ∧ (agentMin p 9 (childG g m)).1 = .fin 10 := by
  have hw := reachable_wf hre
  have hE : g.get_legal_actions.length < 9 + 1 := Nat.lt_succ_of_le (legal_le_9 g)
  -- the immediate-win child is terminal and worth +10 for the agent
  have hterm_a : (childG g a).is_terminal = true := by
    unfold Game.is_terminal
    rw [hwin]
    rfl
  have hub : (childG g a).utility p = 10 := by
    rw [utility_eq_win hwin p, Player.beq_self p]
    rfl
  have hA : (agentMin p 9 (childG g a)).1 = .fin 10 := by
    show (agentMin p (8 + 1) (childG g a)).1 = .fin 10
    rw [agentMin_terminal p 8 hterm_a, hub]
  -- the root value is at least 10 ...
  have hroot := agentMax_nonterminal p 9 hterm
  have hlow : EV.le (.fin 10) (agentMax p (9 + 1) g).1 = true := by
    rw [hroot, ← hA]
    exact maxLoopF_child_le g.get_legal_actions .ninf none 1 a ha
  -- ... and at most 10, hence exactly 10
  obtain ⟨z, hz, _, hz10⟩ := (agent_fin_aux p (9 + 1)).1 g hw hE
  have hz' : z = 10 := by
    rw [hz] at hlow
    have : (10 : Int) ≤ z := by
      have := hlow
      simp only [EV.le, intLe_eq, decide_eq_true_eq] at this
      exact this
    omega
  have hval : (agentMax p (9 + 1) g).1 = .fin 10 := by rw [hz, hz']
  -- the returned move attains the root value
  obtain ⟨m, hm, hmv, hmval⟩ := @agentMax_attain p 9 g hw hE hterm
  refine ⟨hval, m, ?_, hm, by rw [← hmval]; exact hval⟩
  cases useAB
  · exact hmv
  · show (abMax p (9 + 1) g .ninf .pinf).2.1 = some m
    rw [(ab_plain_root p 9 g hw hE).2]
    exact hmv

/-- Witness for the amended C7 theorem on `c7Board`, where X can win
immediately at (1, 2). -/
theorem best_move_forced_win_witness :
    (agentMax Player.X searchFuel c7Board).1 = .fin 10 ∧
    ∃ m : Move, (get_best_move Player.X false c7Board).1 = some m ∧
      m ∈ c7Board.get_legal_actions ∧
      (agentMin Player.X 9 (childG c7Board m)).1 = .fin 10 :=
  best_move_forced_win Player.X false c7Board c7Board_reachable (by decide) rfl
    (1, 2) (by decide) (by decide)

-- ──────────────────────────────────────────────────────────────────────
-- Value certificates for the game tree
--
-- To settle the value of a position without replaying the whole search in
-- the kernel, we check compact certificates: a lower-bound certificate picks
-- one move at each node where the agent moves and covers every legal reply at
-- opponent nodes; an upper-bound certificate does the opposite.  Soundness is
-- proved against `agentMax`/`agentMin` by structural induction on the
-- certificate.
-- ──────────────────────────────────────────────────────────────────────

inductive Cert where
  | tip : Cert
  | pick (m : Move) (c : Cert) : Cert
  | all (sp : Cert) : Cert
  | anil : Cert
  | acons (c : Cert) (rest : Cert) : Cert

-- `checkGe p t c role g ms = true` certifies that the agent value of `g` from
-- `p`'s view is ≥ t.  `role` 0 marks a node where the agent moves, 1 a node
-- where the opponent moves, 2 the walk along the opponent's replies, with
-- `ms` the replies still to be covered.
def checkGe (p : Player) (t : Int) : Cert → Nat → Game → List Move → Bool
  | .tip, 0, g, _ => g.is_terminal && intLe t (g.utility p)
  | .tip, 1, g, _ => g.is_terminal && intLe t (g.utility p)
  | .pick m c, 0, g, _ =>
      !g.is_terminal && decide (m ∈ g.get_legal_actions) &&
        checkGe p t c 1 (childG g m) []
  | .all sp, 1, g, _ =>
      !g.is_terminal && checkGe p t sp 2 g g.get_legal_actions
  | .anil, 2, _, ms => ms.isEmpty
  | .acons c rest, 2, g, m :: ms =>
      checkGe p t c 0 (childG g m) [] && checkGe p t rest 2 g ms
  | _, _, _, _ => false

-- dual checker for an upper bound: cover all moves at agent nodes, pick one
-- reply at opponent nodes
def checkLe (p : Player) (t : Int) : Cert → Nat → Game → List Move → Bool
  | .tip, 0, g, _ => g.is_terminal && intLe (g.utility p) t
  | .tip, 1, g, _ => g.is_terminal && intLe (g.utility p) t
  | .pick m c, 1, g, _ =>
      !g.is_terminal && decide (m ∈ g.get_legal_actions) &&
        checkLe p t c 0 (childG g m) []
  | .all sp, 0, g, _ =>
      !g.is_terminal && checkLe p t sp 2 g g.get_legal_actions
  | .anil, 2, _, ms => ms.isEmpty
  | .acons c rest, 2, g, m :: ms =>
      checkLe p t c 1 (childG g m) [] && checkLe p t rest 2 g ms
  | _, _, _, _ => false

-- the min loop keeps a lower bound shared by the running best and all
-- checked children
theorem minLoopF_lb {next : Game → SR} {g : Game} (t : EV) :
    ∀ (acts : List Move) (best : EV) (bm : Option Move) (cnt : Nat),
      EV.le t best = true →
      (∀ a ∈ acts, EV.le t (next (childG g a)).1 = true) →
      EV.le t (minLoopF next g acts best bm cnt).1 = true := by
  intro acts
  induction acts with
  | nil => intro best bm cnt hb _; exact hb
  | cons a rest ih =>
    intro best bm cnt hb hall
    rw [minLoopF_cons]
    cases hlt : EV.lt (next (childG g a)).1 best
    · simp only [Bool.false_eq_true, if_false]
      exact ih best bm _ hb (fun x hx => hall x (List.mem_cons_of_mem _ hx))
    · simp only [if_true]
      exact ih _ _ _ (hall a (List.mem_cons_self a rest))
        (fun x hx => hall x (List.mem_cons_of_mem _ hx))

-- the max loop keeps an upper bound shared by the running best and all
-- checked children
theorem maxLoopF_ub {next : Game → SR} {g : Game} (t : EV) :
    ∀ (acts : List Move) (best : EV) (bm : Option Move) (cnt : Nat),
      EV.le best t = true →
      (∀ a ∈ acts, EV.le (next (childG g a)).1 t = true) →
      EV.le (maxLoopF next g acts best bm cnt).1 t = true := by
  intro acts
  induction acts with
  | nil => intro best bm cnt hb _; exact hb
  | cons a rest ih =>
    intro best bm cnt hb hall
    rw [maxLoopF_cons]
    cases hlt : EV.lt best (next (childG g a)).1
    · simp only [Bool.false_eq_true, if_false]
      exact ih best bm _ hb (fun x hx => hall x (List.mem_cons_of_mem _ hx))
    · simp only [if_true]
      exact ih _ _ _ (hall a (List.mem_cons_self a rest))
        (fun x hx => hall x (List.mem_cons_of_mem _ hx))

theorem checkGe_sound (p : Player) (t : Int) :
    ∀ c : Cert,
      (∀ (f : Nat) (g : Game), WF g → g.get_legal_actions.length < f + 1 →
        checkGe p t c 0 g [] = true →
        EV.le (.fin t) (agentMax p (f + 1) g).1 = true) ∧
      (∀ (f : Nat) (g : Game), WF g → g.get_legal_actions.length < f + 1 →
        checkGe p t c 1 g [] = true →
        EV.le (.fin t) (agentMin p (f + 1) g).1 = true) ∧
      (∀ (f : Nat) (g : Game), WF g → g.is_terminal = false →
        g.get_legal_actions.length < f + 1 →
        ∀ ms : List Move, (∀ m ∈ ms, m ∈ g.get_legal_actions) →
          checkGe p t c 2 g ms = true →
          ∀ (best : EV) (bm : Option Move) (cnt : Nat),
            EV.le (.fin t) best = true →
            EV.le (.fin t) (minLoopF (agentMax p f) g ms best bm cnt).1 = true) := by
  intro c
  induction c with
  | tip =>
    refine ⟨?_, ?_, ?_⟩
    · intro f g _ _ hchk
      rw [show checkGe p t .tip 0 g [] =
        (g.is_terminal && intLe t (g.utility p)) from rfl] at hchk
      rw [Bool.and_eq_true] at hchk
      rw [agentMax_terminal p f hchk.1]
      exact hchk.2
    · intro f g _ _ hchk
      rw [show checkGe p t .tip 1 g [] =
        (g.is_terminal && intLe t (g.utility p)) from rfl] at hchk
      rw [Bool.and_eq_true] at hchk
      rw [agentMin_terminal p f hchk.1]
      exact hchk.2
    · intro f g _ _ _ ms _ hchk
      rw [show checkGe p t .tip 2 g ms = false from rfl] at hchk
      exact absurd hchk (by simp)
  | pick m c ih =>
    refine ⟨?_, ?_, ?_⟩
    · intro f g hw hE hchk
      rw [show checkGe p t (.pick m c) 0 g [] =
        (!g.is_terminal && decide (m ∈ g.get_legal_actions) &&
          checkGe p t c 1 (childG g m) []) from rfl] at hchk
      rw [Bool.and_eq_true, Bool.and_eq_true] at hchk
      obtain ⟨⟨hnt, hmem⟩, hrec⟩ := hchk
      have hterm : g.is_terminal = false := by
        cases h : g.is_terminal
        · rfl
        · rw [h] at hnt; exact absurd hnt (by simp)
      have hm : m ∈ g.get_legal_actions := of_decide_eq_true hmem
      have hlen1 : 1 ≤ g.get_legal_actions.length := by
        cases hl : g.get_legal_actions
        · exact absurd hl (nonterminal_legal_ne hterm)
        · simp [hl]
      cases f with
      | zero => omega
      | succ f' =>
        have hchild : EV.le (.fin t) (agentMin p (f' + 1) (childG g m)).1 = true :=
          ih.2.1 f' (childG g m) (wf_childG hw) (childG_fuel hw hm hE) hrec
        rw [agentMax_nonterminal p (f' + 1) hterm]
        exact EV.le_trans hchild
          (maxLoopF_child_le g.get_legal_actions .ninf none 1 m hm)
    · intro f g _ _ hchk
      rw [show checkGe p t (.pick m c) 1 g [] = false from rfl] at hchk
      exact absurd hchk (by simp)
    · intro f g _ _ _ ms _ hchk
      cases ms with
      | nil =>
        rw [show checkGe p t (.pick m c) 2 g [] = false from rfl] at hchk
        exact absurd hchk (by simp)
      | cons m' ms' =>
        rw [show checkGe p t (.pick m c) 2 g (m' :: ms') = false from rfl] at hchk
        exact absurd hchk (by simp)
  | all sp ih =>
    refine ⟨?_, ?_, ?_⟩
    · intro f g _ _ hchk
      rw [show checkGe p t (.all sp) 0 g [] = false from rfl] at hchk
      exact absurd hchk (by simp)
    · intro f g hw hE hchk
      rw [show checkGe p t (.all sp) 1 g [] =
        (!g.is_terminal && checkGe p t sp 2 g g.get_legal_actions)
        from rfl] at hchk
      rw [Bool.and_eq_true] at hchk
      obtain ⟨hnt, hrec⟩ := hchk
      have hterm : g.is_terminal = false := by
        cases h : g.is_terminal
        · rfl
        · rw [h] at hnt; exact absurd hnt (by simp)
      rw [agentMin_nonterminal p f hterm]
      exact ih.2.2 f g hw hterm hE g.get_legal_actions (fun _ hx => hx) hrec
        .pinf none 1 rfl
    · intro f g _ _ _ ms _ hchk
      cases ms with
      | nil =>
        rw [show checkGe p t (.all sp) 2 g [] = false from rfl] at hchk
        exact absurd hchk (by simp)
      | cons m' ms' =>
        rw [show checkGe p t (.all sp) 2 g (m' :: ms') = false from rfl] at hchk
        exact absurd hchk (by simp)
  | anil =>
    refine ⟨?_, ?_, ?_⟩
    · intro f g _ _ hchk
      rw [show checkGe p t .anil 0 g [] = false from rfl] at hchk
      exact absurd hchk (by simp)
    · intro f g _ _ hchk
      rw [show checkGe p t .anil 1 g [] = false from rfl] at hchk
      exact absurd hchk (by simp)
    · intro f g _ _ _ ms _ hchk best bm cnt hbest
      rw [show checkGe p t .anil 2 g ms = ms.isEmpty from rfl] at hchk
      cases ms with
      | nil => rw [minLoopF_nil]; exact hbest
      | cons m' ms' => exact absurd hchk (by simp [List.isEmpty])
  | acons c rest ihc ihrest =>
    refine ⟨?_, ?_, ?_⟩
    · intro f g _ _ hchk
      rw [show checkGe p t (.acons c rest) 0 g [] = false from rfl] at hchk
      exact absurd hchk (by simp)
    · intro f g _ _ hchk
      rw [show checkGe p t (.acons c rest) 1 g [] = false from rfl] at hchk
      exact absurd hchk (by simp)
    · intro f g hw hterm hE ms hms hchk best bm cnt hbest
      cases ms with
      | nil =>
        rw [show checkGe p t (.acons c rest) 2 g [] = false from rfl] at hchk
        exact absurd hchk (by simp)
      | cons m ms' =>
        rw [show checkGe p t (.acons c rest) 2 g (m :: ms') =
          (checkGe p t c 0 (childG g m) [] && checkGe p t rest 2 g ms')
          from rfl] at hchk
        rw [Bool.and_eq_true] at hchk
        obtain ⟨hc, hrest⟩ := hchk
        have hm : m ∈ g.get_legal_actions := hms m (List.mem_cons_self m ms')
        have hlen1 : 1 ≤ g.get_legal_actions.length := by
          cases hl : g.get_legal_actions
          · exact absurd hl (nonterminal_legal_ne hterm)
          · simp [hl]
        cases f with
        | zero => omega
        | succ f' =>
          have hchild : EV.le (.fin t) (agentMax p (f' + 1) (childG g m)).1 = true :=
            ihc.1 f' (childG g m) (wf_childG hw) (childG_fuel hw hm hE) hc
          rw [minLoopF_cons]
          cases hlt : EV.lt (agentMax p (f' + 1) (childG g m)).1 best
          · simp only [Bool.false_eq_true, if_false]
            exact ihrest.2.2 (f' + 1) g hw hterm hE ms'
              (fun x hx => hms x (List.mem_cons_of_mem _ hx)) hrest best bm _ hbest
          · simp only [if_true]
            exact ihrest.2.2 (f' + 1) g hw hterm hE ms'
              (fun x hx => hms x (List.mem_cons_of_mem _ hx)) hrest _ _ _ hchild

theorem checkLe_sound (p : Player) (t : Int) :
    ∀ c : Cert,
      (∀ (f : Nat) (g : Game), WF g → g.get_legal_actions.length < f + 1 →
        checkLe p t c 0 g [] = true →
        EV.le (agentMax p (f + 1) g).1 (.fin t) = true) ∧
      (∀ (f : Nat) (g : Game), WF g → g.get_legal_actions.length < f + 1 →
        checkLe p t c 1 g [] = true →
        EV.le (agentMin p (f + 1) g).1 (.fin t) = true) ∧
      (∀ (f : Nat) (g : Game), WF g → g.is_terminal = false →
        g.get_legal_actions.length < f + 1 →
        ∀ ms : List Move, (∀ m ∈ ms, m ∈ g.get_legal_actions) →
          checkLe p t c 2 g ms = true →
          ∀ (best : EV) (bm : Option Move) (cnt : Nat),
            EV.le best (.fin t) = true →
            EV.le (maxLoopF (agentMin p f) g ms best bm cnt).1 (.fin t) = true) := by
  intro c
  induction c with
  | tip =>
    refine ⟨?_, ?_, ?_⟩
    · intro f g _ _ hchk
      rw [show checkLe p t .tip 0 g [] =
        (g.is_terminal && intLe (g.utility p) t) from rfl] at hchk
      rw [Bool.and_eq_true] at hchk
      rw [agentMax_terminal p f hchk.1]
      exact hchk.2
    · intro f g _ _ hchk
      rw [show checkLe p t .tip 1 g [] =
        (g.is_terminal && intLe (g.utility p) t) from rfl] at hchk
      rw [Bool.and_eq_true] at hchk
      rw [agentMin_terminal p f hchk.1]
      exact hchk.2
    · intro f g _ _ _ ms _ hchk
      rw [show checkLe p t .tip 2 g ms = false from rfl] at hchk
      exact absurd hchk (by simp)
  | pick m c ih =>
    refine ⟨?_, ?_, ?_⟩
    · intro f g _ _ hchk
      rw [show checkLe p t (.pick m c) 0 g [] = false from rfl] at hchk
      exact absurd hchk (by simp)
    · intro f g hw hE hchk
      rw [show checkLe p t (.pick m c) 1 g [] =
        (!g.is_terminal && decide (m ∈ g.get_legal_actions) &&
          checkLe p t c 0 (childG g m) []) from rfl] at hchk
      rw [Bool.and_eq_true, Bool.and_eq_true] at hchk
      obtain ⟨⟨hnt, hmem⟩, hrec⟩ := hchk
      have hterm : g.is_terminal = false := by
        cases h : g.is_terminal
        · rfl
        · rw [h] at hnt; exact absurd hnt (by simp)
      have hm : m ∈ g.get_legal_actions := of_decide_eq_true hmem
      have hlen1 : 1 ≤ g.get_legal_actions.length := by
        cases hl : g.get_legal_actions
        · exact absurd hl (nonterminal_legal_ne hterm)
        · simp [hl]
      cases f with
      | zero => omega
      | succ f' =>
        have hchild : EV.le (agentMax p (f' + 1) (childG g m)).1 (.fin t) = true :=
          ih.1 f' (childG g m) (wf_childG hw) (childG_fuel hw hm hE) hrec
        rw [agentMin_nonterminal p (f' + 1) hterm]
        exact EV.le_trans
          (minLoopF_child_le g.get_legal_actions .pinf none 1 m hm) hchild
    · intro f g _ _ _ ms _ hchk
      cases ms with
      | nil =>
        rw [show checkLe p t (.pick m c) 2 g [] = false from rfl] at hchk
        exact absurd hchk (by simp)
      | cons m' ms' =>
        rw [show checkLe p t (.pick m c) 2 g (m' :: ms') = false from rfl] at hchk
        exact absurd hchk (by simp)
  | all sp ih =>
    refine ⟨?_, ?_, ?_⟩
    · intro f g hw hE hchk
      rw [show checkLe p t (.all sp) 0 g [] =
        (!g.is_terminal && checkLe p t sp 2 g g.get_legal_actions)
        from rfl] at hchk
      rw [Bool.and_eq_true] at hchk
      obtain ⟨hnt, hrec⟩ := hchk
      have hterm : g.is_terminal = false := by
        cases h : g.is_terminal
        · rfl
        · rw [h] at hnt; exact absurd hnt (by simp)
      rw [agentMax_nonterminal p f hterm]
      exact ih.2.2 f g hw hterm hE g.get_legal_actions (fun _ hx => hx) hrec
        .ninf none 1 rfl
    · intro f g _ _ hchk
      rw [show checkLe p t (.all sp) 1 g [] = false from rfl] at hchk
      exact absurd hchk (by simp)
    · intro f g _ _ _ ms _ hchk
      cases ms with
      | nil =>
        rw [show checkLe p t (.all sp) 2 g [] = false from rfl] at hchk
        exact absurd hchk (by simp)
      | cons m' ms' =>
        rw [show checkLe p t (.all sp) 2 g (m' :: ms') = false from rfl] at hchk
        exact absurd hchk (by simp)
  | anil =>
    refine ⟨?_, ?_, ?_⟩
    · intro f g _ _ hchk
      rw [show checkLe p t .anil 0 g [] = false from rfl] at hchk
      exact absurd hchk (by simp)
    · intro f g _ _ hchk
      rw [show checkLe p t .anil 1 g [] = false from rfl] at hchk
      exact absurd hchk (by simp)
    · intro f g _ _ _ ms _ hchk best bm cnt hbest
      rw [show checkLe p t .anil 2 g ms = ms.isEmpty from rfl] at hchk
      cases ms with
      | nil => rw [maxLoopF_nil]; exact hbest
      | cons m' ms' => exact absurd hchk (by simp [List.isEmpty])
  | acons c rest ihc ihrest =>
    refine ⟨?_, ?_, ?_⟩
    · intro f g _ _ hchk
      rw [show checkLe p t (.acons c rest) 0 g [] = false from rfl] at hchk
      exact absurd hchk (by simp)
    · intro f g _ _ hchk
      rw [show checkLe p t (.acons c rest) 1 g [] = false from rfl] at hchk
      exact absurd hchk (by simp)
    · intro f g hw hterm hE ms hms hchk best bm cnt hbest
      cases ms with
      | nil =>
        rw [show checkLe p t (.acons c rest) 2 g [] = false from rfl] at hchk
        exact absurd hchk (by simp)
      | cons m ms' =>
        rw [show checkLe p t (.acons c rest) 2 g (m :: ms') =
          (checkLe p t c 1 (childG g m) [] && checkLe p t rest 2 g ms')
          from rfl] at hchk
        rw [Bool.and_eq_true] at hchk
        obtain ⟨hc, hrest⟩ := hchk
        have hm : m ∈ g.get_legal_actions := hms m (List.mem_cons_self m ms')
        have hlen1 : 1 ≤ g.get_legal_actions.length := by
          cases hl : g.get_legal_actions
          · exact absurd hl (nonterminal_legal_ne hterm)
          · simp [hl]
        cases f with
        | zero => omega
        | succ f' =>
          have hchild : EV.le (agentMin p (f' + 1) (childG g m)).1 (.fin t) = true :=
            ihc.2.1 f' (childG g m) (wf_childG hw) (childG_fuel hw hm hE) hc
          rw [maxLoopF_cons]
          cases hlt : EV.lt best (agentMin p (f' + 1) (childG g m)).1
          · simp only [Bool.false_eq_true, if_false]
            exact ihrest.2.2 (f' + 1) g hw hterm hE ms'
              (fun x hx => hms x (List.mem_cons_of_mem _ hx)) hrest best bm _ hbest
          · simp only [if_true]
            exact ihrest.2.2 (f' + 1) g hw hterm hE ms'
              (fun x hx => hms x (List.mem_cons_of_mem _ hx)) hrest _ _ _ hchild
def certGeX : Cert :=
  Cert.pick (0, 0) (Cert.all (Cert.acons (Cert.pick (1, 0) (Cert.all (Cert.acons (Cert.pick (2, 0) (Cert.tip)) (Cert.acons (Cert.pick (2, 0) (Cert.tip)) (Cert.acons (Cert.pick (2, 0) (Cert.tip)) (Cert.acons (Cert.pick (1, 1) (Cert.all (Cert.acons (Cert.pick (1, 2) (Cert.tip)) (Cert.acons (Cert.pick (2, 2) (Cert.tip)) (Cert.acons (Cert.pick (1, 2) (Cert.tip)) (Cert.acons (Cert.pick (1, 2) (Cert.tip)) (Cert.anil))))))) (Cert.acons (Cert.pick (2, 0) (Cert.tip)) (Cert.acons (Cert.pick (2, 0) (Cert.tip)) (Cert.anil))))))))) (Cert.acons (Cert.pick (1, 0) (Cert.all (Cert.acons (Cert.pick (2, 0) (Cert.tip)) (Cert.acons (Cert.pick (2, 0) (Cert.tip)) (Cert.acons (Cert.pick (2, 0) (Cert.tip)) (Cert.acons (Cert.pick (1, 1) (Cert.all (Cert.acons (Cert.pick (1, 2) (Cert.tip)) (Cert.acons (Cert.pick (2, 2) (Cert.tip)) (Cert.acons (Cert.pick (1, 2) (Cert.tip)) (Cert.acons (Cert.pick (1, 2) (Cert.tip)) (Cert.anil))))))) (Cert.acons (Cert.pick (2, 0) (Cert.tip)) (Cert.acons (Cert.pick (2, 0) (Cert.tip)) (Cert.anil))))))))) (Cert.acons (Cert.pick (0, 1) (Cert.all (Cert.acons (Cert.pick (1, 1) (Cert.all (Cert.acons (Cert.pick (2, 1) (Cert.tip)) (Cert.acons (Cert.pick (2, 1) (Cert.tip)) (Cert.acons (Cert.pick (2, 2) (Cert.tip)) (Cert.acons (Cert.pick (2, 1) (Cert.tip)) (Cert.anil))))))) (Cert.acons (Cert.pick (0, 2) (Cert.tip)) (Cert.acons (Cert.pick (0, 2) (Cert.tip)) (Cert.acons (Cert.pick (0, 2) (Cert.tip)) (Cert.acons (Cert.pick (0, 2) (Cert.tip)) (Cert.acons (Cert.pick (0, 2) (Cert.tip)) (Cert.anil))))))))) (Cert.acons (Cert.pick (0, 1) (Cert.all (Cert.acons (Cert.pick (2, 0) (Cert.all (Cert.acons (Cert.pick (1, 2) (Cert.all (Cert.acons (Cert.pick (2, 2) (Cert.tip)) (Cert.acons (Cert.pick (2, 1) (Cert.tip)) (Cert.anil))))) (Cert.acons (Cert.pick (1, 0) (Cert.tip)) (Cert.acons (Cert.pick (1, 0) (Cert.tip)) (Cert.acons (Cert.pick (1, 0) (Cert.tip)) (Cert.anil))))))) (Cert.acons (Cert.pick (0, 2) (Cert.tip)) (Cert.acons (Cert.pick (0, 2) (Cert.tip)) (Cert.acons (Cert.pick (0, 2) (Cert.tip)) (Cert.acons (Cert.pick (0, 2) (Cert.tip)) (Cert.acons (Cert.pick (0, 2) (Cert.tip)) (Cert.anil))))))))) (Cert.acons (Cert.pick (0, 2) (Cert.all (Cert.acons (Cert.pick (1, 1) (Cert.all (Cert.acons (Cert.pick (2, 0) (Cert.tip)) (Cert.acons (Cert.pick (2, 2) (Cert.tip)) (Cert.acons (Cert.pick (2, 0) (Cert.tip)) (Cert.acons (Cert.pick (2, 0) (Cert.tip)) (Cert.anil))))))) (Cert.acons (Cert.pick (0, 1) (Cert.tip)) (Cert.acons (Cert.pick (0, 1) (Cert.tip)) (Cert.acons (Cert.pick (0, 1) (Cert.tip)) (Cert.acons (Cert.pick (0, 1) (Cert.tip)) (Cert.acons (Cert.pick (0, 1) (Cert.tip)) (Cert.anil))))))))) (Cert.acons (Cert.pick (0, 1) (Cert.all (Cert.acons (Cert.pick (1, 1) (Cert.all (Cert.acons (Cert.pick (2, 1) (Cert.tip)) (Cert.acons (Cert.pick (2, 1) (Cert.tip)) (Cert.acons (Cert.pick (2, 2) (Cert.tip)) (Cert.acons (Cert.pick (2, 1) (Cert.tip)) (Cert.anil))))))) (Cert.acons (Cert.pick (0, 2) (Cert.tip)) (Cert.acons (Cert.pick (0, 2) (Cert.tip)) (Cert.acons (Cert.pick (0, 2) (Cert.tip)) (Cert.acons (Cert.pick (0, 2) (Cert.tip)) (Cert.acons (Cert.pick (0, 2) (Cert.tip)) (Cert.anil))))))))) (Cert.acons (Cert.pick (0, 2) (Cert.all (Cert.acons (Cert.pick (1, 1) (Cert.all (Cert.acons (Cert.pick (2, 0) (Cert.tip)) (Cert.acons (Cert.pick (2, 0) (Cert.tip)) (Cert.acons (Cert.pick (2, 2) (Cert.tip)) (Cert.acons (Cert.pick (2, 0) (Cert.tip)) (Cert.anil))))))) (Cert.acons (Cert.pick (0, 1) (Cert.tip)) (Cert.acons (Cert.pick (0, 1) (Cert.tip)) (Cert.acons (Cert.pick (0, 1) (Cert.tip)) (Cert.acons (Cert.pick (0, 1) (Cert.tip)) (Cert.acons (Cert.pick (0, 1) (Cert.tip)) (Cert.anil))))))))) (Cert.acons (Cert.pick (0, 2) (Cert.all (Cert.acons (Cert.pick (2, 0) (Cert.all (Cert.acons (Cert.pick (1, 1) (Cert.tip)) (Cert.acons (Cert.pick (1, 0) (Cert.tip)) (Cert.acons (Cert.pick (1, 0) (Cert.tip)) (Cert.acons (Cert.pick (1, 0) (Cert.tip)) (Cert.anil))))))) (Cert.acons (Cert.pick (0, 1) (Cert.tip)) (Cert.acons (Cert.pick (0, 1) (Cert.tip)) (Cert.acons (Cert.pick (0, 1) (Cert.tip)) (Cert.acons (Cert.pick (0, 1) (Cert.tip)) (Cert.acons (Cert.pick (0, 1) (Cert.tip)) (Cert.anil))))))))) (Cert.anil))))))))))

def certLeX : Cert :=
  Cert.all (Cert.acons (Cert.pick (1, 1) (Cert.all (Cert.acons (Cert.pick (0, 2) (Cert.all (Cert.acons (Cert.pick (2, 0) (Cert.tip)) (Cert.acons (Cert.pick (2, 0) (Cert.tip)) (Cert.acons (Cert.pick (1, 0) (Cert.all (Cert.acons (Cert.pick (2, 1) (Cert.all (Cert.acons (Cert.tip) (Cert.anil)))) (Cert.acons (Cert.pick (1, 2) (Cert.tip)) (Cert.acons (Cert.pick (1, 2) (Cert.tip)) (Cert.anil)))))) (Cert.acons (Cert.pick (2, 0) (Cert.tip)) (Cert.acons (Cert.pick (2, 0) (Cert.tip)) (Cert.anil)))))))) (Cert.acons (Cert.pick (0, 1) (Cert.all (Cert.acons (Cert.pick (2, 1) (Cert.tip)) (Cert.acons (Cert.pick (2, 1) (Cert.tip)) (Cert.acons (Cert.pick (2, 1) (Cert.tip)) (Cert.acons (Cert.pick (1, 0) (Cert.all (Cert.acons (Cert.pick (2, 2) (Cert.all (Cert.acons (Cert.tip) (Cert.anil)))) (Cert.acons (Cert.pick (1, 2) (Cert.tip)) (Cert.acons (Cert.pick (1, 2) (Cert.tip)) (Cert.anil)))))) (Cert.acons (Cert.pick (2, 1) (Cert.tip)) (Cert.anil)))))))) (Cert.acons (Cert.pick (2, 0) (Cert.all (Cert.acons (Cert.pick (0, 2) (Cert.tip)) (Cert.acons (Cert.pick (0, 1) (Cert.all (Cert.acons (Cert.pick (2, 1) (Cert.tip)) (Cert.acons (Cert.pick (1, 2) (Cert.all (Cert.acons (Cert.tip) (Cert.anil)))) (Cert.acons (Cert.pick (2, 1) (Cert.tip)) (Cert.anil)))))) (Cert.acons (Cert.pick (0, 2) (Cert.tip)) (Cert.acons (Cert.pick (0, 2) (Cert.tip)) (Cert.acons (Cert.pick (0, 2) (Cert.tip)) (Cert.anil)))))))) (Cert.acons (Cert.pick (0, 1) (Cert.all (Cert.acons (Cert.pick (2, 1) (Cert.tip)) (Cert.acons (Cert.pick (2, 1) (Cert.tip)) (Cert.acons (Cert.pick (2, 1) (Cert.tip)) (Cert.acons (Cert.pick (2, 0) (Cert.all (Cert.acons (Cert.pick (2, 2) (Cert.all (Cert.acons (Cert.tip) (Cert.anil)))) (Cert.acons (Cert.pick (0, 2) (Cert.tip)) (Cert.acons (Cert.pick (0, 2) (Cert.tip)) (Cert.anil)))))) (Cert.acons (Cert.pick (2, 1) (Cert.tip)) (Cert.anil)))))))) (Cert.acons (Cert.pick (1, 0) (Cert.all (Cert.acons (Cert.pick (1, 2) (Cert.tip)) (Cert.acons (Cert.pick (1, 2) (Cert.tip)) (Cert.acons (Cert.pick (0, 1) (Cert.all (Cert.acons (Cert.pick (2, 1) (Cert.tip)) (Cert.acons (Cert.pick (2, 2) (Cert.all (Cert.acons (Cert.tip) (Cert.anil)))) (Cert.acons (Cert.pick (2, 1) (Cert.tip)) (Cert.anil)))))) (Cert.acons (Cert.pick (1, 2) (Cert.tip)) (Cert.acons (Cert.pick (1, 2) (Cert.tip)) (Cert.anil)))))))) (Cert.acons (Cert.pick (1, 0) (Cert.all (Cert.acons (Cert.pick (1, 2) (Cert.tip)) (Cert.acons (Cert.pick (1, 2) (Cert.tip)) (Cert.acons (Cert.pick (0, 2) (Cert.all (Cert.acons (Cert.pick (2, 0) (Cert.tip)) (Cert.acons (Cert.pick (2, 2) (Cert.all (Cert.acons (Cert.tip) (Cert.anil)))) (Cert.acons (Cert.pick (2, 0) (Cert.tip)) (Cert.anil)))))) (Cert.acons (Cert.pick (1, 2) (Cert.tip)) (Cert.acons (Cert.pick (1, 2) (Cert.tip)) (Cert.anil)))))))) (Cert.acons (Cert.pick (0, 1) (Cert.all (Cert.acons (Cert.pick (2, 1) (Cert.tip)) (Cert.acons (Cert.pick (2, 1) (Cert.tip)) (Cert.acons (Cert.pick (2, 1) (Cert.tip)) (Cert.acons (Cert.pick (2, 1) (Cert.tip)) (Cert.acons (Cert.pick (2, 0) (Cert.all (Cert.acons (Cert.pick (1, 2) (Cert.all (Cert.acons (Cert.tip) (Cert.anil)))) (Cert.acons (Cert.pick (0, 2) (Cert.tip)) (Cert.acons (Cert.pick (0, 2) (Cert.tip)) (Cert.anil)))))) (Cert.anil)))))))) (Cert.anil)))))))))) (Cert.acons (Cert.pick (1, 1) (Cert.all (Cert.acons (Cert.pick (0, 2) (Cert.all (Cert.acons (Cert.pick (2, 0) (Cert.tip)) (Cert.acons (Cert.pick (2, 0) (Cert.tip)) (Cert.acons (Cert.pick (1, 0) (Cert.all (Cert.acons (Cert.pick (2, 1) (Cert.all (Cert.acons (Cert.tip) (Cert.anil)))) (Cert.acons (Cert.pick (1, 2) (Cert.tip)) (Cert.acons (Cert.pick (1, 2) (Cert.tip)) (Cert.anil)))))) (Cert.acons (Cert.pick (2, 0) (Cert.tip)) (Cert.acons (Cert.pick (2, 0) (Cert.tip)) (Cert.anil)))))))) (Cert.acons (Cert.pick (0, 0) (Cert.all (Cert.acons (Cert.pick (2, 2) (Cert.tip)) (Cert.acons (Cert.pick (2, 2) (Cert.tip)) (Cert.acons (Cert.pick (2, 2) (Cert.tip)) (Cert.acons (Cert.pick (2, 2) (Cert.tip)) (Cert.acons (Cert.pick (1, 2) (Cert.all (Cert.acons (Cert.pick (2, 0) (Cert.all (Cert.acons (Cert.tip) (Cert.anil)))) (Cert.acons (Cert.pick (1, 0) (Cert.tip)) (Cert.acons (Cert.pick (1, 0) (Cert.tip)) (Cert.anil)))))) (Cert.anil)))))))) (Cert.acons (Cert.pick (0, 0) (Cert.all (Cert.acons (Cert.pick (2, 2) (Cert.tip)) (Cert.acons (Cert.pick (2, 2) (Cert.tip)) (Cert.acons (Cert.pick (2, 2) (Cert.tip)) (Cert.acons (Cert.pick (2, 2) (Cert.tip)) (Cert.acons (Cert.pick (0, 2) (Cert.all (Cert.acons (Cert.pick (2, 0) (Cert.tip)) (Cert.acons (Cert.pick (2, 1) (Cert.all (Cert.acons (Cert.tip) (Cert.anil)))) (Cert.acons (Cert.pick (2, 0) (Cert.tip)) (Cert.anil)))))) (Cert.anil)))))))) (Cert.acons (Cert.pick (0, 0) (Cert.all (Cert.acons (Cert.pick (2, 2) (Cert.tip)) (Cert.acons (Cert.pick (2, 2) (Cert.tip)) (Cert.acons (Cert.pick (2, 2) (Cert.tip)) (Cert.acons (Cert.pick (2, 2) (Cert.tip)) (Cert.acons (Cert.pick (0, 2) (Cert.all (Cert.acons (Cert.pick (2, 0) (Cert.tip)) (Cert.acons (Cert.pick (2, 1) (Cert.all (Cert.acons (Cert.tip) (Cert.anil)))) (Cert.acons (Cert.pick (2, 0) (Cert.tip)) (Cert.anil)))))) (Cert.anil)))))))) (Cert.acons (Cert.pick (1, 0) (Cert.all (Cert.acons (Cert.pick (1, 2) (Cert.tip)) (Cert.acons (Cert.pick (1, 2) (Cert.tip)) (Cert.acons (Cert.pick (2, 2) (Cert.all (Cert.acons (Cert.pick (0, 2) (Cert.all (Cert.acons (Cert.tip) (Cert.anil)))) (Cert.acons (Cert.pick (0, 0) (Cert.tip)) (Cert.acons (Cert.pick (0, 0) (Cert.tip)) (Cert.anil)))))) (Cert.acons (Cert.pick (1, 2) (Cert.tip)) (Cert.acons (Cert.pick (1, 2) (Cert.tip)) (Cert.anil)))))))) (Cert.acons (Cert.pick (0, 0) (Cert.all (Cert.acons (Cert.pick (2, 2) (Cert.tip)) (Cert.acons (Cert.pick (2, 2) (Cert.tip)) (Cert.acons (Cert.pick (2, 2) (Cert.tip)) (Cert.acons (Cert.pick (2, 2) (Cert.tip)) (Cert.acons (Cert.pick (2, 0) (Cert.all (Cert.acons (Cert.pick (1, 0) (Cert.tip)) (Cert.acons (Cert.pick (0, 2) (Cert.tip)) (Cert.acons (Cert.pick (0, 2) (Cert.tip)) (Cert.anil)))))) (Cert.anil)))))))) (Cert.acons (Cert.pick (1, 0) (Cert.all (Cert.acons (Cert.pick (1, 2) (Cert.tip)) (Cert.acons (Cert.pick (1, 2) (Cert.tip)) (Cert.acons (Cert.pick (0, 2) (Cert.all (Cert.acons (Cert.pick (2, 0) (Cert.tip)) (Cert.acons (Cert.pick (2, 1) (Cert.all (Cert.acons (Cert.tip) (Cert.anil)))) (Cert.acons (Cert.pick (2, 0) (Cert.tip)) (Cert.anil)))))) (Cert.acons (Cert.pick (1, 2) (Cert.tip)) (Cert.acons (Cert.pick (1, 2) (Cert.tip)) (Cert.anil)))))))) (Cert.anil)))))))))) (Cert.acons (Cert.pick (1, 1) (Cert.all (Cert.acons (Cert.pick (0, 1) (Cert.all (Cert.acons (Cert.pick (2, 1) (Cert.tip)) (Cert.acons (Cert.pick (2, 1) (Cert.tip)) (Cert.acons (Cert.pick (2, 1) (Cert.tip)) (Cert.acons (Cert.pick (1, 0) (Cert.all (Cert.acons (Cert.pick (2, 2) (Cert.all (Cert.acons (Cert.tip) (Cert.anil)))) (Cert.acons (Cert.pick (1, 2) (Cert.tip)) (Cert.acons (Cert.pick (1, 2) (Cert.tip)) (Cert.anil)))))) (Cert.acons (Cert.pick (2, 1) (Cert.tip)) (Cert.anil)))))))) (Cert.acons (Cert.pick (0, 0) (Cert.all (Cert.acons (Cert.pick (2, 2) (Cert.tip)) (Cert.acons (Cert.pick (2, 2) (Cert.tip)) (Cert.acons (Cert.pick (2, 2) (Cert.tip)) (Cert.acons (Cert.pick (2, 2) (Cert.tip)) (Cert.acons (Cert.pick (1, 2) (Cert.all (Cert.acons (Cert.pick (2, 0) (Cert.all (Cert.acons (Cert.tip) (Cert.anil)))) (Cert.acons (Cert.pick (1, 0) (Cert.tip)) (Cert.acons (Cert.pick (1, 0) (Cert.tip)) (Cert.anil)))))) (Cert.anil)))))))) (Cert.acons (Cert.pick (0, 1) (Cert.all (Cert.acons (Cert.pick (2, 1) (Cert.tip)) (Cert.acons (Cert.pick (2, 1) (Cert.tip)) (Cert.acons (Cert.pick (2, 1) (Cert.tip)) (Cert.acons (Cert.pick (2, 2) (Cert.all (Cert.acons (Cert.pick (2, 0) (Cert.all (Cert.acons (Cert.tip) (Cert.anil)))) (Cert.acons (Cert.pick (0, 0) (Cert.tip)) (Cert.acons (Cert.pick (0, 0) (Cert.tip)) (Cert.anil)))))) (Cert.acons (Cert.pick (2, 1) (Cert.tip)) (Cert.anil)))))))) (Cert.acons (Cert.pick (2, 2) (Cert.all (Cert.acons (Cert.pick (0, 1) (Cert.all (Cert.acons (Cert.pick (2, 1) (Cert.tip)) (Cert.acons (Cert.pick (2, 1) (Cert.tip)) (Cert.acons (Cert.pick (1, 0) (Cert.all (Cert.acons (Cert.tip) (Cert.anil)))) (Cert.anil)))))) (Cert.acons (Cert.pick (0, 0) (Cert.tip)) (Cert.acons (Cert.pick (0, 0) (Cert.tip)) (Cert.acons (Cert.pick (0, 0) (Cert.tip)) (Cert.acons (Cert.pick (0, 0) (Cert.tip)) (Cert.anil)))))))) (Cert.acons (Cert.pick (0, 1) (Cert.all (Cert.acons (Cert.pick (2, 1) (Cert.tip)) (Cert.acons (Cert.pick (2, 1) (Cert.tip)) (Cert.acons (Cert.pick (2, 1) (Cert.tip)) (Cert.acons (Cert.pick (2, 2) (Cert.all (Cert.acons (Cert.pick (1, 0) (Cert.all (Cert.acons (Cert.tip) (Cert.anil)))) (Cert.acons (Cert.pick (0, 0) (Cert.tip)) (Cert.acons (Cert.pick (0, 0) (Cert.tip)) (Cert.anil)))))) (Cert.acons (Cert.pick (2, 1) (Cert.tip)) (Cert.anil)))))))) (Cert.acons (Cert.pick (1, 0) (Cert.all (Cert.acons (Cert.pick (1, 2) (Cert.tip)) (Cert.acons (Cert.pick (1, 2) (Cert.tip)) (Cert.acons (Cert.pick (2, 2) (Cert.all (Cert.acons (Cert.pick (0, 1) (Cert.all (Cert.acons (Cert.tip) (Cert.anil)))) (Cert.acons (Cert.pick (0, 0) (Cert.tip)) (Cert.acons (Cert.pick (0, 0) (Cert.tip)) (Cert.anil)))))) (Cert.acons (Cert.pick (1, 2) (Cert.tip)) (Cert.acons (Cert.pick (1, 2) (Cert.tip)) (Cert.anil)))))))) (Cert.acons (Cert.pick (1, 2) (Cert.all (Cert.acons (Cert.pick (1, 0) (Cert.tip)) (Cert.acons (Cert.pick (1, 0) (Cert.tip)) (Cert.acons (Cert.pick (0, 1) (Cert.all (Cert.acons (Cert.pick (2, 1) (Cert.tip)) (Cert.acons (Cert.pick (2, 1) (Cert.tip)) (Cert.acons (Cert.pick (2, 0) (Cert.all (Cert.acons (Cert.tip) (Cert.anil)))) (Cert.anil)))))) (Cert.acons (Cert.pick (1, 0) (Cert.tip)) (Cert.acons (Cert.pick (1, 0) (Cert.tip)) (Cert.anil)))))))) (Cert.anil)))))))))) (Cert.acons (Cert.pick (1, 1) (Cert.all (Cert.acons (Cert.pick (2, 0) (Cert.all (Cert.acons (Cert.pick (0, 2) (Cert.tip)) (Cert.acons (Cert.pick (0, 1) (Cert.all (Cert.acons (Cert.pick (2, 1) (Cert.tip)) (Cert.acons (Cert.pick (1, 2) (Cert.all (Cert.acons (Cert.tip) (Cert.anil)))) (Cert.acons (Cert.pick (2, 1) (Cert.tip)) (Cert.anil)))))) (Cert.acons (Cert.pick (0, 2) (Cert.tip)) (Cert.acons (Cert.pick (0, 2) (Cert.tip)) (Cert.acons (Cert.pick (0, 2) (Cert.tip)) (Cert.anil)))))))) (Cert.acons (Cert.pick (0, 0) (Cert.all (Cert.acons (Cert.pick (2, 2) (Cert.tip)) (Cert.acons (Cert.pick (2, 2) (Cert.tip)) (Cert.acons (Cert.pick (2, 2) (Cert.tip)) (Cert.acons (Cert.pick (2, 2) (Cert.tip)) (Cert.acons (Cert.pick (0, 2) (Cert.all (Cert.acons (Cert.pick (2, 0) (Cert.tip)) (Cert.acons (Cert.pick (2, 1) (Cert.all (Cert.acons (Cert.tip) (Cert.anil)))) (Cert.acons (Cert.pick (2, 0) (Cert.tip)) (Cert.anil)))))) (Cert.anil)))))))) (Cert.acons (Cert.pick (0, 1) (Cert.all (Cert.acons (Cert.pick (2, 1) (Cert.tip)) (Cert.acons (Cert.pick (2, 1) (Cert.tip)) (Cert.acons (Cert.pick (2, 1) (Cert.tip)) (Cert.acons (Cert.pick (2, 2) (Cert.all (Cert.acons (Cert.pick (2, 0) (Cert.all (Cert.acons (Cert.tip) (Cert.anil)))) (Cert.acons (Cert.pick (0, 0) (Cert.tip)) (Cert.acons (Cert.pick (0, 0) (Cert.tip)) (Cert.anil)))))) (Cert.acons (Cert.pick (2, 1) (Cert.tip)) (Cert.anil)))))))) (Cert.acons (Cert.pick (0, 0) (Cert.all (Cert.acons (Cert.pick (2, 2) (Cert.tip)) (Cert.acons (Cert.pick (2, 2) (Cert.tip)) (Cert.acons (Cert.pick (2, 2) (Cert.tip)) (Cert.acons (Cert.pick (2, 2) (Cert.tip)) (Cert.acons (Cert.pick (0, 2) (Cert.all (Cert.acons (Cert.pick (2, 0) (Cert.tip)) (Cert.acons (Cert.pick (0, 1) (Cert.tip)) (Cert.acons (Cert.pick (0, 1) (Cert.tip)) (Cert.anil)))))) (Cert.anil)))))))) (Cert.acons (Cert.pick (0, 0) (Cert.all (Cert.acons (Cert.pick (2, 2) (Cert.tip)) (Cert.acons (Cert.pick (2, 2) (Cert.tip)) (Cert.acons (Cert.pick (2, 2) (Cert.tip)) (Cert.acons (Cert.pick (2, 2) (Cert.tip)) (Cert.acons (Cert.pick (2, 1) (Cert.all (Cert.acons (Cert.pick (0, 2) (Cert.all (Cert.acons (Cert.tip) (Cert.anil)))) (Cert.acons (Cert.pick (0, 1) (Cert.tip)) (Cert.acons (Cert.pick (0, 1) (Cert.tip)) (Cert.anil)))))) (Cert.anil)))))))) (Cert.acons (Cert.pick (0, 0) (Cert.all (Cert.acons (Cert.pick (2, 2) (Cert.tip)) (Cert.acons (Cert.pick (2, 2) (Cert.tip)) (Cert.acons (Cert.pick (2, 2) (Cert.tip)) (Cert.acons (Cert.pick (2, 2) (Cert.tip)) (Cert.acons (Cert.pick (2, 0) (Cert.all (Cert.acons (Cert.pick (0, 2) (Cert.tip)) (Cert.acons (Cert.pick (1, 2) (Cert.all (Cert.acons (Cert.tip) (Cert.anil)))) (Cert.acons (Cert.pick (0, 2) (Cert.tip)) (Cert.anil)))))) (Cert.anil)))))))) (Cert.acons (Cert.pick (0, 1) (Cert.all (Cert.acons (Cert.pick (2, 1) (Cert.tip)) (Cert.acons (Cert.pick (2, 1) (Cert.tip)) (Cert.acons (Cert.pick (2, 1) (Cert.tip)) (Cert.acons (Cert.pick (2, 1) (Cert.tip)) (Cert.acons (Cert.pick (2, 0) (Cert.all (Cert.acons (Cert.pick (0, 2) (Cert.tip)) (Cert.acons (Cert.pick (1, 2) (Cert.all (Cert.acons (Cert.tip) (Cert.anil)))) (Cert.acons (Cert.pick (0, 2) (Cert.tip)) (Cert.anil)))))) (Cert.anil)))))))) (Cert.anil)))))))))) (Cert.acons (Cert.pick (0, 0) (Cert.all (Cert.acons (Cert.pick (2, 1) (Cert.all (Cert.acons (Cert.pick (2, 0) (Cert.all (Cert.acons (Cert.pick (2, 2) (Cert.tip)) (Cert.acons (Cert.pick (1, 0) (Cert.tip)) (Cert.acons (Cert.pick (1, 0) (Cert.tip)) (Cert.anil)))))) (Cert.acons (Cert.pick (1, 2) (Cert.all (Cert.acons (Cert.pick (2, 0) (Cert.all (Cert.acons (Cert.tip) (Cert.anil)))) (Cert.acons (Cert.pick (0, 2) (Cert.all (Cert.acons (Cert.tip) (Cert.anil)))) (Cert.acons (Cert.pick (0, 2) (Cert.all (Cert.acons (Cert.tip) (Cert.anil)))) (Cert.anil)))))) (Cert.acons (Cert.pick (1, 0) (Cert.all (Cert.acons (Cert.pick (2, 0) (Cert.tip)) (Cert.acons (Cert.pick (0, 2) (Cert.all (Cert.acons (Cert.tip) (Cert.anil)))) (Cert.acons (Cert.pick (2, 0) (Cert.tip)) (Cert.anil)))))) (Cert.acons (Cert.pick (0, 2) (Cert.all (Cert.acons (Cert.pick (1, 2) (Cert.all (Cert.acons (Cert.tip) (Cert.anil)))) (Cert.acons (Cert.pick (1, 0) (Cert.all (Cert.acons (Cert.tip) (Cert.anil)))) (Cert.acons (Cert.pick (1, 0) (Cert.all (Cert.acons (Cert.tip) (Cert.anil)))) (Cert.anil)))))) (Cert.acons (Cert.pick (1, 0) (Cert.all (Cert.acons (Cert.pick (2, 0) (Cert.tip)) (Cert.acons (Cert.pick (2, 0) (Cert.tip)) (Cert.acons (Cert.pick (0, 2) (Cert.all (Cert.acons (Cert.tip) (Cert.anil)))) (Cert.anil)))))) (Cert.anil)))))))) (Cert.acons (Cert.pick (2, 0) (Cert.all (Cert.acons (Cert.pick (1, 0) (Cert.tip)) (Cert.acons (Cert.pick (1, 2) (Cert.all (Cert.acons (Cert.pick (2, 1) (Cert.all (Cert.acons (Cert.tip) (Cert.anil)))) (Cert.acons (Cert.pick (0, 1) (Cert.all (Cert.acons (Cert.tip) (Cert.anil)))) (Cert.acons (Cert.pick (0, 1) (Cert.all (Cert.acons (Cert.tip) (Cert.anil)))) (Cert.anil)))))) (Cert.acons (Cert.pick (1, 0) (Cert.tip)) (Cert.acons (Cert.pick (1, 0) (Cert.tip)) (Cert.acons (Cert.pick (1, 0) (Cert.tip)) (Cert.anil)))))))) (Cert.acons (Cert.pick (1, 2) (Cert.all (Cert.acons (Cert.pick (2, 1) (Cert.all (Cert.acons (Cert.pick (2, 0) (Cert.all (Cert.acons (Cert.tip) (Cert.anil)))) (Cert.acons (Cert.pick (0, 2) (Cert.all (Cert.acons (Cert.tip) (Cert.anil)))) (Cert.acons (Cert.pick (0, 2) (Cert.all (Cert.acons (Cert.tip) (Cert.anil)))) (Cert.anil)))))) (Cert.acons (Cert.pick (2, 0) (Cert.all (Cert.acons (Cert.pick (2, 1) (Cert.all (Cert.acons (Cert.tip) (Cert.anil)))) (Cert.acons (Cert.pick (0, 1) (Cert.all (Cert.acons (Cert.tip) (Cert.anil)))) (Cert.acons (Cert.pick (0, 1) (Cert.all (Cert.acons (Cert.tip) (Cert.anil)))) (Cert.anil)))))) (Cert.acons (Cert.pick (0, 2) (Cert.all (Cert.acons (Cert.pick (2, 2) (Cert.tip)) (Cert.acons (Cert.pick (0, 1) (Cert.tip)) (Cert.acons (Cert.pick (0, 1) (Cert.tip)) (Cert.anil)))))) (Cert.acons (Cert.pick (0, 1) (Cert.all (Cert.acons (Cert.pick (2, 0) (Cert.all (Cert.acons (Cert.tip) (Cert.anil)))) (Cert.acons (Cert.pick (0, 2) (Cert.tip)) (Cert.acons (Cert.pick (0, 2) (Cert.tip)) (Cert.anil)))))) (Cert.acons (Cert.pick (0, 1) (Cert.all (Cert.acons (Cert.pick (2, 0) (Cert.all (Cert.acons (Cert.tip) (Cert.anil)))) (Cert.acons (Cert.pick (0, 2) (Cert.tip)) (Cert.acons (Cert.pick (0, 2) (Cert.tip)) (Cert.anil)))))) (Cert.anil)))))))) (Cert.acons (Cert.pick (1, 0) (Cert.all (Cert.acons (Cert.pick (2, 0) (Cert.tip)) (Cert.acons (Cert.pick (2, 0) (Cert.tip)) (Cert.acons (Cert.pick (0, 2) (Cert.all (Cert.acons (Cert.pick (2, 1) (Cert.all (Cert.acons (Cert.tip) (Cert.anil)))) (Cert.acons (Cert.pick (0, 1) (Cert.tip)) (Cert.acons (Cert.pick (0, 1) (Cert.tip)) (Cert.anil)))))) (Cert.acons (Cert.pick (2, 0) (Cert.tip)) (Cert.acons (Cert.pick (2, 0) (Cert.tip)) (Cert.anil)))))))) (Cert.acons (Cert.pick (0, 2) (Cert.all (Cert.acons (Cert.pick (2, 1) (Cert.all (Cert.acons (Cert.pick (1, 2) (Cert.all (Cert.acons (Cert.tip) (Cert.anil)))) (Cert.acons (Cert.pick (1, 0) (Cert.all (Cert.acons (Cert.tip) (Cert.anil)))) (Cert.acons (Cert.pick (1, 0) (Cert.all (Cert.acons (Cert.tip) (Cert.anil)))) (Cert.anil)))))) (Cert.acons (Cert.pick (0, 1) (Cert.tip)) (Cert.acons (Cert.pick (0, 1) (Cert.tip)) (Cert.acons (Cert.pick (0, 1) (Cert.tip)) (Cert.acons (Cert.pick (0, 1) (Cert.tip)) (Cert.anil)))))))) (Cert.acons (Cert.pick (0, 1) (Cert.all (Cert.acons (Cert.pick (2, 0) (Cert.all (Cert.acons (Cert.pick (1, 2) (Cert.all (Cert.acons (Cert.tip) (Cert.anil)))) (Cert.acons (Cert.pick (1, 0) (Cert.tip)) (Cert.acons (Cert.pick (1, 0) (Cert.tip)) (Cert.anil)))))) (Cert.acons (Cert.pick (0, 2) (Cert.tip)) (Cert.acons (Cert.pick (0, 2) (Cert.tip)) (Cert.acons (Cert.pick (0, 2) (Cert.tip)) (Cert.acons (Cert.pick (0, 2) (Cert.tip)) (Cert.anil)))))))) (Cert.acons (Cert.pick (0, 2) (Cert.all (Cert.acons (Cert.pick (2, 1) (Cert.all (Cert.acons (Cert.pick (1, 2) (Cert.all (Cert.acons (Cert.tip) (Cert.anil)))) (Cert.acons (Cert.pick (1, 0) (Cert.all (Cert.acons (Cert.tip) (Cert.anil)))) (Cert.acons (Cert.pick (1, 0) (Cert.all (Cert.acons (Cert.tip) (Cert.anil)))) (Cert.anil)))))) (Cert.acons (Cert.pick (0, 1) (Cert.tip)) (Cert.acons (Cert.pick (0, 1) (Cert.tip)) (Cert.acons (Cert.pick (0, 1) (Cert.tip)) (Cert.acons (Cert.pick (0, 1) (Cert.tip)) (Cert.anil)))))))) (Cert.anil)))))))))) (Cert.acons (Cert.pick (1, 1) (Cert.all (Cert.acons (Cert.pick (0, 1) (Cert.all (Cert.acons (Cert.pick (2, 1) (Cert.tip)) (Cert.acons (Cert.pick (2, 1) (Cert.tip)) (Cert.acons (Cert.pick (2, 1) (Cert.tip)) (Cert.acons (Cert.pick (2, 0) (Cert.all (Cert.acons (Cert.pick (2, 2) (Cert.all (Cert.acons (Cert.tip) (Cert.anil)))) (Cert.acons (Cert.pick (0, 2) (Cert.tip)) (Cert.acons (Cert.pick (0, 2) (Cert.tip)) (Cert.anil)))))) (Cert.acons (Cert.pick (2, 1) (Cert.tip)) (Cert.anil)))))))) (Cert.acons (Cert.pick (0, 0) (Cert.all (Cert.acons (Cert.pick (2, 2) (Cert.tip)) (Cert.acons (Cert.pick (2, 2) (Cert.tip)) (Cert.acons (Cert.pick (2, 2) (Cert.tip)) (Cert.acons (Cert.pick (2, 2) (Cert.tip)) (Cert.acons (Cert.pick (0, 2) (Cert.all (Cert.acons (Cert.pick (2, 0) (Cert.tip)) (Cert.acons (Cert.pick (2, 1) (Cert.all (Cert.acons (Cert.tip) (Cert.anil)))) (Cert.acons (Cert.pick (2, 0) (Cert.tip)) (Cert.anil)))))) (Cert.anil)))))))) (Cert.acons (Cert.pick (2, 2) (Cert.all (Cert.acons (Cert.pick (0, 1) (Cert.all (Cert.acons (Cert.pick (2, 1) (Cert.tip)) (Cert.acons (Cert.pick (2, 1) (Cert.tip)) (Cert.acons (Cert.pick (1, 0) (Cert.all (Cert.acons (Cert.tip) (Cert.anil)))) (Cert.anil)))))) (Cert.acons (Cert.pick (0, 0) (Cert.tip)) (Cert.acons (Cert.pick (0, 0) (Cert.tip)) (Cert.acons (Cert.pick (0, 0) (Cert.tip)) (Cert.acons (Cert.pick (0, 0) (Cert.tip)) (Cert.anil)))))))) (Cert.acons (Cert.pick (0, 0) (Cert.all (Cert.acons (Cert.pick (2, 2) (Cert.tip)) (Cert.acons (Cert.pick (2, 2) (Cert.tip)) (Cert.acons (Cert.pick (2, 2) (Cert.tip)) (Cert.acons (Cert.pick (2, 2) (Cert.tip)) (Cert.acons (Cert.pick (0, 2) (Cert.all (Cert.acons (Cert.pick (2, 0) (Cert.tip)) (Cert.acons (Cert.pick (0, 1) (Cert.tip)) (Cert.acons (Cert.pick (0, 1) (Cert.tip)) (Cert.anil)))))) (Cert.anil)))))))) (Cert.acons (Cert.pick (0, 1) (Cert.all (Cert.acons (Cert.pick (2, 1) (Cert.tip)) (Cert.acons (Cert.pick (2, 1) (Cert.tip)) (Cert.acons (Cert.pick (2, 1) (Cert.tip)) (Cert.acons (Cert.pick (2, 2) (Cert.all (Cert.acons (Cert.pick (1, 0) (Cert.all (Cert.acons (Cert.tip) (Cert.anil)))) (Cert.acons (Cert.pick (0, 0) (Cert.tip)) (Cert.acons (Cert.pick (0, 0) (Cert.tip)) (Cert.anil)))))) (Cert.acons (Cert.pick (2, 1) (Cert.tip)) (Cert.anil)))))))) (Cert.acons (Cert.pick (0, 2) (Cert.all (Cert.acons (Cert.pick (2, 0) (Cert.tip)) (Cert.acons (Cert.pick (2, 0) (Cert.tip)) (Cert.acons (Cert.pick (2, 0) (Cert.tip)) (Cert.acons (Cert.pick (2, 2) (Cert.all (Cert.acons (Cert.pick (1, 0) (Cert.all (Cert.acons (Cert.tip) (Cert.anil)))) (Cert.acons (Cert.pick (0, 0) (Cert.tip)) (Cert.acons (Cert.pick (0, 0) (Cert.tip)) (Cert.anil)))))) (Cert.acons (Cert.pick (2, 0) (Cert.tip)) (Cert.anil)))))))) (Cert.acons (Cert.pick (0, 2) (Cert.all (Cert.acons (Cert.pick (2, 0) (Cert.tip)) (Cert.acons (Cert.pick (2, 0) (Cert.tip)) (Cert.acons (Cert.pick (2, 0) (Cert.tip)) (Cert.acons (Cert.pick (2, 1) (Cert.all (Cert.acons (Cert.pick (0, 1) (Cert.tip)) (Cert.acons (Cert.pick (0, 0) (Cert.all (Cert.acons (Cert.tip) (Cert.anil)))) (Cert.acons (Cert.pick (0, 1) (Cert.tip)) (Cert.anil)))))) (Cert.acons (Cert.pick (2, 0) (Cert.tip)) (Cert.anil)))))))) (Cert.anil)))))))))) (Cert.acons (Cert.pick (1, 1) (Cert.all (Cert.acons (Cert.pick (1, 0) (Cert.all (Cert.acons (Cert.pick (1, 2) (Cert.tip)) (Cert.acons (Cert.pick (1, 2) (Cert.tip)) (Cert.acons (Cert.pick (0, 1) (Cert.all (Cert.acons (Cert.pick (2, 1) (Cert.tip)) (Cert.acons (Cert.pick (2, 2) (Cert.all (Cert.acons (Cert.tip) (Cert.anil)))) (Cert.acons (Cert.pick (2, 1) (Cert.tip)) (Cert.anil)))))) (Cert.acons (Cert.pick (1, 2) (Cert.tip)) (Cert.acons (Cert.pick (1, 2) (Cert.tip)) (Cert.anil)))))))) (Cert.acons (Cert.pick (1, 0) (Cert.all (Cert.acons (Cert.pick (1, 2) (Cert.tip)) (Cert.acons (Cert.pick (1, 2) (Cert.tip)) (Cert.acons (Cert.pick (2, 2) (Cert.all (Cert.acons (Cert.pick (0, 2) (Cert.all (Cert.acons (Cert.tip) (Cert.anil)))) (Cert.acons (Cert.pick (0, 0) (Cert.tip)) (Cert.acons (Cert.pick (0, 0) (Cert.tip)) (Cert.anil)))))) (Cert.acons (Cert.pick (1, 2) (Cert.tip)) (Cert.acons (Cert.pick (1, 2) (Cert.tip)) (Cert.anil)))))))) (Cert.acons (Cert.pick (0, 1) (Cert.all (Cert.acons (Cert.pick (2, 1) (Cert.tip)) (Cert.acons (Cert.pick (2, 1) (Cert.tip)) (Cert.acons (Cert.pick (2, 1) (Cert.tip)) (Cert.acons (Cert.pick (2, 2) (Cert.all (Cert.acons (Cert.pick (1, 0) (Cert.all (Cert.acons (Cert.tip) (Cert.anil)))) (Cert.acons (Cert.pick (0, 0) (Cert.tip)) (Cert.acons (Cert.pick (0, 0) (Cert.tip)) (Cert.anil)))))) (Cert.acons (Cert.pick (2, 1) (Cert.tip)) (Cert.anil)))))))) (Cert.acons (Cert.pick (0, 0) (Cert.all (Cert.acons (Cert.pick (2, 2) (Cert.tip)) (Cert.acons (Cert.pick (2, 2) (Cert.tip)) (Cert.acons (Cert.pick (2, 2) (Cert.tip)) (Cert.acons (Cert.pick (2, 2) (Cert.tip)) (Cert.acons (Cert.pick (2, 1) (Cert.all (Cert.acons (Cert.pick (0, 2) (Cert.all (Cert.acons (Cert.tip) (Cert.anil)))) (Cert.acons (Cert.pick (0, 1) (Cert.tip)) (Cert.acons (Cert.pick (0, 1) (Cert.tip)) (Cert.anil)))))) (Cert.anil)))))))) (Cert.acons (Cert.pick (0, 1) (Cert.all (Cert.acons (Cert.pick (2, 1) (Cert.tip)) (Cert.acons (Cert.pick (2, 1) (Cert.tip)) (Cert.acons (Cert.pick (2, 1) (Cert.tip)) (Cert.acons (Cert.pick (2, 2) (Cert.all (Cert.acons (Cert.pick (1, 0) (Cert.all (Cert.acons (Cert.tip) (Cert.anil)))) (Cert.acons (Cert.pick (0, 0) (Cert.tip)) (Cert.acons (Cert.pick (0, 0) (Cert.tip)) (Cert.anil)))))) (Cert.acons (Cert.pick (2, 1) (Cert.tip)) (Cert.anil)))))))) (Cert.acons (Cert.pick (2, 2) (Cert.all (Cert.acons (Cert.pick (1, 0) (Cert.all (Cert.acons (Cert.pick (1, 2) (Cert.tip)) (Cert.acons (Cert.pick (1, 2) (Cert.tip)) (Cert.acons (Cert.pick (0, 1) (Cert.all (Cert.acons (Cert.tip) (Cert.anil)))) (Cert.anil)))))) (Cert.acons (Cert.pick (0, 0) (Cert.tip)) (Cert.acons (Cert.pick (0, 0) (Cert.tip)) (Cert.acons (Cert.pick (0, 0) (Cert.tip)) (Cert.acons (Cert.pick (0, 0) (Cert.tip)) (Cert.anil)))))))) (Cert.acons (Cert.pick (2, 1) (Cert.all (Cert.acons (Cert.pick (0, 1) (Cert.tip)) (Cert.acons (Cert.pick (1, 0) (Cert.all (Cert.acons (Cert.pick (1, 2) (Cert.tip)) (Cert.acons (Cert.pick (1, 2) (Cert.tip)) (Cert.acons (Cert.pick (0, 2) (Cert.all (Cert.acons (Cert.tip) (Cert.anil)))) (Cert.anil)))))) (Cert.acons (Cert.pick (0, 1) (Cert.tip)) (Cert.acons (Cert.pick (0, 1) (Cert.tip)) (Cert.acons (Cert.pick (0, 1) (Cert.tip)) (Cert.anil)))))))) (Cert.anil)))))))))) (Cert.acons (Cert.pick (1, 1) (Cert.all (Cert.acons (Cert.pick (1, 0) (Cert.all (Cert.acons (Cert.pick (1, 2) (Cert.tip)) (Cert.acons (Cert.pick (1, 2) (Cert.tip)) (Cert.acons (Cert.pick (0, 2) (Cert.all (Cert.acons (Cert.pick (2, 0) (Cert.tip)) (Cert.acons (Cert.pick (2, 2) (Cert.all (Cert.acons (Cert.tip) (Cert.anil)))) (Cert.acons (Cert.pick (2, 0) (Cert.tip)) (Cert.anil)))))) (Cert.acons (Cert.pick (1, 2) (Cert.tip)) (Cert.acons (Cert.pick (1, 2) (Cert.tip)) (Cert.anil)))))))) (Cert.acons (Cert.pick (0, 0) (Cert.all (Cert.acons (Cert.pick (2, 2) (Cert.tip)) (Cert.acons (Cert.pick (2, 2) (Cert.tip)) (Cert.acons (Cert.pick (2, 2) (Cert.tip)) (Cert.acons (Cert.pick (2, 2) (Cert.tip)) (Cert.acons (Cert.pick (2, 0) (Cert.all (Cert.acons (Cert.pick (1, 0) (Cert.tip)) (Cert.acons (Cert.pick (0, 2) (Cert.tip)) (Cert.acons (Cert.pick (0, 2) (Cert.tip)) (Cert.anil)))))) (Cert.anil)))))))) (Cert.acons (Cert.pick (1, 0) (Cert.all (Cert.acons (Cert.pick (1, 2) (Cert.tip)) (Cert.acons (Cert.pick (1, 2) (Cert.tip)) (Cert.acons (Cert.pick (2, 2) (Cert.all (Cert.acons (Cert.pick (0, 1) (Cert.all (Cert.acons (Cert.tip) (Cert.anil)))) (Cert.acons (Cert.pick (0, 0) (Cert.tip)) (Cert.acons (Cert.pick (0, 0) (Cert.tip)) (Cert.anil)))))) (Cert.acons (Cert.pick (1, 2) (Cert.tip)) (Cert.acons (Cert.pick (1, 2) (Cert.tip)) (Cert.anil)))))))) (Cert.acons (Cert.pick (0, 0) (Cert.all (Cert.acons (Cert.pick (2, 2) (Cert.tip)) (Cert.acons (Cert.pick (2, 2) (Cert.tip)) (Cert.acons (Cert.pick (2, 2) (Cert.tip)) (Cert.acons (Cert.pick (2, 2) (Cert.tip)) (Cert.acons (Cert.pick (2, 0) (Cert.all (Cert.acons (Cert.pick (0, 2) (Cert.tip)) (Cert.acons (Cert.pick (1, 2) (Cert.all (Cert.acons (Cert.tip) (Cert.anil)))) (Cert.acons (Cert.pick (0, 2) (Cert.tip)) (Cert.anil)))))) (Cert.anil)))))))) (Cert.acons (Cert.pick (0, 2) (Cert.all (Cert.acons (Cert.pick (2, 0) (Cert.tip)) (Cert.acons (Cert.pick (2, 0) (Cert.tip)) (Cert.acons (Cert.pick (2, 0) (Cert.tip)) (Cert.acons (Cert.pick (2, 2) (Cert.all (Cert.acons (Cert.pick (1, 0) (Cert.all (Cert.acons (Cert.tip) (Cert.anil)))) (Cert.acons (Cert.pick (0, 0) (Cert.tip)) (Cert.acons (Cert.pick (0, 0) (Cert.tip)) (Cert.anil)))))) (Cert.acons (Cert.pick (2, 0) (Cert.tip)) (Cert.anil)))))))) (Cert.acons (Cert.pick (2, 2) (Cert.all (Cert.acons (Cert.pick (1, 0) (Cert.all (Cert.acons (Cert.pick (1, 2) (Cert.tip)) (Cert.acons (Cert.pick (1, 2) (Cert.tip)) (Cert.acons (Cert.pick (0, 1) (Cert.all (Cert.acons (Cert.tip) (Cert.anil)))) (Cert.anil)))))) (Cert.acons (Cert.pick (0, 0) (Cert.tip)) (Cert.acons (Cert.pick (0, 0) (Cert.tip)) (Cert.acons (Cert.pick (0, 0) (Cert.tip)) (Cert.acons (Cert.pick (0, 0) (Cert.tip)) (Cert.anil)))))))) (Cert.acons (Cert.pick (2, 0) (Cert.all (Cert.acons (Cert.pick (0, 2) (Cert.tip)) (Cert.acons (Cert.pick (0, 2) (Cert.tip)) (Cert.acons (Cert.pick (1, 2) (Cert.all (Cert.acons (Cert.pick (1, 0) (Cert.tip)) (Cert.acons (Cert.pick (1, 0) (Cert.tip)) (Cert.acons (Cert.pick (0, 0) (Cert.all (Cert.acons (Cert.tip) (Cert.anil)))) (Cert.anil)))))) (Cert.acons (Cert.pick (0, 2) (Cert.tip)) (Cert.acons (Cert.pick (0, 2) (Cert.tip)) (Cert.anil)))))))) (Cert.anil)))))))))) (Cert.acons (Cert.pick (1, 1) (Cert.all (Cert.acons (Cert.pick (0, 1) (Cert.all (Cert.acons (Cert.pick (2, 1) (Cert.tip)) (Cert.acons (Cert.pick (2, 1) (Cert.tip)) (Cert.acons (Cert.pick (2, 1) (Cert.tip)) (Cert.acons (Cert.pick (2, 1) (Cert.tip)) (Cert.acons (Cert.pick (2, 0) (Cert.all (Cert.acons (Cert.pick (1, 2) (Cert.all (Cert.acons (Cert.tip) (Cert.anil)))) (Cert.acons (Cert.pick (0, 2) (Cert.tip)) (Cert.acons (Cert.pick (0, 2) (Cert.tip)) (Cert.anil)))))) (Cert.anil)))))))) (Cert.acons (Cert.pick (1, 0) (Cert.all (Cert.acons (Cert.pick (1, 2) (Cert.tip)) (Cert.acons (Cert.pick (1, 2) (Cert.tip)) (Cert.acons (Cert.pick (0, 2) (Cert.all (Cert.acons (Cert.pick (2, 0) (Cert.tip)) (Cert.acons (Cert.pick (2, 1) (Cert.all (Cert.acons (Cert.tip) (Cert.anil)))) (Cert.acons (Cert.pick (2, 0) (Cert.tip)) (Cert.anil)))))) (Cert.acons (Cert.pick (1, 2) (Cert.tip)) (Cert.acons (Cert.pick (1, 2) (Cert.tip)) (Cert.anil)))))))) (Cert.acons (Cert.pick (1, 2) (Cert.all (Cert.acons (Cert.pick (1, 0) (Cert.tip)) (Cert.acons (Cert.pick (1, 0) (Cert.tip)) (Cert.acons (Cert.pick (0, 1) (Cert.all (Cert.acons (Cert.pick (2, 1) (Cert.tip)) (Cert.acons (Cert.pick (2, 1) (Cert.tip)) (Cert.acons (Cert.pick (2, 0) (Cert.all (Cert.acons (Cert.tip) (Cert.anil)))) (Cert.anil)))))) (Cert.acons (Cert.pick (1, 0) (Cert.tip)) (Cert.acons (Cert.pick (1, 0) (Cert.tip)) (Cert.anil)))))))) (Cert.acons (Cert.pick (0, 1) (Cert.all (Cert.acons (Cert.pick (2, 1) (Cert.tip)) (Cert.acons (Cert.pick (2, 1) (Cert.tip)) (Cert.acons (Cert.pick (2, 1) (Cert.tip)) (Cert.acons (Cert.pick (2, 1) (Cert.tip)) (Cert.acons (Cert.pick (2, 0) (Cert.all (Cert.acons (Cert.pick (0, 2) (Cert.tip)) (Cert.acons (Cert.pick (1, 2) (Cert.all (Cert.acons (Cert.tip) (Cert.anil)))) (Cert.acons (Cert.pick (0, 2) (Cert.tip)) (Cert.anil)))))) (Cert.anil)))))))) (Cert.acons (Cert.pick (0, 2) (Cert.all (Cert.acons (Cert.pick (2, 0) (Cert.tip)) (Cert.acons (Cert.pick (2, 0) (Cert.tip)) (Cert.acons (Cert.pick (2, 0) (Cert.tip)) (Cert.acons (Cert.pick (2, 1) (Cert.all (Cert.acons (Cert.pick (0, 1) (Cert.tip)) (Cert.acons (Cert.pick (0, 0) (Cert.all (Cert.acons (Cert.tip) (Cert.anil)))) (Cert.acons (Cert.pick (0, 1) (Cert.tip)) (Cert.anil)))))) (Cert.acons (Cert.pick (2, 0) (Cert.tip)) (Cert.anil)))))))) (Cert.acons (Cert.pick (2, 1) (Cert.all (Cert.acons (Cert.pick (0, 1) (Cert.tip)) (Cert.acons (Cert.pick (1, 0) (Cert.all (Cert.acons (Cert.pick (1, 2) (Cert.tip)) (Cert.acons (Cert.pick (1, 2) (Cert.tip)) (Cert.acons (Cert.pick (0, 2) (Cert.all (Cert.acons (Cert.tip) (Cert.anil)))) (Cert.anil)))))) (Cert.acons (Cert.pick (0, 1) (Cert.tip)) (Cert.acons (Cert.pick (0, 1) (Cert.tip)) (Cert.acons (Cert.pick (0, 1) (Cert.tip)) (Cert.anil)))))))) (Cert.acons (Cert.pick (2, 0) (Cert.all (Cert.acons (Cert.pick (0, 2) (Cert.tip)) (Cert.acons (Cert.pick (0, 2) (Cert.tip)) (Cert.acons (Cert.pick (1, 2) (Cert.all (Cert.acons (Cert.pick (1, 0) (Cert.tip)) (Cert.acons (Cert.pick (1, 0) (Cert.tip)) (Cert.acons (Cert.pick (0, 0) (Cert.all (Cert.acons (Cert.tip) (Cert.anil)))) (Cert.anil)))))) (Cert.acons (Cert.pick (0, 2) (Cert.tip)) (Cert.acons (Cert.pick (0, 2) (Cert.tip)) (Cert.anil)))))))) (Cert.anil)))))))))) (Cert.anil))))))))))

-- the game-theoretic value of the empty board: tic-tac-toe is a draw
theorem initGame_value : (agentMax Player.X searchFuel initGame).1 = .fin 0 := by
  have hge : EV.le (.fin 0) (agentMax Player.X (9 + 1) initGame).1 = true :=
    (checkGe_sound Player.X 0 certGeX).1 9 initGame wf_initGame (by decide) (by decide!)
  have hle : EV.le (agentMax Player.X (9 + 1) initGame).1 (.fin 0) = true :=
    (checkLe_sound Player.X 0 certLeX).1 9 initGame wf_initGame (by decide) (by decide!)
  exact EV.le_antisymm hle hge

-- a game of self-play: at every step the agent owning the symbol to move
-- produces the move via `get_best_move`; `flag` selects the variant used at
-- each step
def selfPlay (flag : Game → Bool) : Nat → Game → Game
  | 0, g => g
  | n + 1, g =>
    if g.is_terminal then g
    else
      match (get_best_move g.current_player (flag g) g).1 with
      | none => g
      | some m => selfPlay flag n (g.make_move m.1 m.2).2

-- a terminal state whose value for the mover is 0 is a draw
theorem terminal_value_draw {g : Game} (hterm : g.is_terminal = true)
    (hval : (agentMax g.current_player searchFuel g).1 = .fin 0) :
    g.check_winner = some .draw := by
  rw [show searchFuel = 9 + 1 from rfl] at hval
  rw [agentMax_terminal g.current_player 9 hterm] at hval
  have hval' : EV.fin (g.utility g.current_player) = EV.fin 0 := hval
  have hu : g.utility g.current_player = 0 := by injection hval'
  cases hwin : g.check_winner with
  | none =>
    have hie : g.get_legal_actions.isEmpty = true := by
      unfold Game.is_terminal at hterm
      rw [hwin] at hterm
      simpa using hterm
    have hnil : g.get_legal_actions = [] := by
      cases hl : g.get_legal_actions
      · rfl
      · rw [hl] at hie; simp [List.isEmpty] at hie
    exact absurd hwin (legal_nil_winner hnil)
  | some o =>
    cases o with
    | draw => rfl
    | win q =>
      have hq := utility_eq_win hwin g.current_player
      rw [hq] at hu
      cases hb : q.beq g.current_player <;> rw [hb] at hu <;> simp at hu

-- a best_move step from a value-0 state leads to a value-0 state for the
-- next mover
theorem step_preserves (flag : Game → Bool) {g : Game} (hre : Reachable g)
    (hterm : g.is_terminal = false)
    (hval : (agentMax g.current_player searchFuel g).1 = .fin 0) :
    ∃ m : Move, (get_best_move g.current_player (flag g) g).1 = some m ∧
      m ∈ g.get_legal_actions ∧
      (agentMax (childG g m).current_player searchFuel (childG g m)).1 = .fin 0 := by
  have hw := reachable_wf hre
  have hE : g.get_legal_actions.length < 9 + 1 := Nat.lt_succ_of_le (legal_le_9 g)
  obtain ⟨m, hm, hmv, hmval⟩ := @agentMax_attain g.current_player 9 g hw hE hterm
  refine ⟨m, ?_, hm, ?_⟩
  · cases hflag : flag g
    · exact hmv
    · show (abMax g.current_player (9 + 1) g .ninf .pinf).2.1 = some m
      rw [(ab_plain_root g.current_player 9 g hw hE).2]
      exact hmv
  · have h1 : (agentMin g.current_player 9 (childG g m)).1 = .fin 0 := by
      rw [← hmval]
      rw [show searchFuel = 9 + 1 from rfl] at hval
      exact hval
    have h2 := ((agent_neg g.current_player 9 (childG g m)).1).1
    rw [h1] at h2
    have h3 : (agentMax g.current_player.other 9 (childG g m)).1 = .fin 0 := by
      cases hx : (agentMax g.current_player.other 9 (childG g m)).1 with
      | ninf => rw [hx] at h2; exact absurd h2 (by simp [EV.neg])
      | pinf => rw [hx] at h2; exact absurd h2 (by simp [EV.neg])
      | fin z =>
        rw [hx] at h2
        simp only [EV.neg] at h2
        injection h2 with hz
        congr 1
        omega
    have hlen : (childG g m).get_legal_actions.length < 9 := by
      have := legal_childG hw hm
      have := legal_le_9 g
      omega
    have h4 := (agent_fuel_irrel g.current_player.other 9 searchFuel (childG g m)
      (wf_childG hw) hlen (Nat.lt_trans hlen (by decide))).1
    rw [childG_player hm, ← h4]
    exact h3

theorem selfPlay_draw_aux (flag : Game → Bool) : ∀ (n : Nat) (g : Game),
    Reachable g → g.get_legal_actions.length ≤ n →
    (agentMax g.current_player searchFuel g).1 = .fin 0 →
    (selfPlay flag n g).check_winner = some .draw := by
  intro n
  induction n with
  | zero =>
    intro g hre hlen hval
    have hnil : g.get_legal_actions = [] :=
      List.length_eq_zero.mp (Nat.le_zero.mp hlen)
    have hterm : g.is_terminal = true := by
      unfold Game.is_terminal
      rw [hnil]
      simp [List.isEmpty]
    exact terminal_value_draw hterm hval
  | succ n ih =>
    intro g hre hlen hval
    rw [selfPlay]
    cases hterm : g.is_terminal
    · simp only [Bool.false_eq_true, if_false]
      obtain ⟨m, hbm, hm, hval'⟩ := step_preserves flag hre hterm hval
      rw [hbm]
      have hre' : Reachable (childG g m) :=
        Reachable.step g m.1 m.2 hre (mem_legal_iff_valid.mp hm)
      have hlen' : (childG g m).get_legal_actions.length ≤ n := by
        have := legal_childG (reachable_wf hre) hm
        omega
      exact ih (childG g m) hre' hlen' hval'
    · simp only [if_true]
      exact terminal_value_draw hterm hval

/-- C8: starting from the empty board with PlayerA (X) to move, if every move
of the game is produced by best_move of an agent owning the symbol to move —
with either search variant chosen independently at every step — the game ends
with check_winner returning Draw: neither side ever wins. -/
theorem self_play_draw (flag : Game → Bool) :
    (selfPlay flag 9 initGame).check_winner = some Outcome.draw :=
  selfPlay_draw_aux flag 9 initGame Reachable.init (by decide) initGame_value
